import Mathlib

/-!
# Verification of the bucket accounting / disk reservation core (bcachefs-tools)

Shallow embedding of `buckets.c` (the bucket-mark / usage-counter / disk
reservation core).  Machine integers are modelled as `Nat` (unsigned) or
`Int` (signed), with explicit `% 2^w` reductions where the C code can wrap.
Per-CPU sharding is collapsed to explicit shard state; the CAS loops become
single-step state transformations (the sequential semantics of a successful
CAS); `BUG_ON` traps are modelled by an explicit `trap` outcome.
-/

namespace Buckets

/-- `enum bch_data_type` (order as in the C enum: none, sb, journal, btree,
user, cached). -/
inductive BchDataType where
  | none | sb | journal | btree | user | cached
  deriving DecidableEq, Inhabited, Repr

/-- `struct bucket_mark`: the packed 64-bit per-bucket state record.
Field widths (spec §3 layout): gen 8, data_type 4, owned_by_allocator 1,
dirty_sectors 15, cached_sectors 15, stripe 1, journal_seq_valid 1,
journal_seq the remaining 19 bits. -/
structure BucketMark where
  gen : Nat
  data_type : BchDataType
  owned_by_allocator : Bool
  dirty_sectors : Nat
  cached_sectors : Nat
  stripe : Bool
  journal_seq_valid : Bool
  journal_seq : Nat
  deriving DecidableEq, Inhabited, Repr

/-- `struct bch_dev_usage`: per-device usage counters.  The u64 counters are
modelled as `Int`: deltas are added with two's-complement wraparound in C,
which is ring-homomorphic to `Int` arithmetic. -/
structure BchDevUsage where
  buckets : BchDataType → Int
  buckets_alloc : Int
  buckets_ec : Int
  buckets_unavailable : Int
  sectors : BchDataType → Int
  sectors_fragmented : Int
  deriving Inhabited

/-- The `s` summary sub-struct of `struct bch_fs_usage`. -/
structure FsUsageSummarized where
  hidden : Int
  data : Int
  cached : Int
  reserved : Int
  nr_inodes : Int
  online_reserved : Int
  deriving DecidableEq, Inhabited, Repr

/-- One entry of the `replicas[]` array of `struct bch_fs_usage`. -/
structure ReplicasUsage where
  data : BchDataType → Int
  ec_data : Int
  persistent_reserved : Int
  deriving Inhabited

/-- `struct bch_fs_usage` (fs-wide usage counters; the `replicas` array is
indexed 0 .. BCH_REPLICAS_MAX-1, modelled as a total function). -/
structure BchFsUsage where
  s : FsUsageSummarized
  replicas : Nat → ReplicasUsage
  buckets : BchDataType → Int
  deriving Inhabited

/-- `BCH_REPLICAS_MAX` = `ARRAY_SIZE(fs_usage->replicas)`. -/
def BCH_REPLICAS_MAX : Nat := 4

/-- `EC_STRIPE_MAX` (ec_types.h). -/
def EC_STRIPE_MAX : Nat := 16

/-- `struct stripe` (ec_types.h): in-memory stripe record.  `block_sectors`
entries are C `atomic_t` (signed), modelled as `Int`. -/
structure Stripe where
  sectors : Nat
  algorithm : Nat
  nr_blocks : Nat
  nr_redundant : Nat
  alive : Bool
  blocks_nonempty : Int
  block_sectors : Nat → Int
  deriving Inhabited

/-- `struct bch_dev`: the parts of a device handle used by this core:
bucket size, the two (live / gc) bucket arrays, the two usage shards. -/
structure BchDev where
  bucket_size : Nat
  buckets : Bool → Nat → BucketMark
  usage : Bool → BchDevUsage
  deriving Inhabited

/-- `struct disk_reservation`. -/
structure DiskReservation where
  sectors : Nat
  deriving DecidableEq, Inhabited, Repr

/-- The filesystem state visible to this core: devices, the two fs-usage
shards (live = `usage false`, gc = `usage true`), the two stripe maps, GC's
cursor, the global `sectors_available` pool, the per-CPU
`sectors_available` caches, capacity and options. -/
structure BchFs where
  devs : Nat → BchDev
  usage : Bool → BchFsUsage
  stripes : Bool → Nat → Option Stripe
  gc_cur : Nat
  sectors_available : Nat
  pcpu_cache : Nat → Nat
  cur_cpu : Nat
  capacity : Nat
  btree_node_size : Nat
  alloc_read_done : Bool
  deriving Inhabited

/-- Modelled from the spec: `gc_visited(c, pos)` — GC's cursor has already
swept past this btree position (positions are collapsed to naturals ordered
by GC sweep order; `gc_pos_cmp(pos, c->gc_pos) < 0`). -/
def gc_visited (c : BchFs) (pos : Nat) : Bool :=
  decide (pos < c.gc_cur)

/-- Marking-call flags (`BCH_BUCKET_MARK_GC`, `BCH_BUCKET_MARK_NOATOMIC`). -/
structure MarkFlags where
  gc : Bool
  noatomic : Bool
  deriving DecidableEq, Inhabited, Repr

/-- Reservation flags (`BCH_DISK_RESERVATION_{NOFAIL,GC_LOCK_HELD,BTREE_LOCKS_HELD}`). -/
structure ResFlags where
  nofail : Bool
  gc_lock_held : Bool
  btree_locks_held : Bool
  deriving DecidableEq, Inhabited, Repr

/-! ## Reserve / avail factor arithmetic (u64 semantics) -/

def U64 : Nat := 2 ^ 64

/-- kernel `round_up(r, 1 << 6)` in u64 arithmetic: `((r - 1) | 63) + 1`
computed mod 2^64, i.e. `(r + 63) mod 2^64` rounded down to a multiple
of 64. -/
def round_up64 (r : Nat) : Nat :=
  (r + 63) % U64 / 64 * 64

/-- `RESERVE_FACTOR` = 6. -/
def RESERVE_FACTOR : Nat := 6

/-- `reserve_factor(r) = r + (round_up(r, 1 << 6) >> 6)` in u64 arithmetic. -/
def reserve_factor (r : Nat) : Nat :=
  (r + round_up64 r / 64) % U64

/-- `avail_factor(r) = (r << 6) / 65` in u64 arithmetic. -/
def avail_factor (r : Nat) : Nat :=
  r * 64 % U64 / 65

/-! ## Small helpers from buckets.h / the marking engine -/

/-- Modelled from the spec: `bucket_sectors_used(m)` (buckets.h, not under
src/) — the sectors in use in a bucket: dirty plus cached. -/
def bucket_sectors_used (m : BucketMark) : Nat :=
  m.dirty_sectors + m.cached_sectors

/-- Modelled from the spec: `is_available_bucket(m)` (buckets.h, not under
src/).  Spec §3: *available* = free or cached; *unavailable* = dirty,
metadata, or allocator-owned.  So a bucket is available iff it is not
allocator-owned, has no dirty sectors, and holds no metadata. -/
def is_available_bucket (m : BucketMark) : Bool :=
  !m.owned_by_allocator && decide (m.dirty_sectors = 0) &&
    !(m.data_type = BchDataType.sb || m.data_type = BchDataType.journal ||
      m.data_type = BchDataType.btree)

/-- `is_unavailable_bucket` (buckets.c). -/
def is_unavailable_bucket (m : BucketMark) : Bool :=
  !is_available_bucket m

/-- `is_fragmented_bucket` (buckets.c). -/
def is_fragmented_bucket (m : BucketMark) (ca : BchDev) : Int :=
  if !m.owned_by_allocator && decide (m.data_type = BchDataType.user) &&
      decide (bucket_sectors_used m ≠ 0) then
    max 0 ((ca.bucket_size : Int) - (bucket_sectors_used m : Int))
  else 0

/-- `bucket_type` (buckets.c): a bucket with cached but no dirty sectors
counts as a cached bucket, otherwise as its stored data type. -/
def bucket_type (m : BucketMark) : BchDataType :=
  if m.cached_sectors ≠ 0 && m.dirty_sectors = 0 then BchDataType.cached
  else m.data_type

/-- `bucket_became_unavailable` (buckets.c). -/
def bucket_became_unavailable (old new : BucketMark) : Bool :=
  is_available_bucket old && !is_available_bucket new

/-- Modelled from the spec: `gen_after(a, b)` (buckets.h, not under src/) —
wraparound-aware comparison of 8-bit generation numbers: `a` is strictly
after `b` iff `(a - b) mod 256`, read as a signed 8-bit value, is
positive. -/
def gen_after (a b : Nat) : Bool :=
  let d := (a % 256 + 256 - b % 256) % 256
  decide (0 < d ∧ d < 128)

/-- `checked_add(a, b)` (buckets.c): 32-bit unsigned addition followed by
assignment into the 15-bit packed sector field; `BUG_ON` (here: `none`) if
the stored value differs from the 32-bit sum, i.e. on overflow of the
15-bit field. -/
def checked_add (a : Nat) (b : Int) : Option Nat :=
  let r := (((a : Int) + b) % (2 ^ 32 : Int)).toNat
  if r < 2 ^ 15 then some r else none

/-- Outcome of a marking call: `ok` (returns 0), `err` (returns -1, with the
state as mutated so far), or `trap` (a `BUG_ON` fired). -/
inductive CRes (α : Type) where
  | ok : α → CRes α
  | err : α → CRes α
  | trap : CRes α
  deriving Repr, DecidableEq

def CRes.isOk {α : Type} : CRes α → Bool
  | .ok _ => true
  | _ => false

def CRes.isErr {α : Type} : CRes α → Bool
  | .err _ => true
  | _ => false

def CRes.get {α : Type} [Inhabited α] : CRes α → α
  | .ok a => a
  | .err a => a
  | .trap => default

/-- Signed indicator of a condition (the implicit C `bool`→`int` casts). -/
def bInt (b : Bool) : Int := if b then 1 else 0

/-- Reduce an `Int`-modelled counter to its u64 bit pattern. -/
def u64 (i : Int) : Nat := (i % (2 ^ 64 : Int)).toNat

/-! ## State-update helpers (the C code mutates in place) -/

def BchFs.setBucketAndUsage (c : BchFs) (dev : Nat) (gc : Bool) (b : Nat)
    (m : BucketMark) (du : BchDevUsage) : BchFs :=
  let ca := c.devs dev
  let ca' : BchDev :=
    { ca with
      buckets := fun g i => if g = gc ∧ i = b then m else ca.buckets g i,
      usage := fun g => if g = gc then du else ca.usage g }
  { c with devs := Function.update c.devs dev ca' }

def BchFs.setUsage (c : BchFs) (gc : Bool) (u : BchFsUsage) : BchFs :=
  { c with usage := fun g => if g = gc then u else c.usage g }

def BchFs.setStripe (c : BchFs) (gc : Bool) (idx : Nat) (m : Stripe) : BchFs :=
  { c with stripes := fun g i => if g = gc ∧ i = idx then some m else c.stripes g i }

def BchFsUsage.updReplicas (u : BchFsUsage) (i : Nat)
    (f : ReplicasUsage → ReplicasUsage) : BchFsUsage :=
  { u with replicas := Function.update u.replicas i (f (u.replicas i)) }

def BchDevUsage.updSectors (du : BchDevUsage) (t : BchDataType) (v : Int) :
    BchDevUsage :=
  { du with sectors := Function.update du.sectors t v }

/-- `r->data[t] += v` on one replicas entry. -/
def ReplicasUsage.addData (r : ReplicasUsage) (t : BchDataType) (v : Int) :
    ReplicasUsage :=
  { r with data := Function.update r.data t (r.data t + v) }

/-! ## Device usage update (`bch2_dev_usage_update`, `account_bucket`) -/

/-- `account_bucket` (buckets.c). -/
def account_bucket (fs_usage : BchFsUsage) (dev_usage : BchDevUsage)
    (type : BchDataType) (nr : Int) (size : Int) : BchFsUsage × BchDevUsage :=
  let fs_usage :=
    if type = BchDataType.sb ∨ type = BchDataType.journal then
      { fs_usage with s := { fs_usage.s with hidden := fs_usage.s.hidden + size } }
    else fs_usage
  ({ fs_usage with
      buckets := Function.update fs_usage.buckets type (fs_usage.buckets type + size) },
   { dev_usage with
      buckets := Function.update dev_usage.buckets type (dev_usage.buckets type + nr) })

/-- `bch2_dev_usage_update` (buckets.c): fold the old→new bucket-mark delta
into the device-usage shard and the fs-usage struct.  The inconsistency
check is a log (not a trap) and the allocator wake-up is external; both are
dropped from the state model. -/
def bch2_dev_usage_update (ca : BchDev) (fs_usage : BchFsUsage)
    (dev_usage : BchDevUsage) (old new : BucketMark) :
    BchFsUsage × BchDevUsage :=
  let fd :=
    if bucket_type old ≠ BchDataType.none then
      account_bucket fs_usage dev_usage (bucket_type old) (-1) (-(ca.bucket_size : Int))
    else (fs_usage, dev_usage)
  let fd :=
    if bucket_type new ≠ BchDataType.none then
      account_bucket fd.1 fd.2 (bucket_type new) 1 (ca.bucket_size : Int)
    else fd
  let fs_usage := fd.1
  let dev_usage := fd.2
  let dev_usage := { dev_usage with
    buckets_alloc := dev_usage.buckets_alloc +
      (bInt new.owned_by_allocator - bInt old.owned_by_allocator),
    buckets_ec := dev_usage.buckets_ec + (bInt new.stripe - bInt old.stripe),
    buckets_unavailable := dev_usage.buckets_unavailable +
      (bInt (is_unavailable_bucket new) - bInt (is_unavailable_bucket old)) }
  let dev_usage := dev_usage.updSectors old.data_type
    (dev_usage.sectors old.data_type - (old.dirty_sectors : Int))
  let dev_usage := dev_usage.updSectors new.data_type
    (dev_usage.sectors new.data_type + (new.dirty_sectors : Int))
  let dev_usage := dev_usage.updSectors BchDataType.cached
    (dev_usage.sectors BchDataType.cached +
      ((new.cached_sectors : Int) - (old.cached_sectors : Int)))
  let dev_usage := { dev_usage with sectors_fragmented :=
    dev_usage.sectors_fragmented +
      (is_fragmented_bucket new ca - is_fragmented_bucket old ca) }
  (fs_usage, dev_usage)

/-! ## Extent pointers -/

/-- `struct bch_extent_ptr` as the marking engine consumes it.  `bucket` is
`PTR_BUCKET_NR(ca, ptr)` (the sector-offset→bucket-number division is out of
scope; the resolved bucket number is carried directly). -/
structure BchExtentPtr where
  dev : Nat
  gen : Nat
  cached : Bool
  bucket : Nat
  deriving DecidableEq, Inhabited, Repr

/-- The crc/compression part of `struct extent_ptr_decoded`. -/
structure BchExtentCrc where
  compression_type : Nat
  live_size : Nat
  compressed_size : Nat
  uncompressed_size : Nat
  deriving DecidableEq, Inhabited, Repr

/-- `struct bch_extent_stripe_ptr`. -/
structure BchExtentStripePtr where
  idx : Nat
  block : Nat
  deriving DecidableEq, Inhabited, Repr

/-- `struct extent_ptr_decoded` (`ec` has length `ec_nr`). -/
structure ExtentPtrDecoded where
  ptr : BchExtentPtr
  crc : BchExtentCrc
  ec : List BchExtentStripePtr
  deriving DecidableEq, Inhabited, Repr

/-- Modelled from the spec: `__ptr_disk_sectors(p, live_size)` (buckets.h,
not under src/) — per-pointer compression/crc scaling: a compressed
pointer's disk footprint is its live size scaled by the compressed /
uncompressed ratio, rounded up, at least one sector; an uncompressed
pointer occupies its live size. -/
def ptr_disk_sectors_of_size (p : ExtentPtrDecoded) (live_size : Nat) : Nat :=
  if p.crc.compression_type ≠ 0 ∧ live_size ≠ 0 then
    max 1 ((live_size * p.crc.compressed_size + (p.crc.uncompressed_size - 1)) /
            p.crc.uncompressed_size)
  else live_size

/-- Modelled from the spec: `ptr_disk_sectors(p)` (buckets.h, not under
src/) — the current disk footprint of the pointer. -/
def ptr_disk_sectors (p : ExtentPtrDecoded) : Nat :=
  ptr_disk_sectors_of_size p p.crc.live_size

/-- `ptr_disk_sectors_delta` (buckets.c): disk-sector delta for marking
`delta` live sectors of pointer `p`; `BUG_ON(-delta > p.crc.live_size)`
becomes `none`. -/
def ptr_disk_sectors_delta (p : ExtentPtrDecoded) (delta : Int) : Option Int :=
  if 0 < delta then
    some (ptr_disk_sectors_of_size p delta.toNat : Nat)
  else if p.crc.live_size < (-delta).toNat then none
  else
    some ((ptr_disk_sectors_of_size p (p.crc.live_size - (-delta).toNat) : Int) -
          (ptr_disk_sectors p : Int))

/-! ## `bch2_mark_pointer` -/

/-- `bch2_mark_pointer` (buckets.c).  The CAS loop becomes a single-step
update; `BCH_BUCKET_MARK_NOATOMIC` produces the same final state.  Returns
`none` when a `BUG_ON` fires (gen check before alloc read is done, sector
overflow via `checked_add`, or a non-GC mark making a bucket
unavailable). -/
def bch2_mark_pointer (c : BchFs) (p : ExtentPtrDecoded) (sectors : Int)
    (data_type : BchDataType) (fs_usage : BchFsUsage) (journal_seq : Nat)
    (_flags : MarkFlags) (gc : Bool) : Option (BchFs × BchFsUsage) :=
  let ca := c.devs p.ptr.dev
  let b := p.ptr.bucket
  let old := ca.buckets gc b
  if gen_after old.gen p.ptr.gen then
    if !c.alloc_read_done then none
    else some (c, fs_usage)
  else
    match (if !p.ptr.cached then checked_add old.dirty_sectors sectors
           else some old.dirty_sectors),
          (if p.ptr.cached then checked_add old.cached_sectors sectors
           else some old.cached_sectors) with
    | some d, some cs =>
      let base : BucketMark := { old with dirty_sectors := d, cached_sectors := cs }
      let new : BucketMark :=
        if d = 0 ∧ cs = 0 then
          if journal_seq ≠ 0 then
            { base with data_type := BchDataType.none, journal_seq_valid := true,
                        journal_seq := journal_seq % 2 ^ 19 }
          else { base with data_type := BchDataType.none }
        else { base with data_type := data_type }
      let fd := bch2_dev_usage_update ca fs_usage (ca.usage gc) old new
      if !gc && bucket_became_unavailable old new then none
      else some (c.setBucketAndUsage p.ptr.dev gc b new fd.2, fd.1)
    | _, _ => none

/-! ## `bch2_mark_stripe_ptr` and `bch2_mark_extent` -/

/-- `bch2_mark_stripe_ptr` (buckets.c).  A missing or dead stripe is logged
(rate-limited) and returns -1 (`err`) without mutating anything; otherwise
the parity sectors are added to the pointer's adjusted disk sectors, the
redundancy maximum is updated, and the stripe's per-block sector count and
non-empty-block count are updated (the stripes-heap push in the non-GC case
lives outside the modelled state). -/
def bch2_mark_stripe_ptr (c : BchFs) (p : BchExtentStripePtr) (sectors : Int)
    (_flags : MarkFlags) (adjusted_disk_sectors : Int) (redundancy : Nat)
    (gc : Bool) : CRes (BchFs × Int × Nat) :=
  match c.stripes gc p.idx with
  | Option.none => .err (c, adjusted_disk_sectors, redundancy)
  | Option.some m =>
    if !m.alive then .err (c, adjusted_disk_sectors, redundancy)
    else
      let nr_data := m.nr_blocks - m.nr_redundant
      let pabs : Nat := (sectors.natAbs * m.nr_redundant + (nr_data - 1)) / nr_data
      let parity_sectors : Int := if sectors < 0 then -(pabs : Int) else (pabs : Int)
      let adj := adjusted_disk_sectors + parity_sectors
      let red := max redundancy (m.nr_redundant + 1)
      let newbs := m.block_sectors p.block + sectors
      let oldbs := newbs - sectors
      let m := { m with block_sectors := Function.update m.block_sectors p.block newbs }
      let delta := bInt (newbs ≠ 0) - bInt (oldbs ≠ 0)
      if delta = 0 then .ok (c.setStripe gc p.idx m, adj, red)
      else
        let m := { m with blocks_nonempty := m.blocks_nonempty + delta }
        if m.blocks_nonempty < 0 then .trap
        else .ok (c.setStripe gc p.idx m, adj, red)

/-- The inner `for (i = 0; i < p.ec_nr; i++)` loop of `bch2_mark_extent`:
mark each stripe reference of one pointer, threading the adjusted disk
sectors and the redundancy maximum; the first failing reference aborts with
the state as mutated so far. -/
def markStripeRefs (c : BchFs) (ecl : List BchExtentStripePtr) (sectors : Int)
    (flags : MarkFlags) (adj : Int) (red : Nat) (gc : Bool) :
    CRes (BchFs × Int × Nat) :=
  match ecl with
  | [] => .ok (c, adj, red)
  | e :: rest =>
    match bch2_mark_stripe_ptr c e sectors flags adj red gc with
    | .ok (c', adj', red') => markStripeRefs c' rest sectors flags adj' red' gc
    | .err s => .err s
    | .trap => .trap

/-- The accumulators of `bch2_mark_extent`'s pointer walk. -/
structure ExtentAcc where
  cached_sectors : Int
  dirty_sectors : Int
  ec_sectors : Int
  replicas : Nat
  ec_redundancy : Nat
  deriving DecidableEq, Inhabited, Repr

/-- The `bkey_for_each_ptr_decode` loop of `bch2_mark_extent`: mark each
pointer (and its stripe references), accumulating cached / dirty / ec
sector sums, the replica count and the ec redundancy.  A stripe error
propagates out with the state mutated so far (`return ret`). -/
def markExtentPtrs (c : BchFs) (ptrs : List ExtentPtrDecoded) (sectors : Int)
    (data_type : BchDataType) (fs_usage : BchFsUsage) (journal_seq : Nat)
    (flags : MarkFlags) (gc : Bool) (acc : ExtentAcc) :
    CRes (BchFs × BchFsUsage × ExtentAcc) :=
  match ptrs with
  | [] => .ok (c, fs_usage, acc)
  | p :: rest =>
    let disk_sectors? : Option Int :=
      if data_type = BchDataType.btree then some sectors
      else ptr_disk_sectors_delta p sectors
    match disk_sectors? with
    | Option.none => .trap
    | Option.some disk_sectors =>
      match bch2_mark_pointer c p disk_sectors data_type fs_usage journal_seq flags gc with
      | Option.none => .trap
      | Option.some (c, fs_usage) =>
        let sres : CRes (BchFs × Int × Nat) :=
          if !p.ptr.cached then
            markStripeRefs c p.ec disk_sectors flags disk_sectors acc.ec_redundancy gc
          else .ok (c, disk_sectors, acc.ec_redundancy)
        match sres with
        | .trap => .trap
        | .err s => .err (s.1, fs_usage, acc)
        | .ok (c, adjusted_disk_sectors, red) =>
          let acc := { acc with ec_redundancy := red }
          let acc := if !p.ptr.cached then { acc with replicas := acc.replicas + 1 }
                     else acc
          let acc :=
            if p.ptr.cached then
              { acc with cached_sectors := acc.cached_sectors + adjusted_disk_sectors }
            else if p.ec.isEmpty then
              { acc with dirty_sectors := acc.dirty_sectors + adjusted_disk_sectors }
            else
              { acc with ec_sectors := acc.ec_sectors + adjusted_disk_sectors }
          markExtentPtrs c rest sectors data_type fs_usage journal_seq flags gc acc

/-- `bch2_mark_extent` (buckets.c): `BUG_ON(!sectors)`, then the pointer
walk, then the fold of the accumulated sums into the fs-usage struct with
replica counts clamped to `[1, BCH_REPLICAS_MAX]`. -/
def bch2_mark_extent (c : BchFs) (ptrs : List ExtentPtrDecoded) (sectors : Int)
    (data_type : BchDataType) (fs_usage : BchFsUsage) (journal_seq : Nat)
    (flags : MarkFlags) (gc : Bool) : CRes (BchFs × BchFsUsage) :=
  if sectors = 0 then .trap
  else
    match markExtentPtrs c ptrs sectors data_type fs_usage journal_seq flags gc
        ⟨0, 0, 0, 0, 0⟩ with
    | .trap => .trap
    | .err s => .err (s.1, s.2.1)
    | .ok (c, fs_usage, acc) =>
      let replicas := min (max acc.replicas 1) BCH_REPLICAS_MAX
      let ec_redundancy := min (max acc.ec_redundancy 1) BCH_REPLICAS_MAX
      let u := fs_usage
      let u := { u with s := { u.s with cached := u.s.cached + acc.cached_sectors } }
      let u := u.updReplicas 0 (fun r =>
        r.addData BchDataType.cached acc.cached_sectors)
      let u := { u with s := { u.s with data := u.s.data + acc.dirty_sectors } }
      let u := u.updReplicas (replicas - 1) (fun r =>
        r.addData data_type acc.dirty_sectors)
      let u := { u with s := { u.s with data := u.s.data + acc.ec_sectors } }
      let u := u.updReplicas (ec_redundancy - 1) (fun r =>
        { r with ec_data := r.ec_data + acc.ec_sectors })
      .ok (c, u)

/-! ## Stripe keys (`bucket_set_stripe`, `bch2_mark_stripe`) -/

/-- The value of a `KEY_TYPE_stripe` key (`struct bch_stripe`);
`nr_blocks` is the length of `ptrs`. -/
structure BchStripeVal where
  sectors : Nat
  algorithm : Nat
  nr_redundant : Nat
  ptrs : List BchExtentPtr
  deriving DecidableEq, Inhabited, Repr

/-- `bucket_set_stripe` (buckets.c): set/clear the stripe bit on each
block's bucket.  `BUG_ON(ptr_stale(...))` (the pointer's gen is behind the
live bucket's gen) and `BUG_ON(old.stripe == enabled)` become `none`. -/
def bucket_set_stripe (c : BchFs) (ptrs : List BchExtentPtr) (enabled : Bool)
    (fs_usage : BchFsUsage) (journal_seq : Nat) (gc : Bool) :
    Option (BchFs × BchFsUsage) :=
  match ptrs with
  | [] => some (c, fs_usage)
  | ptr :: rest =>
    let ca := c.devs ptr.dev
    if gen_after ((ca.buckets false ptr.bucket).gen) ptr.gen then none
    else
      let old := ca.buckets gc ptr.bucket
      let new : BucketMark :=
        if journal_seq ≠ 0 then
          { old with stripe := enabled, journal_seq_valid := true,
                     journal_seq := journal_seq % 2 ^ 19 }
        else { old with stripe := enabled }
      let fd := bch2_dev_usage_update ca fs_usage (ca.usage gc) old new
      if old.stripe = enabled then none
      else
        bucket_set_stripe (c.setBucketAndUsage ptr.dev gc ptr.bucket new fd.2)
          rest enabled fd.1 journal_seq gc

/-- `bch2_mark_stripe` (buckets.c): create (`inserting`) or retire a stripe
record and set/clear the stripe bit on each referenced bucket.  Missing
stripes, retiring a dead stripe, or inserting over a live one return -1;
the `BUG_ON`s on leftover block sectors become `none`-like `trap`.  The
stripes-heap insert/delete (non-GC) is not under src/; modelled from the
spec ("create or retire a stripe record") as setting `alive`, as the GC
branch does explicitly. -/
def bch2_mark_stripe (c : BchFs) (idx : Nat) (v : BchStripeVal)
    (inserting : Bool) (fs_usage : BchFsUsage) (_journal_seq : Nat)
    (_flags : MarkFlags) (gc : Bool) : CRes (BchFs × BchFsUsage) :=
  match c.stripes gc idx with
  | Option.none => .err (c, fs_usage)
  | Option.some m =>
    if !inserting && !m.alive then .err (c, fs_usage)
    else if inserting && m.alive then .err (c, fs_usage)
    else if m.blocks_nonempty ≠ 0 then .trap
    else if (List.range EC_STRIPE_MAX).any (fun i => m.block_sectors i ≠ 0) then .trap
    else
      let m := if inserting then
          { m with sectors := v.sectors, algorithm := v.algorithm,
                   nr_blocks := v.ptrs.length, nr_redundant := v.nr_redundant }
        else m
      let m := { m with alive := inserting }
      match bucket_set_stripe (c.setStripe gc idx m) v.ptrs inserting fs_usage 0 gc with
      | Option.none => .trap
      | Option.some (c, fs_usage) => .ok (c, fs_usage)

/-! ## `__bch2_mark_key`, `bch2_mark_key_locked`, `bch2_mark_key` -/

/-- A decoded bkey as the marking engine dispatches on it. -/
inductive BkeyVal where
  | btree_ptr (ptrs : List ExtentPtrDecoded)
  | extent (ptrs : List ExtentPtrDecoded)
  | stripe (idx : Nat) (v : BchStripeVal)
  | alloc
  | reservation (nr_replicas : Nat)
  | other
  deriving DecidableEq, Inhabited, Repr

/-- `__bch2_mark_key` (buckets.c): dispatch on the key type. -/
def __bch2_mark_key (c : BchFs) (k : BkeyVal) (inserting : Bool)
    (sectors : Int) (fs_usage : BchFsUsage) (journal_seq : Nat)
    (flags : MarkFlags) (gc : Bool) : CRes (BchFs × BchFsUsage) :=
  match k with
  | .btree_ptr ptrs =>
    bch2_mark_extent c ptrs
      (if inserting then (c.btree_node_size : Int) else -(c.btree_node_size : Int))
      BchDataType.btree fs_usage journal_seq flags gc
  | .extent ptrs =>
    bch2_mark_extent c ptrs sectors BchDataType.user fs_usage journal_seq flags gc
  | .stripe idx v => bch2_mark_stripe c idx v inserting fs_usage journal_seq flags gc
  | .alloc =>
    .ok (c, { fs_usage with s := { fs_usage.s with
        nr_inodes := fs_usage.s.nr_inodes + (if inserting then 1 else -1) } })
  | .reservation nr_replicas =>
    let sectors := sectors * (nr_replicas : Int)
    let replicas := min (max nr_replicas 1) BCH_REPLICAS_MAX
    let u := { fs_usage with s := { fs_usage.s with
        reserved := fs_usage.s.reserved + sectors } }
    let u := u.updReplicas (replicas - 1) (fun r =>
      { r with persistent_reserved := r.persistent_reserved + sectors })
    .ok (c, u)
  | .other => .ok (c, fs_usage)

/-- `bch2_mark_key_locked` (buckets.c): unless `BCH_BUCKET_MARK_GC` is set,
mark into the caller's usage struct (or, when none is supplied, directly
into the live shard); then, if the GC flag is set or `gc_visited(pos)`
holds, mark into the gc shard.  An error from the first step returns
immediately. -/
def bch2_mark_key_locked (c : BchFs) (k : BkeyVal) (inserting : Bool)
    (sectors : Int) (pos : Nat) (fs_usage : Option BchFsUsage)
    (journal_seq : Nat) (flags : MarkFlags) :
    CRes (BchFs × Option BchFsUsage) :=
  let put : BchFs → BchFsUsage → BchFs × Option BchFsUsage := fun c u =>
    match fs_usage with
    | Option.some _ => (c, some u)
    | Option.none => (c.setUsage false u, none)
  let step1 : CRes (BchFs × Option BchFsUsage) :=
    if !flags.gc then
      match __bch2_mark_key c k inserting sectors (fs_usage.getD (c.usage false))
          journal_seq flags false with
      | .ok (c, u) => .ok (put c u)
      | .err (c, u) => .err (put c u)
      | .trap => .trap
    else .ok (c, fs_usage)
  match step1 with
  | .trap => .trap
  | .err s => .err s
  | .ok (c, fsu) =>
    if flags.gc || gc_visited c pos then
      match __bch2_mark_key c k inserting sectors (c.usage true) journal_seq flags true with
      | .ok (c, u) => .ok (c.setUsage true u, fsu)
      | .err (c, u) => .err (c.setUsage true u, fsu)
      | .trap => .trap
    else .ok (c, fsu)

/-- `bch2_mark_key` (buckets.c): `bch2_mark_key_locked` under a read pin of
the mark-lock (the lock is a no-op in this sequential model). -/
def bch2_mark_key (c : BchFs) (k : BkeyVal) (inserting : Bool) (sectors : Int)
    (pos : Nat) (fs_usage : Option BchFsUsage) (journal_seq : Nat)
    (flags : MarkFlags) : CRes (BchFs × Option BchFsUsage) :=
  bch2_mark_key_locked c k inserting sectors pos fs_usage journal_seq flags

/-! ## Allocator / metadata bucket marking -/

/-- `__bch2_mark_alloc_bucket` (buckets.c): flip `owned_by_allocator` on one
shard's copy of the bucket; `BUG_ON` clearing ownership of an unowned
bucket outside GC. -/
def __bch2_mark_alloc_bucket (c : BchFs) (dev b : Nat)
    (owned_by_allocator : Bool) (gc : Bool) : Option BchFs :=
  let fs_usage := c.usage gc
  let ca := c.devs dev
  let old := ca.buckets gc b
  let new := { old with owned_by_allocator := owned_by_allocator }
  let fd := bch2_dev_usage_update ca fs_usage (ca.usage gc) old new
  if !gc && !owned_by_allocator && !old.owned_by_allocator then none
  else some ((c.setBucketAndUsage dev gc b new fd.2).setUsage gc fd.1)

/-- `bch2_mark_alloc_bucket` (buckets.c). -/
def bch2_mark_alloc_bucket (c : BchFs) (dev b : Nat)
    (owned_by_allocator : Bool) (pos : Nat) (flags : MarkFlags) :
    Option BchFs :=
  let step1 : Option BchFs :=
    if !flags.gc then __bch2_mark_alloc_bucket c dev b owned_by_allocator false
    else some c
  match step1 with
  | Option.none => none
  | Option.some c =>
    if flags.gc || gc_visited c pos then
      __bch2_mark_alloc_bucket c dev b owned_by_allocator true
    else some c

/-- `__bch2_mark_metadata_bucket` (buckets.c): set the metadata type and add
`sectors` dirty sectors on one shard's copy; `BUG_ON` for non-metadata
types and on `checked_add` overflow. -/
def __bch2_mark_metadata_bucket (c : BchFs) (dev b : Nat)
    (type : BchDataType) (sectors : Nat) (gc : Bool) : Option BchFs :=
  if type ≠ BchDataType.sb ∧ type ≠ BchDataType.journal then none
  else
    let fs_usage := c.usage gc
    let ca := c.devs dev
    let old := ca.buckets gc b
    match checked_add old.dirty_sectors (sectors : Int) with
    | Option.none => none
    | Option.some d =>
      let new := { old with data_type := type, dirty_sectors := d }
      let fd := bch2_dev_usage_update ca fs_usage (ca.usage gc) old new
      let u := fd.1
      let u := if type = BchDataType.btree ∨ type = BchDataType.user then
          { u with s := { u.s with data := u.s.data + (sectors : Int) } }
        else u
      let u := u.updReplicas 0 (fun r => r.addData type (sectors : Int))
      some ((c.setBucketAndUsage dev gc b new fd.2).setUsage gc u)

/-- `bch2_mark_metadata_bucket` (buckets.c), in the normal (`likely(c)`)
case where the filesystem handle exists. -/
def bch2_mark_metadata_bucket (c : BchFs) (dev b : Nat) (type : BchDataType)
    (sectors : Nat) (pos : Nat) (flags : MarkFlags) : Option BchFs :=
  if type ≠ BchDataType.sb ∧ type ≠ BchDataType.journal then none
  else
    let step1 : Option BchFs :=
      if !flags.gc then __bch2_mark_metadata_bucket c dev b type sectors false
      else some c
    match step1 with
    | Option.none => none
    | Option.some c =>
      if flags.gc || gc_visited c pos then
        __bch2_mark_metadata_bucket c dev b type sectors true
      else some c

/-! ## `bch2_usage_add` and `bch2_fs_usage_apply` -/

def FsUsageSummarized.add (a b : FsUsageSummarized) : FsUsageSummarized :=
  { hidden := a.hidden + b.hidden, data := a.data + b.data,
    cached := a.cached + b.cached, reserved := a.reserved + b.reserved,
    nr_inodes := a.nr_inodes + b.nr_inodes,
    online_reserved := a.online_reserved + b.online_reserved }

def ReplicasUsage.add (a b : ReplicasUsage) : ReplicasUsage :=
  { data := fun t => a.data t + b.data t, ec_data := a.ec_data + b.ec_data,
    persistent_reserved := a.persistent_reserved + b.persistent_reserved }

/-- `bch2_usage_add` (buckets.c): fold one usage struct into another, 64
bits at a time — i.e. field-wise addition. -/
def BchFsUsage.add (a b : BchFsUsage) : BchFsUsage :=
  { s := a.s.add b.s,
    replicas := fun i => (a.replicas i).add (b.replicas i),
    buckets := fun t => a.buckets t + b.buckets t }

/-- The all-zero fs-usage struct (`memset(fs_usage, 0, ...)`). -/
def BchFsUsage.zero : BchFsUsage :=
  { s := ⟨0, 0, 0, 0, 0, 0⟩,
    replicas := fun _ => ⟨fun _ => 0, 0, 0⟩,
    buckets := fun _ => 0 }

/-- u64 subtraction of a signed delta (`atomic64_sub` wraps mod 2^64). -/
def wrapSub64 (p : Nat) (d : Int) : Nat :=
  (((p : Int) - d) % (2 ^ 64 : Int)).toNat

/-- `bch2_fs_usage_apply` (buckets.c), the transaction-commit path: any
increase of `data + reserved` beyond the reservation is repaid to the
global pool (with a warning); the legitimately-added part is debited from
the reservation and `online_reserved`; the delta is folded into the live
shard (and the gc shard if visited) and zeroed.  Dereferencing a NULL
`disk_res` in the `added > 0` branch is modelled as `none`. -/
def bch2_fs_usage_apply (c : BchFs) (fs_usage : BchFsUsage)
    (disk_res : Option DiskReservation) (pos : Nat) :
    Option (BchFs × BchFsUsage × Option DiskReservation) :=
  let added := fs_usage.s.data + fs_usage.s.reserved
  let should_not_have_added :=
    added - (match disk_res with
             | Option.some r => (r.sectors : Int)
             | Option.none => 0)
  let warned :=
    if 0 < should_not_have_added then
      ({ c with sectors_available := wrapSub64 c.sectors_available should_not_have_added },
       added - should_not_have_added)
    else (c, added)
  let c := warned.1
  let added := warned.2
  let step : Option (Option DiskReservation × BchFsUsage) :=
    if 0 < added then
      match disk_res with
      | Option.none => none
      | Option.some r =>
        some (some { r with sectors := wrapSub64 r.sectors added },
              { fs_usage with s := { fs_usage.s with
                  online_reserved := fs_usage.s.online_reserved - added } })
    else some (disk_res, fs_usage)
  match step with
  | Option.none => none
  | Option.some (disk_res, fs_usage) =>
    let c := c.setUsage false ((c.usage false).add fs_usage)
    let c := if gc_visited c pos then c.setUsage true ((c.usage true).add fs_usage)
             else c
    some (c, BchFsUsage.zero, disk_res)

/-! ## Disk reservations -/

def SECTORS_CACHE : Nat := 1024

/-- `__bch2_fs_sectors_used` (buckets.c). -/
def __bch2_fs_sectors_used (u : BchFsUsage) : Nat :=
  (u64 u.s.hidden + u64 u.s.data +
    reserve_factor (u64 (u.s.reserved + u.s.online_reserved))) % U64

/-- `bch2_fs_sectors_used` (buckets.c). -/
def bch2_fs_sectors_used (c : BchFs) (u : BchFsUsage) : Nat :=
  min c.capacity (__bch2_fs_sectors_used u)

/-- Modelled from the spec: `bch2_fs_sectors_free(c)` (buckets.h, not under
src/) — capacity minus the sectors used according to the summed usage
counters. -/
def bch2_fs_sectors_free (c : BchFs) : Nat :=
  c.capacity - bch2_fs_sectors_used c (c.usage false)

/-- `bch2_recalc_sectors_available` (buckets.c): zero every CPU's
`sectors_available` cache and recompute the admissible pool from the usage
counters. -/
def bch2_recalc_sectors_available (c : BchFs) : BchFs × Nat :=
  ({ c with pcpu_cache := fun _ => 0 }, avail_factor (bch2_fs_sectors_free c))

/-- `c->usage[0]->s.online_reserved += sectors` on the live shard. -/
def BchFs.addOnlineReserved (c : BchFs) (sectors : Int) : BchFs :=
  let u := c.usage false
  c.setUsage false { u with s := { u.s with
    online_reserved := u.s.online_reserved + sectors } }

/-- `__bch2_disk_reservation_put` (buckets.c). -/
def __bch2_disk_reservation_put (c : BchFs) (res : DiskReservation) :
    BchFs × DiskReservation :=
  (c.addOnlineReserved (-(res.sectors : Int)), { res with sectors := 0 })

inductive ResRet where
  | ok | nospace
  deriving DecidableEq, Inhabited, Repr

/-- The `out:` tail of `bch2_disk_reservation_add`: debit this CPU's cache,
credit `online_reserved` and the reservation. -/
def reservationOut (c : BchFs) (res : DiskReservation) (sectors : Nat) :
    BchFs × DiskReservation × ResRet :=
  let cache := c.pcpu_cache c.cur_cpu
  let c := { c with pcpu_cache := Function.update c.pcpu_cache c.cur_cpu (cache - sectors) }
  let c := c.addOnlineReserved (sectors : Int)
  (c, { res with sectors := res.sectors + sectors }, .ok)

/-- `bch2_disk_reservation_add` (buckets.c).  The CAS loop on the global
pool becomes its single-step sequential semantics; lock acquisition always
succeeds in this model (the `-EINTR` trylock bailout under
`BTREE_LOCKS_HELD` is a concurrency artifact outside the embedding). -/
def bch2_disk_reservation_add (c : BchFs) (res : DiskReservation)
    (sectors : Nat) (flags : ResFlags) : BchFs × DiskReservation × ResRet :=
  if sectors ≤ c.pcpu_cache c.cur_cpu then
    reservationOut c res sectors
  else
    let old := c.sectors_available
    let get := min (sectors + SECTORS_CACHE) old
    if get < sectors then
      -- recalculate
      let rc := bch2_recalc_sectors_available c
      let c := rc.1
      let sectors_available := rc.2
      if sectors ≤ sectors_available ∨ flags.nofail then
        let c := { c with sectors_available := sectors_available - sectors }
        let c := c.addOnlineReserved (sectors : Int)
        (c, { res with sectors := res.sectors + sectors }, .ok)
      else
        ({ c with sectors_available := sectors_available }, res, .nospace)
    else
      let c := { c with sectors_available := old - get }
      let cache' := c.pcpu_cache c.cur_cpu + get
      let c := { c with pcpu_cache := Function.update c.pcpu_cache c.cur_cpu cache' }
      reservationOut c res sectors


/-! ## Concrete fixture states used by the example instances -/

def devUsageZero : BchDevUsage := ⟨fun _ => 0, 0, 0, 0, fun _ => 0, 0⟩

def markZero : BucketMark := ⟨0, BchDataType.none, false, 0, 0, false, false, 0⟩

def markOwned : BucketMark := { markZero with owned_by_allocator := true }

def devFix : BchDev :=
  { bucket_size := 512, buckets := fun _ _ => markOwned, usage := fun _ => devUsageZero }

def fsFix : BchFs :=
  { devs := fun _ => devFix, usage := fun _ => BchFsUsage.zero,
    stripes := fun _ _ => none, gc_cur := 0, sectors_available := 8066,
    pcpu_cache := fun _ => 0, cur_cpu := 0, capacity := 8192,
    btree_node_size := 256, alloc_read_done := true }

def ptrFix : ExtentPtrDecoded :=
  { ptr := ⟨0, 0, false, 0⟩, crc := ⟨0, 100, 100, 100⟩, ec := [] }

def fsFixDirty10 : BchFs :=
  { fsFix with devs := fun _ =>
      { devFix with buckets := fun _ _ =>
          { markOwned with dirty_sectors := 10, data_type := BchDataType.user } } }

def ptrGen3 : ExtentPtrDecoded :=
  { ptr := ⟨0, 3, false, 0⟩, crc := ⟨0, 100, 100, 100⟩, ec := [] }

def fsGen5 : BchFs :=
  { fsFix with devs := fun _ => { devFix with buckets := fun _ _ => { markOwned with gen := 5 } } }


/-- The step-3 postcondition of the spec's `mark_pointer` description, as
the code implements it: after adding the delta, `data_type` is `none` iff
both counts are now zero (else the caller's type), and the journal sequence
is stamped exactly when one is supplied and the bucket is now empty. -/
def MarkPointerTransitionSpec (old m : BucketMark) (cached : Bool)
    (sectors : Int) (dt : BchDataType) (jseq : Nat) : Prop :=
  (cached = false →
    checked_add old.dirty_sectors sectors = some m.dirty_sectors ∧
    m.cached_sectors = old.cached_sectors) ∧
  (cached = true →
    checked_add old.cached_sectors sectors = some m.cached_sectors ∧
    m.dirty_sectors = old.dirty_sectors) ∧
  (m.dirty_sectors = 0 ∧ m.cached_sectors = 0 → m.data_type = BchDataType.none) ∧
  (¬(m.dirty_sectors = 0 ∧ m.cached_sectors = 0) → m.data_type = dt) ∧
  (m.dirty_sectors = 0 ∧ m.cached_sectors = 0 ∧ jseq ≠ 0 →
    m.journal_seq_valid = true ∧ m.journal_seq = jseq % 2 ^ 19) ∧
  (¬(m.dirty_sectors = 0 ∧ m.cached_sectors = 0) →
    m.journal_seq_valid = old.journal_seq_valid ∧ m.journal_seq = old.journal_seq)

/-- The result of the C4 example call, for the witness instance. -/
def cx4Res : BchFs × BchFsUsage :=
  (bch2_mark_pointer fsFixDirty10 ptrFix 5 BchDataType.user BchFsUsage.zero 7
    ⟨false, false⟩ false).getD default



/-- Fixture for the C8 counterexample / C8 witness: a bucket one sector
below the 15-bit ceiling. -/
def fsFull : BchFs :=
  { fsFix with devs := fun _ =>
      { devFix with buckets := fun _ _ =>
          { markOwned with dirty_sectors := 32767, data_type := BchDataType.user } } }

def fsPoor : BchFs := { fsFix with sectors_available := 100, capacity := 100 }


/-- The committed state produced by `bch2_fs_usage_apply` when called with a
NULL reservation and a positive added amount: the whole amount is repaid
from the global pool and the delta is folded into the shards unmodified. -/
def fsUsageApplyNullSpec (c : BchFs) (d : BchFsUsage) (pos : Nat) : BchFs :=
  let c1 := { c with sectors_available := wrapSub64 c.sectors_available (d.s.data + d.s.reserved) }
  let c2 := c1.setUsage false ((c1.usage false).add d)
  if gc_visited c2 pos then c2.setUsage true ((c2.usage true).add d) else c2

def cx10Delta : BchFsUsage :=
  { BchFsUsage.zero with s := { BchFsUsage.zero.s with data := 100 } }


def c6Add : BchFs × DiskReservation × ResRet :=
  bch2_disk_reservation_add fsFix ⟨0⟩ 100 ⟨false, false, false⟩

def c6Put : BchFs × DiskReservation :=
  __bch2_disk_reservation_put c6Add.1 c6Add.2.1


def ptrEc : ExtentPtrDecoded :=
  { ptr := ⟨0, 0, false, 0⟩, crc := ⟨0, 100, 100, 100⟩, ec := [⟨7, 0⟩] }

def kEc : BkeyVal := .extent [ptrEc]

def cx3Mp : BchFs × BchFsUsage :=
  (bch2_mark_pointer fsFix ptrEc 100 BchDataType.user BchFsUsage.zero 0
    ⟨false, false⟩ false).getD default


/-- Everything a marking pass running with GC flag `g` must leave alone:
the other shard's bucket arrays, device-usage shards, fs-usage shard and
stripe map, and all global (non-sharded) fields. -/
def OffShardEq (c c' : BchFs) (g : Bool) : Prop :=
  (∀ d b', (c'.devs d).buckets (!g) b' = (c.devs d).buckets (!g) b') ∧
  (∀ d, (c'.devs d).usage (!g) = (c.devs d).usage (!g)) ∧
  c'.usage (!g) = c.usage (!g) ∧
  (∀ i, c'.stripes (!g) i = c.stripes (!g) i) ∧
  c'.gc_cur = c.gc_cur ∧ c'.sectors_available = c.sectors_available ∧
  c'.pcpu_cache = c.pcpu_cache ∧ c'.cur_cpu = c.cur_cpu ∧
  c'.capacity = c.capacity ∧ c'.btree_node_size = c.btree_node_size ∧
  c'.alloc_read_done = c.alloc_read_done


/-- The non-GC pass of `bch2_mark_key_locked`: mark into the caller's usage
struct, or directly into the live shard when none is supplied. -/
def markKeyLivePass (c : BchFs) (k : BkeyVal) (inserting : Bool)
    (sectors : Int) (fs_usage : Option BchFsUsage) (journal_seq : Nat)
    (flags : MarkFlags) : CRes (BchFs × Option BchFsUsage) :=
  match __bch2_mark_key c k inserting sectors (fs_usage.getD (c.usage false))
      journal_seq flags false with
  | .ok (c, u) => .ok (match fs_usage with
      | Option.some _ => (c, some u)
      | Option.none => (c.setUsage false u, none))
  | .err (c, u) => .err (match fs_usage with
      | Option.some _ => (c, some u)
      | Option.none => (c.setUsage false u, none))
  | .trap => .trap

/-- The GC pass of `bch2_mark_key_locked`: mark into the gc shard. -/
def markKeyGcPass (c : BchFs) (k : BkeyVal) (inserting : Bool) (sectors : Int)
    (fs_usage : Option BchFsUsage) (journal_seq : Nat) (flags : MarkFlags) :
    CRes (BchFs × Option BchFsUsage) :=
  match __bch2_mark_key c k inserting sectors (c.usage true) journal_seq flags true with
  | .ok (c, u) => .ok (c.setUsage true u, fs_usage)
  | .err (c, u) => .err (c.setUsage true u, fs_usage)
  | .trap => .trap


def fsZero : BchFs :=
  { fsFix with devs := fun _ => { devFix with buckets := fun _ _ => markZero } }

def FsUsageSummarized.sub (a b : FsUsageSummarized) : FsUsageSummarized :=
  { hidden := a.hidden - b.hidden, data := a.data - b.data,
    cached := a.cached - b.cached, reserved := a.reserved - b.reserved,
    nr_inodes := a.nr_inodes - b.nr_inodes,
    online_reserved := a.online_reserved - b.online_reserved }

def ReplicasUsage.sub (a b : ReplicasUsage) : ReplicasUsage :=
  { data := fun t => a.data t - b.data t, ec_data := a.ec_data - b.ec_data,
    persistent_reserved := a.persistent_reserved - b.persistent_reserved }

def BchFsUsage.sub (a b : BchFsUsage) : BchFsUsage :=
  { s := a.s.sub b.s,
    replicas := fun i => (a.replicas i).sub (b.replicas i),
    buckets := fun t => a.buckets t - b.buckets t }

def BchDevUsage.add (a b : BchDevUsage) : BchDevUsage :=
  { buckets := fun t => a.buckets t + b.buckets t,
    buckets_alloc := a.buckets_alloc + b.buckets_alloc,
    buckets_ec := a.buckets_ec + b.buckets_ec,
    buckets_unavailable := a.buckets_unavailable + b.buckets_unavailable,
    sectors := fun t => a.sectors t + b.sectors t,
    sectors_fragmented := a.sectors_fragmented + b.sectors_fragmented }

def BchDevUsage.sub (a b : BchDevUsage) : BchDevUsage :=
  { buckets := fun t => a.buckets t - b.buckets t,
    buckets_alloc := a.buckets_alloc - b.buckets_alloc,
    buckets_ec := a.buckets_ec - b.buckets_ec,
    buckets_unavailable := a.buckets_unavailable - b.buckets_unavailable,
    sectors := fun t => a.sectors t - b.sectors t,
    sectors_fragmented := a.sectors_fragmented - b.sectors_fragmented }

/-- The fs-usage contribution of one bucket (the account_bucket terms):
bch2_dev_usage_update adds exactly the difference of this potential
between the new and the old mark. -/
def fsBucketPot (ca : BchDev) (m : BucketMark) : BchFsUsage :=
  { s := { hidden := if bucket_type m = BchDataType.sb ∨ bucket_type m = BchDataType.journal
             then (ca.bucket_size : Int) else 0,
           data := 0, cached := 0, reserved := 0, nr_inodes := 0, online_reserved := 0 },
    replicas := fun _ => ⟨fun _ => 0, 0, 0⟩,
    buckets := fun t => if t = bucket_type m ∧ bucket_type m ≠ BchDataType.none
      then (ca.bucket_size : Int) else 0 }

/-- The device-usage contribution of one bucket. -/
def devBucketPot (ca : BchDev) (m : BucketMark) : BchDevUsage :=
  { buckets := fun t => if t = bucket_type m ∧ bucket_type m ≠ BchDataType.none then 1 else 0,
    buckets_alloc := bInt m.owned_by_allocator,
    buckets_ec := bInt m.stripe,
    buckets_unavailable := bInt (is_unavailable_bucket m),
    sectors := fun t => (if t = m.data_type then (m.dirty_sectors : Int) else 0) +
      (if t = BchDataType.cached then (m.cached_sectors : Int) else 0),
    sectors_fragmented := is_fragmented_bucket m ca }


/-- Total counterpart of `checked_add`: the 32-bit wrapped sum without the
15-bit overflow trap.  Agrees with `checked_add` on every non-trapping run. -/
def add32 (a : Nat) (b : Int) : Nat := (((a : Int) + b) % (2 ^ 32 : Int)).toNat

/-- Total counterpart of `bch2_mark_pointer`: the same state transition with
every `BUG_ON` dropped.  Agrees with `bch2_mark_pointer` on every run that
returns `some`. -/
def markPointerT (c : BchFs) (p : ExtentPtrDecoded) (sectors : Int)
    (data_type : BchDataType) (fs_usage : BchFsUsage) (journal_seq : Nat)
    (gc : Bool) : BchFs × BchFsUsage :=
  let ca := c.devs p.ptr.dev
  let b := p.ptr.bucket
  let old := ca.buckets gc b
  if gen_after old.gen p.ptr.gen then (c, fs_usage)
  else
    let d := if !p.ptr.cached then add32 old.dirty_sectors sectors else old.dirty_sectors
    let cs := if p.ptr.cached then add32 old.cached_sectors sectors else old.cached_sectors
    let base : BucketMark := { old with dirty_sectors := d, cached_sectors := cs }
    let new : BucketMark :=
      if d = 0 ∧ cs = 0 then
        if journal_seq ≠ 0 then
          { base with data_type := BchDataType.none, journal_seq_valid := true,
                      journal_seq := journal_seq % 2 ^ 19 }
        else { base with data_type := BchDataType.none }
      else { base with data_type := data_type }
    let fd := bch2_dev_usage_update ca fs_usage (ca.usage gc) old new
    (c.setBucketAndUsage p.ptr.dev gc b new fd.2, fd.1)

/-- Total counterpart of the state transition of `bch2_mark_stripe_ptr`
(the `adj`/`red` accumulators are handled separately). -/
def stripePtrT (c : BchFs) (p : BchExtentStripePtr) (sectors : Int)
    (gc : Bool) : BchFs :=
  match c.stripes gc p.idx with
  | Option.none => c
  | Option.some m =>
    if !m.alive then c
    else
      let newbs := m.block_sectors p.block + sectors
      let oldbs := newbs - sectors
      let delta := bInt (newbs ≠ 0) - bInt (oldbs ≠ 0)
      let m' := { m with
        block_sectors := Function.update m.block_sectors p.block newbs,
        blocks_nonempty := m.blocks_nonempty + delta }
      c.setStripe gc p.idx m'

/-- Total counterpart of the state transition of `markStripeRefs`. -/
def stripeRefsT (c : BchFs) (ecl : List BchExtentStripePtr) (sectors : Int)
    (gc : Bool) : BchFs :=
  match ecl with
  | [] => c
  | e :: rest => stripeRefsT (stripePtrT c e sectors gc) rest sectors gc

/-- One full pointer step of the extent walk (bucket mark plus stripe
references), total, on a (state, fs-usage) pair. -/
def stepFullT (p : ExtentPtrDecoded) (delta : Int) (dt : BchDataType)
    (jseq : Nat) (gc : Bool) (s : BchFs × BchFsUsage) : BchFs × BchFsUsage :=
  let s1 := markPointerT s.1 p delta dt s.2 jseq gc
  if !p.ptr.cached then (stripeRefsT s1.1 p.ec delta gc, s1.2) else s1

/-- Total counterpart of the extent pointer walk, over a list of pointers
paired with their (state-independent) disk-sector deltas. -/
def extentFoldT (L : List (ExtentPtrDecoded × Int)) (dt : BchDataType)
    (jseq : Nat) (gc : Bool) (s : BchFs × BchFsUsage) : BchFs × BchFsUsage :=
  match L with
  | [] => s
  | pd :: rest => extentFoldT rest dt jseq gc (stepFullT pd.1 pd.2 dt jseq gc s)

/-- The disk-sector delta of one pointer in the extent walk: the sectors
argument itself for btree keys, `ptr_disk_sectors_delta` otherwise. -/
def deltaOf (dt : BchDataType) (sectors : Int) (p : ExtentPtrDecoded) :
    Option Int :=
  if dt = BchDataType.btree then some sectors else ptr_disk_sectors_delta p sectors


/-- The stripe fields the extent walk reads but never writes. -/
def stripeParamsOf (m : Stripe) : Bool × Nat × Nat :=
  (m.alive, m.nr_blocks, m.nr_redundant)

/-- Two states whose stripe records agree on existence, liveness and block
geometry (the inputs of the parity computation). -/
def SParamsEq (c t : BchFs) : Prop :=
  ∀ g i, (c.stripes g i).map stripeParamsOf = (t.stripes g i).map stripeParamsOf

/-- The relation between the accumulators of an insert walk and of the
corresponding remove walk: the sector sums are negated, the replica and
redundancy counts agree. -/
def AccNegRel (a b : ExtentAcc) : Prop :=
  b.cached_sectors = -a.cached_sectors ∧ b.dirty_sectors = -a.dirty_sectors ∧
  b.ec_sectors = -a.ec_sectors ∧ b.replicas = a.replicas ∧
  b.ec_redundancy = a.ec_redundancy


/-- The new bucket mark written by one (total) pointer-marking step, as a
pure function of the old mark. -/
def newMarkT (m : BucketMark) (pgen : Nat) (cached : Bool) (a : Int)
    (dt : BchDataType) (jseq : Nat) : BucketMark :=
  if gen_after m.gen pgen then m
  else
    let d := if !cached then add32 m.dirty_sectors a else m.dirty_sectors
    let cs := if cached then add32 m.cached_sectors a else m.cached_sectors
    let base : BucketMark := { m with dirty_sectors := d, cached_sectors := cs }
    if d = 0 ∧ cs = 0 then
      if jseq ≠ 0 then
        { base with data_type := BchDataType.none, journal_seq_valid := true,
                    journal_seq := jseq % 2 ^ 19 }
      else { base with data_type := BchDataType.none }
    else { base with data_type := dt }

/-- The mark-level well-formedness a bucket needs for a pointer step to be
invertible: counts inside the 32-bit window and a data type consistent with
the marked type. -/
def PtrOk (m : BucketMark) (dt : BchDataType) : Prop :=
  m.dirty_sectors < 2 ^ 32 ∧ m.cached_sectors < 2 ^ 32 ∧
  (m.dirty_sectors = 0 ∧ m.cached_sectors = 0 → m.data_type = BchDataType.none) ∧
  (¬(m.dirty_sectors = 0 ∧ m.cached_sectors = 0) → m.data_type = dt)


/-- The stripe record written by one (total) stripe-reference step. -/
def stripeWrite (m : Stripe) (blk : Nat) (δ : Int) : Stripe :=
  { m with
    block_sectors := Function.update m.block_sectors blk (m.block_sectors blk + δ),
    blocks_nonempty := m.blocks_nonempty +
      (bInt (m.block_sectors blk + δ ≠ 0) - bInt (m.block_sectors blk + δ - δ ≠ 0)) }


/-- The fs-usage delta of the accumulator fold-in at the end of
`bch2_mark_extent` (with the already-clamped replica counts). -/
def aggUsage (dt : BchDataType) (replicas ec_red : Nat) (a : ExtentAcc) :
    BchFsUsage :=
  { s := { hidden := 0, data := a.dirty_sectors + a.ec_sectors,
           cached := a.cached_sectors, reserved := 0, nr_inodes := 0,
           online_reserved := 0 },
    replicas := fun i =>
      { data := fun t =>
          (if i = 0 ∧ t = BchDataType.cached then a.cached_sectors else 0) +
          (if i = replicas - 1 ∧ t = dt then a.dirty_sectors else 0),
        ec_data := if i = ec_red - 1 then a.ec_sectors else 0,
        persistent_reserved := 0 },
    buckets := fun _ => 0 }


/-- Total counterpart of one step of `bucket_set_stripe` with a zero journal
sequence (the only way `bch2_mark_stripe` calls it): flip the stripe bit of
one bucket and fold the delta into the usage pair. -/
def bitT (ptr : BchExtentPtr) (enabled : Bool) (gc : Bool)
    (s : BchFs × BchFsUsage) : BchFs × BchFsUsage :=
  let c := s.1
  let ca := c.devs ptr.dev
  let old := ca.buckets gc ptr.bucket
  let new : BucketMark := { old with stripe := enabled }
  let fd := bch2_dev_usage_update ca s.2 (ca.usage gc) old new
  (c.setBucketAndUsage ptr.dev gc ptr.bucket new fd.2, fd.1)

/-- Total counterpart of `bucket_set_stripe` (zero journal sequence). -/
def bitFoldT (L : List BchExtentPtr) (enabled : Bool) (gc : Bool)
    (s : BchFs × BchFsUsage) : BchFs × BchFsUsage :=
  match L with
  | [] => s
  | ptr :: rest => bitFoldT rest enabled gc (bitT ptr enabled gc s)


def KeyRTOk (c : BchFs) (k : BkeyVal) (gc : Bool) : Prop :=
  match k with
  | .btree_ptr ptrs =>
    (∀ p ∈ ptrs, p.crc.compression_type = 0) ∧
    ∀ p ∈ ptrs, PtrOk ((c.devs p.ptr.dev).buckets gc p.ptr.bucket)
      BchDataType.btree
  | .extent ptrs =>
    (∀ p ∈ ptrs, p.crc.compression_type = 0) ∧
    ∀ p ∈ ptrs, PtrOk ((c.devs p.ptr.dev).buckets gc p.ptr.bucket)
      BchDataType.user
  | _ => True


def stripeLive : Stripe := ⟨400, 0, 3, 1, true, 0, fun _ => 0⟩

def fsEc3 : BchFs :=
  { fsFix with stripes := fun _ i => if i = 3 then some stripeLive else none }

def ptrPre3 : ExtentPtrDecoded :=
  { ptr := ⟨0, 0, false, 1⟩, crc := ⟨0, 100, 100, 100⟩, ec := [] }

def ptrEc3 : ExtentPtrDecoded :=
  { ptr := ⟨0, 0, false, 2⟩, crc := ⟨0, 100, 100, 100⟩,
    ec := [⟨3, 0⟩, ⟨7, 0⟩] }

def ptrPost3 : ExtentPtrDecoded :=
  { ptr := ⟨0, 0, false, 4⟩, crc := ⟨0, 100, 100, 100⟩, ec := [] }

def cx3Walk : BchFs × BchFsUsage × ExtentAcc :=
  (markExtentPtrs fsEc3 [ptrPre3] 100 BchDataType.user BchFsUsage.zero 0
    ⟨false, false⟩ false ⟨0, 0, 0, 0, 0⟩).get

def cx3Mp2 : BchFs × BchFsUsage :=
  (bch2_mark_pointer cx3Walk.1 ptrEc3 100 BchDataType.user cx3Walk.2.1 0
    ⟨false, false⟩ false).getD default

def cx3Refs : BchFs × Int × Nat :=
  (markStripeRefs cx3Mp2.1 [⟨3, 0⟩] 100 ⟨false, false⟩ 100
    cx3Walk.2.2.ec_redundancy false).get


def c2W1 : BchFs × Option BchFsUsage :=
  (bch2_mark_key fsFix (BkeyVal.extent [ptrFix]) true 100 0
    (some BchFsUsage.zero) 0 ⟨false, false⟩).get

def c2W2 : BchFs × Option BchFsUsage :=
  (bch2_mark_key c2W1.1 (BkeyVal.extent [ptrFix]) false (-100) 0 c2W1.2 0
    ⟨false, false⟩).get

def c2X1 : BchFs × Option BchFsUsage :=
  (bch2_mark_key fsFix (BkeyVal.extent [ptrFix]) true 100 0
    (some BchFsUsage.zero) 7 ⟨false, false⟩).get

def c2X2 : BchFs × Option BchFsUsage :=
  (bch2_mark_key c2X1.1 (BkeyVal.extent [ptrFix]) false (-100) 0 c2X1.2 7
    ⟨false, false⟩).get

/-! ## Shared lemmas -/

theorem if_none_some_eq {α : Type} {P : Prop} [Decidable P] {x y : α}
    (h : (if P then Option.none else Option.some x) = Option.some y) : x = y := by
  split at h
  · exact absurd h (by simp)
  · exact Option.some.inj h

/-! ## Claim theorems -/

/-- C9: for every `r` in the u64 range,
`avail_factor (reserve_factor r) ≤ r` — the integer-rounded markup and its
inverse never oversubscribe. -/
theorem avail_factor_reserve_factor_le (r : Nat) (h : r < U64) :
    avail_factor (reserve_factor r) ≤ r := by
  unfold avail_factor reserve_factor round_up64 U64 at *
  omega

theorem avail_factor_reserve_factor_le_witness :
    100 < U64 ∧ avail_factor (reserve_factor 100) ≤ 100 :=
  ⟨by norm_num [U64], avail_factor_reserve_factor_le 100 (by norm_num [U64])⟩

/-- C5: when the bucket's gen is strictly after the pointer's gen
(wraparound-aware) and the alloc btree has been read, `bch2_mark_pointer`
returns without error and leaves the state and every usage counter
unchanged. -/
theorem mark_pointer_stale_gen_noop (c : BchFs) (p : ExtentPtrDecoded)
    (sectors : Int) (dt : BchDataType) (u : BchFsUsage) (jseq : Nat)
    (flags : MarkFlags) (gc : Bool)
    (hstale : gen_after ((c.devs p.ptr.dev).buckets gc p.ptr.bucket).gen p.ptr.gen = true)
    (hdone : c.alloc_read_done = true) :
    bch2_mark_pointer c p sectors dt u jseq flags gc = some (c, u) := by
  unfold bch2_mark_pointer
  simp [hstale, hdone]

theorem mark_pointer_stale_gen_noop_witness :
    gen_after ((fsGen5.devs ptrGen3.ptr.dev).buckets false ptrGen3.ptr.bucket).gen ptrGen3.ptr.gen = true ∧
    fsGen5.alloc_read_done = true ∧
    bch2_mark_pointer fsGen5 ptrGen3 100 BchDataType.user BchFsUsage.zero 0 ⟨false, false⟩ false =
      some (fsGen5, BchFsUsage.zero) :=
  ⟨by decide, rfl,
    mark_pointer_stale_gen_noop fsGen5 ptrGen3 100 BchDataType.user BchFsUsage.zero 0
      ⟨false, false⟩ false (by decide) rfl⟩

/-- C4 counterexample: a non-zero journal sequence (7) is supplied and
sectors remain in the bucket (dirty becomes 15), yet `journal_seq_valid`
is NOT set — the code stamps the journal sequence only when the bucket
becomes empty, not when sectors remain. -/
theorem mark_pointer_journal_stamp_cx :
    (bch2_mark_pointer fsFixDirty10 ptrFix 5 BchDataType.user BchFsUsage.zero 7 ⟨false, false⟩ false).map
        (fun s => (((s.1.devs 0).buckets false 0).journal_seq_valid,
                   ((s.1.devs 0).buckets false 0).dirty_sectors)) =
      some (false, 15) := by
  decide

/-- C4 amended: in `bch2_mark_pointer` (non-stale gen, successful call) the
sector delta is applied via `checked_add` to the dirty or cached count as
the pointer dictates; `data_type` is reset to none iff both counts are now
zero and set to the caller's type otherwise; and a non-zero journal
sequence is stamped (with `journal_seq_valid` set) exactly when the bucket
is now empty — when sectors remain, the journal fields are untouched. -/
theorem mark_pointer_data_type_journal (c : BchFs) (p : ExtentPtrDecoded)
    (sectors : Int) (dt : BchDataType) (u : BchFsUsage) (jseq : Nat)
    (flags : MarkFlags) (gc : Bool) (c' : BchFs) (u' : BchFsUsage)
    (hstale : gen_after ((c.devs p.ptr.dev).buckets gc p.ptr.bucket).gen p.ptr.gen = false)
    (hres : bch2_mark_pointer c p sectors dt u jseq flags gc = some (c', u')) :
    MarkPointerTransitionSpec ((c.devs p.ptr.dev).buckets gc p.ptr.bucket)
      ((c'.devs p.ptr.dev).buckets gc p.ptr.bucket) p.ptr.cached sectors dt jseq := by
  unfold MarkPointerTransitionSpec
  unfold bch2_mark_pointer at hres
  simp only [hstale, Bool.false_eq_true, if_false] at hres
  split at hres
  case _ d cs hd hcs =>
    by_cases hc : p.ptr.cached = true <;>
      simp only [hc, if_true, if_false, Bool.not_true, Bool.not_false, Bool.false_eq_true,
        Option.some.injEq, ite_true, ite_false] at hd hcs <;>
    by_cases hz : d = 0 ∧ cs = 0 <;>
    by_cases hj : jseq ≠ 0 <;>
      simp only [hz, hj, ite_true, ite_false, if_true, if_false] at hres
    all_goals
      have h2 := if_none_some_eq hres
    all_goals
      simp only [Prod.mk.injEq] at h2
    all_goals
      obtain ⟨hc', -⟩ := h2
    all_goals
      subst hc'
    all_goals
      refine ⟨?_, ?_, ?_, ?_, ?_, ?_⟩ <;>
        simp_all [BchFs.setBucketAndUsage, Function.update_same]
  case _ h =>
    exact absurd hres (by simp)

theorem mark_pointer_data_type_journal_witness :
    gen_after ((fsFixDirty10.devs ptrFix.ptr.dev).buckets false ptrFix.ptr.bucket).gen ptrFix.ptr.gen = false ∧
    bch2_mark_pointer fsFixDirty10 ptrFix 5 BchDataType.user BchFsUsage.zero 7 ⟨false, false⟩ false =
      some (cx4Res.1, cx4Res.2) ∧
    MarkPointerTransitionSpec ((fsFixDirty10.devs ptrFix.ptr.dev).buckets false ptrFix.ptr.bucket)
      ((cx4Res.1.devs ptrFix.ptr.dev).buckets false ptrFix.ptr.bucket) ptrFix.ptr.cached 5
      BchDataType.user 7 :=
  ⟨by decide, by rfl,
    mark_pointer_data_type_journal fsFixDirty10 ptrFix 5 BchDataType.user BchFsUsage.zero 7
      ⟨false, false⟩ false cx4Res.1 cx4Res.2 (by decide) (by rfl)⟩

/-- C8 counterexample: marking 600 sectors into an empty bucket of size 512
succeeds without any trap and leaves `dirty_sectors = 600 > bucket_size` —
the marking operations do not enforce `dirty + cached ≤ bucket_size`. -/
theorem bucket_capacity_not_enforced_cx :
    (bch2_mark_pointer fsFix ptrFix 600 BchDataType.user BchFsUsage.zero 0 ⟨false, false⟩ false).map
        (fun s => ((s.1.devs 0).buckets false 0).dirty_sectors) = some 600 ∧
    (fsFix.devs 0).bucket_size = 512 ∧ ¬(600 ≤ 512) := by
  refine ⟨by decide, by decide, by decide⟩

/-- C8 amended: the marking engine does not enforce the
`dirty + cached ≤ bucket_size` bound (see the counterexample); what it does
guarantee is the overflow guard — a marking that would push
`dirty_sectors` past its 15-bit packed-field ceiling traps via
`checked_add`. -/
theorem mark_pointer_overflow_traps (c : BchFs) (p : ExtentPtrDecoded)
    (sectors : Int) (dt : BchDataType) (u : BchFsUsage) (jseq : Nat)
    (flags : MarkFlags) (gc : Bool)
    (hstale : gen_after ((c.devs p.ptr.dev).buckets gc p.ptr.bucket).gen p.ptr.gen = false)
    (hcached : p.ptr.cached = false)
    (hov : checked_add ((c.devs p.ptr.dev).buckets gc p.ptr.bucket).dirty_sectors sectors = none) :
    bch2_mark_pointer c p sectors dt u jseq flags gc = none := by
  unfold bch2_mark_pointer
  simp [hstale, hcached, hov]

theorem mark_pointer_overflow_traps_witness :
    gen_after ((fsFull.devs ptrFix.ptr.dev).buckets false ptrFix.ptr.bucket).gen ptrFix.ptr.gen = false ∧
    ptrFix.ptr.cached = false ∧
    checked_add ((fsFull.devs ptrFix.ptr.dev).buckets false ptrFix.ptr.bucket).dirty_sectors 1 = none ∧
    bch2_mark_pointer fsFull ptrFix 1 BchDataType.user BchFsUsage.zero 0 ⟨false, false⟩ false = none :=
  ⟨by decide, by decide, by decide,
    mark_pointer_overflow_traps fsFull ptrFix 1 BchDataType.user BchFsUsage.zero 0
      ⟨false, false⟩ false (by decide) (by decide) (by decide)⟩

/-- C7: when `bch2_disk_reservation_add` misses the per-CPU cache, cannot
withdraw enough from the global pool, recomputes a pool still smaller than
the request, and `NOFAIL` is unset, it returns NoSpace, leaves the
reservation and `online_reserved` untouched, stores the recomputed value in
the pool and leaves every per-CPU cache zeroed. -/
theorem reservation_add_nospace (c : BchFs) (res : DiskReservation)
    (sectors : Nat) (flags : ResFlags)
    (h1 : c.pcpu_cache c.cur_cpu < sectors)
    (h2 : c.sectors_available < sectors)
    (h3 : avail_factor (bch2_fs_sectors_free c) < sectors)
    (h4 : flags.nofail = false) :
    bch2_disk_reservation_add c res sectors flags =
      ({ c with pcpu_cache := fun _ => 0,
                sectors_available := avail_factor (bch2_fs_sectors_free c) },
       res, ResRet.nospace) := by
  unfold bch2_disk_reservation_add bch2_recalc_sectors_available
  rw [if_neg (by omega)]
  rw [if_pos (by simp only [SECTORS_CACHE, Nat.min_def]; split <;> omega)]
  rw [if_neg (by simp only [h4, Bool.false_eq_true, or_false]; omega)]

theorem reservation_add_nospace_witness :
    fsPoor.pcpu_cache fsPoor.cur_cpu < 200 ∧
    fsPoor.sectors_available < 200 ∧
    avail_factor (bch2_fs_sectors_free fsPoor) < 200 ∧
    (ResFlags.mk false false false).nofail = false ∧
    bch2_disk_reservation_add fsPoor ⟨0⟩ 200 ⟨false, false, false⟩ =
      ({ fsPoor with pcpu_cache := fun _ => 0,
                     sectors_available := avail_factor (bch2_fs_sectors_free fsPoor) },
       ⟨0⟩, ResRet.nospace) :=
  ⟨by decide, by decide, by decide, by decide,
    reservation_add_nospace fsPoor ⟨0⟩ 200 ⟨false, false, false⟩
      (by decide) (by decide) (by decide) (by decide)⟩


/-- C10: `bch2_fs_usage_apply` with a NULL reservation while the delta
added positive sectors subtracts the entire added amount from the global
pool, skips the legitimate-added branch (the delta's `online_reserved` is
not debited; it is folded into the shards unmodified), and never
dereferences the NULL reservation (the call completes, returning the
zeroed delta and the unchanged NULL reservation). -/
theorem fs_usage_apply_null_reservation (c : BchFs) (d : BchFsUsage) (pos : Nat)
    (hadded : 0 < d.s.data + d.s.reserved) :
    bch2_fs_usage_apply c d none pos =
      some (fsUsageApplyNullSpec c d pos, BchFsUsage.zero, none) := by
  unfold bch2_fs_usage_apply fsUsageApplyNullSpec
  simp only [sub_zero, hadded, if_pos, if_true, sub_self, lt_irrefl, if_neg, if_false]

theorem fs_usage_apply_null_reservation_witness :
    (0 : Int) < cx10Delta.s.data + cx10Delta.s.reserved ∧
    bch2_fs_usage_apply fsFix cx10Delta none 0 =
      some (fsUsageApplyNullSpec fsFix cx10Delta 0, BchFsUsage.zero, none) :=
  ⟨by decide, fs_usage_apply_null_reservation fsFix cx10Delta 0 (by decide)⟩


/-- C6 counterexample: a successful `reservation_add` of 100 sectors from a
global pool of 8066 (empty per-CPU cache) withdraws `100 + SECTORS_CACHE`
from the pool; `reservation_put` repays `online_reserved` but never the
pool, which is left at 6942 ≠ 8066. -/
theorem reservation_roundtrip_pool_cx :
    c6Add.2.2 = ResRet.ok ∧
    fsFix.sectors_available = 8066 ∧
    c6Put.1.sectors_available = 6942 ∧
    ¬(c6Put.1.sectors_available = fsFix.sectors_available) := by
  refine ⟨by decide, by decide, by decide, by decide⟩

/-- C6 amended: a successful `reservation_add(res, n)` followed by
`reservation_put(res)` returns `online_reserved` to its prior value and
leaves `res.sectors = 0`, provided the reservation started empty; the
global pool (and the per-CPU caches) are NOT restored — the withdrawn
sectors stay cached/spent until a recalculation. -/
theorem reservation_add_put_restores (c : BchFs) (res : DiskReservation)
    (sectors : Nat) (flags : ResFlags)
    (h0 : res.sectors = 0)
    (hok : (bch2_disk_reservation_add c res sectors flags).2.2 = ResRet.ok) :
    ((__bch2_disk_reservation_put (bch2_disk_reservation_add c res sectors flags).1
        (bch2_disk_reservation_add c res sectors flags).2.1).1.usage false).s.online_reserved =
      (c.usage false).s.online_reserved ∧
    (__bch2_disk_reservation_put (bch2_disk_reservation_add c res sectors flags).1
        (bch2_disk_reservation_add c res sectors flags).2.1).2.sectors = 0 := by
  unfold bch2_disk_reservation_add reservationOut bch2_recalc_sectors_available
    __bch2_disk_reservation_put BchFs.addOnlineReserved BchFs.setUsage at *
  by_cases hfast : sectors ≤ c.pcpu_cache c.cur_cpu
  · simp only [if_pos hfast] at *
    constructor
    · simp [h0]
    · simp [h0]
  · simp only [if_neg hfast] at *
    by_cases hget : min (sectors + SECTORS_CACHE) c.sectors_available < sectors
    · simp only [if_pos hget] at *
      by_cases hrc : sectors ≤ avail_factor (bch2_fs_sectors_free c) ∨ flags.nofail = true
      · simp only [if_pos hrc] at *
        constructor
        · simp [h0]
        · simp [h0]
      · simp only [if_neg hrc] at *
        exact absurd hok (by simp)
    · simp only [if_neg hget] at *
      constructor
      · simp [h0]
      · simp [h0]

theorem reservation_add_put_restores_witness :
    (DiskReservation.mk 0).sectors = 0 ∧
    (bch2_disk_reservation_add fsFix ⟨0⟩ 100 ⟨false, false, false⟩).2.2 = ResRet.ok ∧
    (((__bch2_disk_reservation_put (bch2_disk_reservation_add fsFix ⟨0⟩ 100 ⟨false, false, false⟩).1
        (bch2_disk_reservation_add fsFix ⟨0⟩ 100 ⟨false, false, false⟩).2.1).1.usage false).s.online_reserved =
      (fsFix.usage false).s.online_reserved ∧
    (__bch2_disk_reservation_put (bch2_disk_reservation_add fsFix ⟨0⟩ 100 ⟨false, false, false⟩).1
        (bch2_disk_reservation_add fsFix ⟨0⟩ 100 ⟨false, false, false⟩).2.1).2.sectors = 0) :=
  ⟨rfl, by decide,
    reservation_add_put_restores fsFix ⟨0⟩ 100 ⟨false, false, false⟩ rfl (by decide)⟩


/-- All `BchFs` components other than the device array are preserved by
`bch2_mark_pointer`. -/
theorem mark_pointer_preserves (c : BchFs) (p : ExtentPtrDecoded)
    (sectors : Int) (dt : BchDataType) (u : BchFsUsage) (jseq : Nat)
    (flags : MarkFlags) (gc : Bool) (c' : BchFs) (u' : BchFsUsage)
    (h : bch2_mark_pointer c p sectors dt u jseq flags gc = some (c', u')) :
    c'.stripes = c.stripes ∧ c'.usage = c.usage ∧ c'.gc_cur = c.gc_cur ∧
    c'.sectors_available = c.sectors_available ∧ c'.pcpu_cache = c.pcpu_cache ∧
    c'.cur_cpu = c.cur_cpu ∧ c'.capacity = c.capacity ∧
    c'.btree_node_size = c.btree_node_size ∧ c'.alloc_read_done = c.alloc_read_done := by
  unfold bch2_mark_pointer at h
  cases hg : gen_after ((c.devs p.ptr.dev).buckets gc p.ptr.bucket).gen p.ptr.gen <;>
    simp only [hg, Bool.false_eq_true, if_false, if_true, ite_true, ite_false] at h
  case false =>
    repeat' split at h
    all_goals
      try exact Option.noConfusion h
    all_goals
      simp only [Option.some.injEq, Prod.mk.injEq] at h
    all_goals
      obtain ⟨hc', -⟩ := h
    all_goals
      subst hc'
    all_goals
      exact ⟨rfl, rfl, rfl, rfl, rfl, rfl, rfl, rfl, rfl⟩
  case true =>
    split at h
    · exact Option.noConfusion h
    · simp only [Option.some.injEq, Prod.mk.injEq] at h
      obtain ⟨hc', -⟩ := h
      subst hc'
      exact ⟨rfl, rfl, rfl, rfl, rfl, rfl, rfl, rfl, rfl⟩

/-- C3 counterexample: marking an extent whose only pointer carries a
reference to a missing stripe returns an error, but the failed call has
already marked the pointer's bucket (dirty_sectors went 0 → 100). -/
theorem mark_extent_dead_stripe_partial_cx :
    (bch2_mark_key fsFix kEc true 100 0 none 0 ⟨false, false⟩).isErr = true ∧
    (((bch2_mark_key fsFix kEc true 100 0 none 0 ⟨false, false⟩).get.1.devs 0).buckets
        false 0).dirty_sectors = 100 ∧
    ((fsFix.devs 0).buckets false 0).dirty_sectors = 0 := by
  refine ⟨by decide, by decide, by decide⟩

theorem OffShardEq.refl (c : BchFs) (g : Bool) : OffShardEq c c g :=
  ⟨fun _ _ => rfl, fun _ => rfl, rfl, fun _ => rfl, rfl, rfl, rfl, rfl, rfl, rfl, rfl⟩

theorem OffShardEq.trans {c c₁ c₂ : BchFs} {g : Bool}
    (h1 : OffShardEq c c₁ g) (h2 : OffShardEq c₁ c₂ g) : OffShardEq c c₂ g :=
  ⟨fun d b' => (h2.1 d b').trans (h1.1 d b'),
   fun d => (h2.2.1 d).trans (h1.2.1 d),
   h2.2.2.1.trans h1.2.2.1,
   fun i => (h2.2.2.2.1 i).trans (h1.2.2.2.1 i),
   h2.2.2.2.2.1.trans h1.2.2.2.2.1,
   h2.2.2.2.2.2.1.trans h1.2.2.2.2.2.1,
   h2.2.2.2.2.2.2.1.trans h1.2.2.2.2.2.2.1,
   h2.2.2.2.2.2.2.2.1.trans h1.2.2.2.2.2.2.2.1,
   h2.2.2.2.2.2.2.2.2.1.trans h1.2.2.2.2.2.2.2.2.1,
   h2.2.2.2.2.2.2.2.2.2.1.trans h1.2.2.2.2.2.2.2.2.2.1,
   h2.2.2.2.2.2.2.2.2.2.2.trans h1.2.2.2.2.2.2.2.2.2.2⟩

theorem setBucketAndUsage_offshard (c : BchFs) (dev : Nat) (g : Bool) (b : Nat)
    (m : BucketMark) (du : BchDevUsage) :
    OffShardEq c (c.setBucketAndUsage dev g b m du) g := by
  refine ⟨?_, ?_, rfl, fun _ => rfl, rfl, rfl, rfl, rfl, rfl, rfl, rfl⟩
  · intro d b'
    by_cases hd : d = dev
    · subst hd
      simp [BchFs.setBucketAndUsage, Function.update_same]
    · simp [BchFs.setBucketAndUsage, Function.update_noteq hd]
  · intro d
    by_cases hd : d = dev
    · subst hd
      simp [BchFs.setBucketAndUsage, Function.update_same]
    · simp [BchFs.setBucketAndUsage, Function.update_noteq hd]

theorem setUsage_offshard (c : BchFs) (g : Bool) (u : BchFsUsage) :
    OffShardEq c (c.setUsage g u) g := by
  refine ⟨fun _ _ => rfl, fun _ => rfl, ?_, fun _ => rfl, rfl, rfl, rfl, rfl, rfl, rfl, rfl⟩
  simp [BchFs.setUsage]

theorem setStripe_offshard (c : BchFs) (g : Bool) (idx : Nat) (m : Stripe) :
    OffShardEq c (c.setStripe g idx m) g := by
  refine ⟨fun _ _ => rfl, fun _ => rfl, rfl, ?_, rfl, rfl, rfl, rfl, rfl, rfl, rfl⟩
  intro i
  simp [BchFs.setStripe]



theorem mark_pointer_offshard (c : BchFs) (p : ExtentPtrDecoded)
    (sectors : Int) (dt : BchDataType) (u : BchFsUsage) (jseq : Nat)
    (flags : MarkFlags) (gc : Bool) (c' : BchFs) (u' : BchFsUsage)
    (h : bch2_mark_pointer c p sectors dt u jseq flags gc = some (c', u')) :
    OffShardEq c c' gc := by
  unfold bch2_mark_pointer at h
  cases hg : gen_after ((c.devs p.ptr.dev).buckets gc p.ptr.bucket).gen p.ptr.gen <;>
    simp only [hg, Bool.false_eq_true, if_false, if_true, ite_true, ite_false] at h
  case false =>
    repeat' split at h
    all_goals
      try exact Option.noConfusion h
    all_goals
      simp only [Option.some.injEq, Prod.mk.injEq] at h
    all_goals
      obtain ⟨hc', -⟩ := h
    all_goals
      subst hc'
    all_goals
      exact setBucketAndUsage_offshard c p.ptr.dev gc p.ptr.bucket _ _
  case true =>
    split at h
    · exact Option.noConfusion h
    · simp only [Option.some.injEq, Prod.mk.injEq] at h
      obtain ⟨hc', -⟩ := h
      subst hc'
      exact OffShardEq.refl c gc

theorem mark_stripe_ptr_offshard (c : BchFs) (e : BchExtentStripePtr)
    (sectors : Int) (flags : MarkFlags) (adj : Int) (red : Nat) (gc : Bool)
    (c' : BchFs) (adj' : Int) (red' : Nat)
    (h : bch2_mark_stripe_ptr c e sectors flags adj red gc = .ok (c', adj', red') ∨
         bch2_mark_stripe_ptr c e sectors flags adj red gc = .err (c', adj', red')) :
    OffShardEq c c' gc := by
  unfold bch2_mark_stripe_ptr at h
  rcases hst : c.stripes gc e.idx with _ | m <;>
    simp only [hst] at h
  · rcases h with h | h
    · exact CRes.noConfusion h
    · simp only [CRes.err.injEq, Prod.mk.injEq] at h
      obtain ⟨hc', -⟩ := h
      subst hc'
      exact OffShardEq.refl c gc
  · cases ha : m.alive
    case false =>
      rw [ha] at h
      simp only [Bool.not_false, if_true, ite_true, eq_self_iff_true, if_pos] at h
      rcases h with h | h
      · exact CRes.noConfusion h
      · simp only [CRes.err.injEq, Prod.mk.injEq] at h
        obtain ⟨hc', -⟩ := h
        subst hc'
        exact OffShardEq.refl c gc
    case true =>
      rw [ha] at h
      simp only [Bool.not_true, Bool.false_eq_true, if_false, ite_false] at h
      rcases h with h | h
      · split at h
        · simp only [CRes.ok.injEq, Prod.mk.injEq] at h
          obtain ⟨hc', -⟩ := h
          subst hc'
          exact setStripe_offshard c gc e.idx _
        · split at h
          · exact CRes.noConfusion h
          · simp only [CRes.ok.injEq, Prod.mk.injEq] at h
            obtain ⟨hc', -⟩ := h
            subst hc'
            exact setStripe_offshard c gc e.idx _
      · split at h
        · exact CRes.noConfusion h
        · split at h <;> exact CRes.noConfusion h

theorem markStripeRefs_offshard (ecl : List BchExtentStripePtr) (c : BchFs)
    (sectors : Int) (flags : MarkFlags) (adj : Int) (red : Nat) (gc : Bool)
    (c' : BchFs) (adj' : Int) (red' : Nat)
    (h : markStripeRefs c ecl sectors flags adj red gc = .ok (c', adj', red') ∨
         markStripeRefs c ecl sectors flags adj red gc = .err (c', adj', red')) :
    OffShardEq c c' gc := by
  induction ecl generalizing c adj red with
  | nil =>
    rcases h with h | h
    · simp only [markStripeRefs, CRes.ok.injEq, Prod.mk.injEq] at h
      obtain ⟨hc', -⟩ := h
      subst hc'
      exact OffShardEq.refl c gc
    · exact absurd h (by simp [markStripeRefs])
  | cons e rest ih =>
    rcases hh : bch2_mark_stripe_ptr c e sectors flags adj red gc with s | s | _
    · obtain ⟨c₁, adj₁, red₁⟩ := s
      simp only [markStripeRefs, hh] at h
      exact (mark_stripe_ptr_offshard c e sectors flags adj red gc c₁ adj₁ red₁
        (Or.inl hh)).trans (ih c₁ adj₁ red₁ h)
    · obtain ⟨c₁, adj₁, red₁⟩ := s
      simp only [markStripeRefs, hh] at h
      rcases h with h | h
      · exact CRes.noConfusion h
      · simp only [CRes.err.injEq, Prod.mk.injEq] at h
        obtain ⟨hc', -⟩ := h
        exact hc' ▸ mark_stripe_ptr_offshard c e sectors flags adj red gc c₁ adj₁ red₁ (Or.inr hh)
    · simp only [markStripeRefs, hh] at h
      rcases h with h | h <;> exact CRes.noConfusion h



theorem markExtentPtrs_offshard (ptrs : List ExtentPtrDecoded) (c : BchFs)
    (sectors : Int) (dt : BchDataType) (u : BchFsUsage) (jseq : Nat)
    (flags : MarkFlags) (gc : Bool) (acc : ExtentAcc) (c' : BchFs)
    (u' : BchFsUsage) (acc' : ExtentAcc)
    (h : markExtentPtrs c ptrs sectors dt u jseq flags gc acc = .ok (c', u', acc') ∨
         markExtentPtrs c ptrs sectors dt u jseq flags gc acc = .err (c', u', acc')) :
    OffShardEq c c' gc := by
  induction ptrs generalizing c u acc with
  | nil =>
    rcases h with h | h
    · simp only [markExtentPtrs, CRes.ok.injEq, Prod.mk.injEq] at h
      obtain ⟨hc', -⟩ := h
      subst hc'
      exact OffShardEq.refl c gc
    · exact absurd h (by simp [markExtentPtrs])
  | cons p rest ih =>
    rcases hd : (if dt = BchDataType.btree then some sectors
                 else ptr_disk_sectors_delta p sectors) with _ | ds <;>
      simp only [markExtentPtrs, hd] at h
    · rcases h with h | h <;> exact CRes.noConfusion h
    · rcases hmp : bch2_mark_pointer c p ds dt u jseq flags gc with _ | s <;>
        simp only [hmp] at h
      · rcases h with h | h <;> exact CRes.noConfusion h
      · obtain ⟨c₁, u₁⟩ := s
        have hoff1 := mark_pointer_offshard c p ds dt u jseq flags gc c₁ u₁ hmp
        by_cases hcach : p.ptr.cached = true <;>
          simp only [hcach, Bool.not_true, Bool.not_false, if_true, if_false,
            ite_true, ite_false] at h
        · exact hoff1.trans (ih c₁ u₁ _ h)
        · rcases hsr : markStripeRefs c₁ p.ec ds flags ds acc.ec_redundancy gc
              with s2 | s2 | _ <;> simp only [hsr] at h
          · obtain ⟨c₂, adj₂, red₂⟩ := s2
            have hoff2 := markStripeRefs_offshard p.ec c₁ ds flags ds acc.ec_redundancy
              gc c₂ adj₂ red₂ (Or.inl hsr)
            exact (hoff1.trans hoff2).trans (ih c₂ u₁ _ h)
          · obtain ⟨c₂, adj₂, red₂⟩ := s2
            have hoff2 := markStripeRefs_offshard p.ec c₁ ds flags ds acc.ec_redundancy
              gc c₂ adj₂ red₂ (Or.inr hsr)
            rcases h with h | h
            · exact CRes.noConfusion h
            · simp only [CRes.err.injEq, Prod.mk.injEq] at h
              obtain ⟨hc', -⟩ := h
              exact hc' ▸ (hoff1.trans hoff2)
          · rcases h with h | h <;> exact CRes.noConfusion h

theorem mark_extent_offshard (c : BchFs) (ptrs : List ExtentPtrDecoded)
    (sectors : Int) (dt : BchDataType) (u : BchFsUsage) (jseq : Nat)
    (flags : MarkFlags) (gc : Bool) (c' : BchFs) (u' : BchFsUsage)
    (h : bch2_mark_extent c ptrs sectors dt u jseq flags gc = .ok (c', u') ∨
         bch2_mark_extent c ptrs sectors dt u jseq flags gc = .err (c', u')) :
    OffShardEq c c' gc := by
  by_cases hs0 : sectors = 0
  · simp only [bch2_mark_extent, hs0, ite_true, if_true] at h
    rcases h with h | h <;> exact CRes.noConfusion h
  · simp only [bch2_mark_extent, hs0, ite_false, if_false] at h
    rcases hmep : markExtentPtrs c ptrs sectors dt u jseq flags gc ⟨0, 0, 0, 0, 0⟩
        with s | s | _ <;> simp only [hmep] at h
    · obtain ⟨c₂, u₂, acc₂⟩ := s
      rcases h with h | h
      · simp only [CRes.ok.injEq, Prod.mk.injEq] at h
        obtain ⟨hc', -⟩ := h
        exact hc' ▸ markExtentPtrs_offshard ptrs c sectors dt u jseq flags gc
          ⟨0, 0, 0, 0, 0⟩ c₂ u₂ acc₂ (Or.inl hmep)
      · exact CRes.noConfusion h
    · obtain ⟨c₂, u₂, acc₂⟩ := s
      rcases h with h | h
      · exact CRes.noConfusion h
      · simp only [CRes.err.injEq, Prod.mk.injEq] at h
        obtain ⟨hc', -⟩ := h
        exact hc' ▸ markExtentPtrs_offshard ptrs c sectors dt u jseq flags gc
          ⟨0, 0, 0, 0, 0⟩ c₂ u₂ acc₂ (Or.inr hmep)
    · rcases h with h | h <;> exact CRes.noConfusion h


theorem bucket_set_stripe_offshard (ptrs : List BchExtentPtr) (c : BchFs)
    (enabled : Bool) (u : BchFsUsage) (jseq : Nat) (gc : Bool) (c' : BchFs)
    (u' : BchFsUsage)
    (h : bucket_set_stripe c ptrs enabled u jseq gc = some (c', u')) :
    OffShardEq c c' gc := by
  induction ptrs generalizing c u with
  | nil =>
    simp only [bucket_set_stripe, Option.some.injEq, Prod.mk.injEq] at h
    obtain ⟨hc', -⟩ := h
    subst hc'
    exact OffShardEq.refl c gc
  | cons ptr rest ih =>
    unfold bucket_set_stripe at h
    cases hga : gen_after ((c.devs ptr.dev).buckets false ptr.bucket).gen ptr.gen <;>
      simp only [hga, Bool.false_eq_true, if_false, if_true, ite_true, ite_false] at h
    case true =>
      exact Option.noConfusion h
    case false =>
      repeat' split at h
      all_goals
        try exact Option.noConfusion h
      all_goals
        exact (setBucketAndUsage_offshard c ptr.dev gc ptr.bucket _ _).trans (ih _ _ h)



theorem mark_stripe_offshard (c : BchFs) (idx : Nat) (v : BchStripeVal)
    (inserting : Bool) (u : BchFsUsage) (jseq : Nat) (flags : MarkFlags)
    (gc : Bool) (c' : BchFs) (u' : BchFsUsage)
    (h : bch2_mark_stripe c idx v inserting u jseq flags gc = .ok (c', u') ∨
         bch2_mark_stripe c idx v inserting u jseq flags gc = .err (c', u')) :
    OffShardEq c c' gc := by
  unfold bch2_mark_stripe at h
  rcases hst : c.stripes gc idx with _ | m <;> simp only [hst] at h
  · rcases h with h | h
    · exact CRes.noConfusion h
    · simp only [CRes.err.injEq, Prod.mk.injEq] at h
      obtain ⟨hc', -⟩ := h
      subst hc'
      exact OffShardEq.refl c gc
  · repeat' split at h
    all_goals
      try (rcases h with h | h <;> exact CRes.noConfusion h)
    all_goals
      rcases h with h | h
    all_goals
      try exact CRes.noConfusion h
    all_goals
      simp only [CRes.err.injEq, CRes.ok.injEq, Prod.mk.injEq] at h
    all_goals
      obtain ⟨hc', -⟩ := h
    all_goals
      subst hc'
    all_goals
      first
        | exact OffShardEq.refl c gc
        | exact (setStripe_offshard c gc idx _).trans
            (bucket_set_stripe_offshard _ _ _ _ _ _ _ _ (by assumption))



theorem mark_key_inner_offshard (c : BchFs) (k : BkeyVal) (inserting : Bool)
    (sectors : Int) (u : BchFsUsage) (jseq : Nat) (flags : MarkFlags)
    (gc : Bool) (c' : BchFs) (u' : BchFsUsage)
    (h : __bch2_mark_key c k inserting sectors u jseq flags gc = .ok (c', u') ∨
         __bch2_mark_key c k inserting sectors u jseq flags gc = .err (c', u')) :
    OffShardEq c c' gc := by
  cases k with
  | btree_ptr ptrs => exact mark_extent_offshard c ptrs _ _ u jseq flags gc c' u' h
  | extent ptrs => exact mark_extent_offshard c ptrs _ _ u jseq flags gc c' u' h
  | stripe idx v => exact mark_stripe_offshard c idx v inserting u jseq flags gc c' u' h
  | alloc =>
    rcases h with h | h
    · simp only [__bch2_mark_key, CRes.ok.injEq, Prod.mk.injEq] at h
      obtain ⟨hc', -⟩ := h
      subst hc'
      exact OffShardEq.refl c gc
    · exact absurd h (by simp [__bch2_mark_key])
  | reservation nr =>
    rcases h with h | h
    · simp only [__bch2_mark_key, CRes.ok.injEq, Prod.mk.injEq] at h
      obtain ⟨hc', -⟩ := h
      subst hc'
      exact OffShardEq.refl c gc
    · exact absurd h (by simp [__bch2_mark_key])
  | other =>
    rcases h with h | h
    · simp only [__bch2_mark_key, CRes.ok.injEq, Prod.mk.injEq] at h
      obtain ⟨hc', -⟩ := h
      subst hc'
      exact OffShardEq.refl c gc
    · exact absurd h (by simp [__bch2_mark_key])


theorem OffShardEq.gc_cur_eq {c c' : BchFs} {g : Bool} (h : OffShardEq c c' g) :
    c'.gc_cur = c.gc_cur := h.2.2.2.2.1

theorem gc_visited_offshard {c c' : BchFs} {g : Bool} (pos : Nat)
    (h : OffShardEq c c' g) : gc_visited c' pos = gc_visited c pos := by
  unfold gc_visited
  rw [h.gc_cur_eq]

theorem mark_alloc_bucket_one_offshard (c : BchFs) (dev b : Nat)
    (owned : Bool) (g : Bool) (c' : BchFs)
    (h : __bch2_mark_alloc_bucket c dev b owned g = some c') :
    OffShardEq c c' g := by
  unfold __bch2_mark_alloc_bucket at h
  simp only [] at h
  split at h
  · exact Option.noConfusion h
  · simp only [Option.some.injEq] at h
    subst h
    exact (setBucketAndUsage_offshard c dev g b _ _).trans (setUsage_offshard _ g _)

theorem mark_metadata_bucket_one_offshard (c : BchFs) (dev b : Nat)
    (type : BchDataType) (sectors : Nat) (g : Bool) (c' : BchFs)
    (h : __bch2_mark_metadata_bucket c dev b type sectors g = some c') :
    OffShardEq c c' g := by
  unfold __bch2_mark_metadata_bucket at h
  simp only [] at h
  repeat' split at h
  all_goals
    try exact Option.noConfusion h
  all_goals
    simp only [Option.some.injEq] at h
  all_goals
    subst h
  all_goals
    exact (setBucketAndUsage_offshard c dev g b _ _).trans (setUsage_offshard _ g _)



theorem gc_visited_setUsage (c : BchFs) (g : Bool) (u : BchFsUsage) (pos : Nat) :
    gc_visited (c.setUsage g u) pos = gc_visited c pos := rfl

theorem mark_alloc_routing_gc (c : BchFs) (dev b : Nat) (owned : Bool)
    (pos : Nat) (flags : MarkFlags) (hgc : flags.gc = true) :
    bch2_mark_alloc_bucket c dev b owned pos flags =
      __bch2_mark_alloc_bucket c dev b owned true := by
  unfold bch2_mark_alloc_bucket
  simp only [hgc, Bool.not_true, Bool.false_eq_true, if_false, ite_false, true_or,
    Bool.true_or, if_true, ite_true]

theorem mark_alloc_routing_live (c : BchFs) (dev b : Nat) (owned : Bool)
    (pos : Nat) (flags : MarkFlags) (hgc : flags.gc = false)
    (hv : gc_visited c pos = false) :
    bch2_mark_alloc_bucket c dev b owned pos flags =
      __bch2_mark_alloc_bucket c dev b owned false := by
  unfold bch2_mark_alloc_bucket
  simp only [hgc, Bool.not_false, if_true, ite_true, Bool.false_eq_true, false_or]
  rcases h1 : __bch2_mark_alloc_bucket c dev b owned false with _ | c₁
  · rfl
  · simp only []
    rw [gc_visited_offshard pos (mark_alloc_bucket_one_offshard c dev b owned false c₁ h1), hv]
    simp

theorem mark_alloc_routing_both (c : BchFs) (dev b : Nat) (owned : Bool)
    (pos : Nat) (flags : MarkFlags) (hgc : flags.gc = false)
    (hv : gc_visited c pos = true) :
    bch2_mark_alloc_bucket c dev b owned pos flags =
      (__bch2_mark_alloc_bucket c dev b owned false).bind
        (fun c₁ => __bch2_mark_alloc_bucket c₁ dev b owned true) := by
  unfold bch2_mark_alloc_bucket
  simp only [hgc, Bool.not_false, if_true, ite_true, Bool.false_eq_true, false_or]
  rcases h1 : __bch2_mark_alloc_bucket c dev b owned false with _ | c₁
  · rfl
  · simp only []
    rw [gc_visited_offshard pos (mark_alloc_bucket_one_offshard c dev b owned false c₁ h1), hv]
    simp

theorem mark_metadata_routing_gc (c : BchFs) (dev b : Nat) (type : BchDataType)
    (sec pos : Nat) (flags : MarkFlags)
    (ht : type = BchDataType.sb ∨ type = BchDataType.journal)
    (hgc : flags.gc = true) :
    bch2_mark_metadata_bucket c dev b type sec pos flags =
      __bch2_mark_metadata_bucket c dev b type sec true := by
  unfold bch2_mark_metadata_bucket
  rw [if_neg (by rcases ht with h | h <;> simp [h])]
  simp only [hgc, Bool.not_true, Bool.false_eq_true, if_false, ite_false, true_or,
    Bool.true_or, if_true, ite_true]

theorem mark_metadata_routing_live (c : BchFs) (dev b : Nat)
    (type : BchDataType) (sec pos : Nat) (flags : MarkFlags)
    (ht : type = BchDataType.sb ∨ type = BchDataType.journal)
    (hgc : flags.gc = false) (hv : gc_visited c pos = false) :
    bch2_mark_metadata_bucket c dev b type sec pos flags =
      __bch2_mark_metadata_bucket c dev b type sec false := by
  unfold bch2_mark_metadata_bucket
  rw [if_neg (by rcases ht with h | h <;> simp [h])]
  simp only [hgc, Bool.not_false, if_true, ite_true, Bool.false_eq_true, false_or]
  rcases h1 : __bch2_mark_metadata_bucket c dev b type sec false with _ | c₁
  · rfl
  · simp only []
    rw [gc_visited_offshard pos (mark_metadata_bucket_one_offshard c dev b type sec false c₁ h1), hv]
    simp

theorem mark_metadata_routing_both (c : BchFs) (dev b : Nat)
    (type : BchDataType) (sec pos : Nat) (flags : MarkFlags)
    (ht : type = BchDataType.sb ∨ type = BchDataType.journal)
    (hgc : flags.gc = false) (hv : gc_visited c pos = true) :
    bch2_mark_metadata_bucket c dev b type sec pos flags =
      (__bch2_mark_metadata_bucket c dev b type sec false).bind
        (fun c₁ => __bch2_mark_metadata_bucket c₁ dev b type sec true) := by
  unfold bch2_mark_metadata_bucket
  rw [if_neg (by rcases ht with h | h <;> simp [h])]
  simp only [hgc, Bool.not_false, if_true, ite_true, Bool.false_eq_true, false_or]
  rcases h1 : __bch2_mark_metadata_bucket c dev b type sec false with _ | c₁
  · rfl
  · simp only []
    rw [gc_visited_offshard pos (mark_metadata_bucket_one_offshard c dev b type sec false c₁ h1), hv]
    simp

theorem mark_key_routing_gc (c : BchFs) (k : BkeyVal) (ins : Bool)
    (sec : Int) (pos : Nat) (fsu : Option BchFsUsage) (jseq : Nat)
    (flags : MarkFlags) (hgc : flags.gc = true) :
    bch2_mark_key_locked c k ins sec pos fsu jseq flags =
      markKeyGcPass c k ins sec fsu jseq flags := by
  unfold bch2_mark_key_locked markKeyGcPass
  simp only [hgc, Bool.not_true, Bool.false_eq_true, if_false, ite_false, true_or,
    Bool.true_or, if_true, ite_true]

theorem mark_key_routing_live (c : BchFs) (k : BkeyVal) (ins : Bool)
    (sec : Int) (pos : Nat) (fsu : Option BchFsUsage) (jseq : Nat)
    (flags : MarkFlags) (hgc : flags.gc = false)
    (hv : gc_visited c pos = false) :
    bch2_mark_key_locked c k ins sec pos fsu jseq flags =
      markKeyLivePass c k ins sec fsu jseq flags := by
  unfold bch2_mark_key_locked markKeyLivePass
  simp only [hgc, Bool.not_false, if_true, ite_true, Bool.false_eq_true, false_or]
  rcases hk : __bch2_mark_key c k ins sec (fsu.getD (c.usage false)) jseq flags false
      with s | s | _ <;> (simp only [hk]; try rfl)
  all_goals
    obtain ⟨c₁, u₁⟩ := s
  all_goals
    have hoff := mark_key_inner_offshard c k ins sec _ jseq flags false c₁ u₁ (Or.inl hk)
  all_goals
    rcases fsu with _ | u0
  all_goals
    simp only []
  all_goals
    first
      | (rw [gc_visited_setUsage, gc_visited_offshard pos hoff, hv]; simp)
      | (rw [gc_visited_offshard pos hoff, hv]; simp)

theorem mark_key_routing_both (c : BchFs) (k : BkeyVal) (ins : Bool)
    (sec : Int) (pos : Nat) (fsu : Option BchFsUsage) (jseq : Nat)
    (flags : MarkFlags) (hgc : flags.gc = false)
    (hv : gc_visited c pos = true) :
    bch2_mark_key_locked c k ins sec pos fsu jseq flags =
      (match markKeyLivePass c k ins sec fsu jseq flags with
       | .ok (c₁, fsu₁) => markKeyGcPass c₁ k ins sec fsu₁ jseq flags
       | .err s => .err s
       | .trap => .trap) := by
  unfold bch2_mark_key_locked markKeyLivePass markKeyGcPass
  simp only [hgc, Bool.not_false, if_true, ite_true, Bool.false_eq_true, false_or]
  rcases hk : __bch2_mark_key c k ins sec (fsu.getD (c.usage false)) jseq flags false
      with s | s | _ <;> (simp only [hk]; try rfl)
  all_goals
    obtain ⟨c₁, u₁⟩ := s
  all_goals
    have hoff := mark_key_inner_offshard c k ins sec _ jseq flags false c₁ u₁ (Or.inl hk)
  all_goals
    rcases fsu with _ | u0
  all_goals
    simp only []
  all_goals
    first
      | (rw [gc_visited_setUsage, gc_visited_offshard pos hoff, hv]; simp)
      | (rw [gc_visited_offshard pos hoff, hv]; simp)


/-- C1 counterexample: a `mark_alloc_bucket` call with the GC flag set
changes the gc shard (gc-side `buckets_alloc` goes 0 → 1, the gc copy of
the bucket becomes allocator-owned) but leaves the live shard completely
untouched — the live shard is NOT updated unconditionally. -/
theorem mark_alloc_gc_flag_skips_live_cx :
    (bch2_mark_alloc_bucket fsZero 0 0 true 0 ⟨true, false⟩).map
        (fun c => (((c.devs 0).usage false).buckets_alloc,
                   ((c.devs 0).usage true).buckets_alloc,
                   ((c.devs 0).buckets false 0).owned_by_allocator,
                   ((c.devs 0).buckets true 0).owned_by_allocator)) =
      some (0, 1, false, true) ∧
    ((fsZero.devs 0).usage false).buckets_alloc = 0 ∧
    ((fsZero.devs 0).usage true).buckets_alloc = 0 := by
  refine ⟨by decide, by decide, by decide⟩

/-- C1 amended: each marking call (`bch2_mark_key_locked`,
`bch2_mark_alloc_bucket`, `bch2_mark_metadata_bucket`) updates the live
side (the live shard, or for `mark_key_locked` the caller's usage struct
when one is supplied) iff the caller did NOT set the GC flag, and updates
the gc shard iff the GC flag is set or `gc_visited(pos)` holds (an error
in the live pass short-circuits the gc pass).  Stated as: (1-3) the alloc
call runs exactly the gc pass / the live pass / both in sequence according
to the flag and `gc_visited`; (4-6) the same for the metadata call; (7-9)
the same for `mark_key_locked`; and (10-12) each single-shard pass leaves
the other shard (bucket arrays, device usage, fs usage, stripes) and all
global fields untouched. -/
theorem mark_calls_shard_routing :
    (∀ c dev b owned pos flags, flags.gc = true →
      bch2_mark_alloc_bucket c dev b owned pos flags =
        __bch2_mark_alloc_bucket c dev b owned true) ∧
    (∀ c dev b owned pos flags, flags.gc = false → gc_visited c pos = false →
      bch2_mark_alloc_bucket c dev b owned pos flags =
        __bch2_mark_alloc_bucket c dev b owned false) ∧
    (∀ c dev b owned pos flags, flags.gc = false → gc_visited c pos = true →
      bch2_mark_alloc_bucket c dev b owned pos flags =
        (__bch2_mark_alloc_bucket c dev b owned false).bind
          (fun c₁ => __bch2_mark_alloc_bucket c₁ dev b owned true)) ∧
    (∀ c dev b type sec pos flags,
      (type = BchDataType.sb ∨ type = BchDataType.journal) → flags.gc = true →
      bch2_mark_metadata_bucket c dev b type sec pos flags =
        __bch2_mark_metadata_bucket c dev b type sec true) ∧
    (∀ c dev b type sec pos flags,
      (type = BchDataType.sb ∨ type = BchDataType.journal) → flags.gc = false →
      gc_visited c pos = false →
      bch2_mark_metadata_bucket c dev b type sec pos flags =
        __bch2_mark_metadata_bucket c dev b type sec false) ∧
    (∀ c dev b type sec pos flags,
      (type = BchDataType.sb ∨ type = BchDataType.journal) → flags.gc = false →
      gc_visited c pos = true →
      bch2_mark_metadata_bucket c dev b type sec pos flags =
        (__bch2_mark_metadata_bucket c dev b type sec false).bind
          (fun c₁ => __bch2_mark_metadata_bucket c₁ dev b type sec true)) ∧
    (∀ c k ins sec pos fsu jseq flags, flags.gc = true →
      bch2_mark_key_locked c k ins sec pos fsu jseq flags =
        markKeyGcPass c k ins sec fsu jseq flags) ∧
    (∀ c k ins sec pos fsu jseq flags, flags.gc = false →
      gc_visited c pos = false →
      bch2_mark_key_locked c k ins sec pos fsu jseq flags =
        markKeyLivePass c k ins sec fsu jseq flags) ∧
    (∀ c k ins sec pos fsu jseq flags, flags.gc = false →
      gc_visited c pos = true →
      bch2_mark_key_locked c k ins sec pos fsu jseq flags =
        (match markKeyLivePass c k ins sec fsu jseq flags with
         | .ok (c₁, fsu₁) => markKeyGcPass c₁ k ins sec fsu₁ jseq flags
         | .err s => .err s
         | .trap => .trap)) ∧
    (∀ c dev b owned g c', __bch2_mark_alloc_bucket c dev b owned g = some c' →
      OffShardEq c c' g) ∧
    (∀ c dev b type sec g c',
      __bch2_mark_metadata_bucket c dev b type sec g = some c' →
      OffShardEq c c' g) ∧
    (∀ c k ins sec u jseq flags g c' u',
      (__bch2_mark_key c k ins sec u jseq flags g = .ok (c', u') ∨
       __bch2_mark_key c k ins sec u jseq flags g = .err (c', u')) →
      OffShardEq c c' g) :=
  ⟨fun c dev b owned pos flags h => mark_alloc_routing_gc c dev b owned pos flags h,
   fun c dev b owned pos flags h hv => mark_alloc_routing_live c dev b owned pos flags h hv,
   fun c dev b owned pos flags h hv => mark_alloc_routing_both c dev b owned pos flags h hv,
   fun c dev b type sec pos flags ht h => mark_metadata_routing_gc c dev b type sec pos flags ht h,
   fun c dev b type sec pos flags ht h hv => mark_metadata_routing_live c dev b type sec pos flags ht h hv,
   fun c dev b type sec pos flags ht h hv => mark_metadata_routing_both c dev b type sec pos flags ht h hv,
   fun c k ins sec pos fsu jseq flags h => mark_key_routing_gc c k ins sec pos fsu jseq flags h,
   fun c k ins sec pos fsu jseq flags h hv => mark_key_routing_live c k ins sec pos fsu jseq flags h hv,
   fun c k ins sec pos fsu jseq flags h hv => mark_key_routing_both c k ins sec pos fsu jseq flags h hv,
   fun c dev b owned g c' h => mark_alloc_bucket_one_offshard c dev b owned g c' h,
   fun c dev b type sec g c' h => mark_metadata_bucket_one_offshard c dev b type sec g c' h,
   fun c k ins sec u jseq flags g c' u' h => mark_key_inner_offshard c k ins sec u jseq flags g c' u' h⟩

theorem mark_calls_shard_routing_witness :
    (MarkFlags.mk true false).gc = true ∧
    bch2_mark_alloc_bucket fsZero 0 0 true 0 ⟨true, false⟩ =
      __bch2_mark_alloc_bucket fsZero 0 0 true true :=
  ⟨rfl, mark_calls_shard_routing.1 fsZero 0 0 true 0 ⟨true, false⟩ rfl⟩



attribute [ext] FsUsageSummarized ReplicasUsage BchFsUsage BchDevUsage

set_option maxHeartbeats 2000000 in
theorem dev_usage_update_potential (ca : BchDev) (u : BchFsUsage)
    (du : BchDevUsage) (old new : BucketMark) :
    bch2_dev_usage_update ca u du old new =
      (u.add ((fsBucketPot ca new).sub (fsBucketPot ca old)),
       du.add ((devBucketPot ca new).sub (devBucketPot ca old))) := by
  unfold bch2_dev_usage_update account_bucket fsBucketPot devBucketPot
  unfold BchFsUsage.add BchFsUsage.sub FsUsageSummarized.add FsUsageSummarized.sub
  unfold ReplicasUsage.add ReplicasUsage.sub BchDevUsage.add BchDevUsage.sub
  unfold BchDevUsage.updSectors
  by_cases ho : bucket_type old = BchDataType.none <;>
  by_cases hn : bucket_type new = BchDataType.none <;>
    simp only [ho, hn, ite_true, ite_false, if_true, if_false, ne_eq, not_true,
      not_false_iff]
  all_goals refine Prod.ext ?_ ?_
  all_goals simp only []
  all_goals ext
  all_goals simp only [Function.update_apply, ho, hn]
  all_goals try split_ifs
  all_goals try subst_vars
  all_goals first
    | rfl
    | ring1
    | (simp_all [Function.update_apply]; try ring1)



attribute [ext] BucketMark Stripe BchDev BchFs

theorem fsu_add_sub_cancel (u : BchFsUsage) (a b : BchFsUsage) :
    (u.add (b.sub a)).add (a.sub b) = u := by
  unfold BchFsUsage.add BchFsUsage.sub FsUsageSummarized.add FsUsageSummarized.sub
  unfold ReplicasUsage.add ReplicasUsage.sub
  ext <;> simp <;> ring

theorem fsu_add_sub_chain (u : BchFsUsage) (a b c : BchFsUsage) :
    (u.add (b.sub a)).add (c.sub b) = u.add (c.sub a) := by
  unfold BchFsUsage.add BchFsUsage.sub FsUsageSummarized.add FsUsageSummarized.sub
  unfold ReplicasUsage.add ReplicasUsage.sub
  ext <;> simp <;> ring

theorem fsu_add_comm (u : BchFsUsage) (a b : BchFsUsage) :
    (u.add a).add b = (u.add b).add a := by
  unfold BchFsUsage.add FsUsageSummarized.add ReplicasUsage.add
  ext <;> simp <;> ring

theorem dvu_add_sub_cancel (u : BchDevUsage) (a b : BchDevUsage) :
    (u.add (b.sub a)).add (a.sub b) = u := by
  unfold BchDevUsage.add BchDevUsage.sub
  ext <;> simp <;> ring

theorem dvu_add_sub_chain (u : BchDevUsage) (a b c : BchDevUsage) :
    (u.add (b.sub a)).add (c.sub b) = u.add (c.sub a) := by
  unfold BchDevUsage.add BchDevUsage.sub
  ext <;> simp <;> ring

theorem dvu_add_comm (u : BchDevUsage) (a b : BchDevUsage) :
    (u.add a).add b = (u.add b).add a := by
  unfold BchDevUsage.add
  ext <;> simp <;> ring

theorem setBAU_devs_apply (c : BchFs) (dev : Nat) (gc : Bool) (b : Nat)
    (m : BucketMark) (du : BchDevUsage) (d : Nat) :
    (c.setBucketAndUsage dev gc b m du).devs d =
      if d = dev then
        { c.devs dev with
          buckets := fun g i => if g = gc ∧ i = b then m else (c.devs dev).buckets g i,
          usage := fun g => if g = gc then du else (c.devs dev).usage g }
      else c.devs d := by
  unfold BchFs.setBucketAndUsage
  by_cases h : d = dev <;> simp [Function.update_apply, h]

theorem setBAU_stripes (c : BchFs) (dev : Nat) (gc : Bool) (b : Nat)
    (m : BucketMark) (du : BchDevUsage) :
    (c.setBucketAndUsage dev gc b m du).stripes = c.stripes := rfl

theorem setBAU_usage (c : BchFs) (dev : Nat) (gc : Bool) (b : Nat)
    (m : BucketMark) (du : BchDevUsage) :
    (c.setBucketAndUsage dev gc b m du).usage = c.usage := rfl

theorem setBAU_absorb (c : BchFs) (dev : Nat) (gc : Bool) (b : Nat)
    (m₁ m₂ : BucketMark) (du₁ du₂ : BchDevUsage) :
    (c.setBucketAndUsage dev gc b m₁ du₁).setBucketAndUsage dev gc b m₂ du₂ =
      c.setBucketAndUsage dev gc b m₂ du₂ := by
  unfold BchFs.setBucketAndUsage
  simp only [Function.update_same, Function.update_idem]
  refine congrArg (fun ca => { c with devs := Function.update c.devs dev ca }) ?_
  refine BchDev.ext rfl ?_ ?_
  · funext g i
    dsimp only
    split_ifs <;> rfl
  · funext g
    dsimp only
    split_ifs <;> rfl

theorem bchdev_rebuild (ca : BchDev) (f : Bool → Nat → BucketMark)
    (u : Bool → BchDevUsage) (hf : f = ca.buckets) (hu : u = ca.usage) :
    ({ bucket_size := ca.bucket_size, buckets := f, usage := u } : BchDev) = ca := by
  subst hf
  subst hu
  rfl

theorem setBAU_self (c : BchFs) (dev : Nat) (gc : Bool) (b : Nat)
    (m : BucketMark) (du : BchDevUsage)
    (hm : (c.devs dev).buckets gc b = m) (hd : (c.devs dev).usage gc = du) :
    c.setBucketAndUsage dev gc b m du = c := by
  have h := bchdev_rebuild (c.devs dev)
    (fun g i => if g = gc ∧ i = b then m else (c.devs dev).buckets g i)
    (fun g => if g = gc then du else (c.devs dev).usage g)
    (by
      funext g i
      split_ifs with hq
      · obtain ⟨h1, h2⟩ := hq
        rw [h1, h2]
        exact hm.symm
      · rfl)
    (by
      funext g
      split_ifs with hq
      · rw [hq]
        exact hd.symm
      · rfl)
  unfold BchFs.setBucketAndUsage
  simp only []
  rw [h, Function.update_eq_self]

theorem setStripe_absorb (c : BchFs) (gc : Bool) (idx : Nat) (m₁ m₂ : Stripe) :
    (c.setStripe gc idx m₁).setStripe gc idx m₂ = c.setStripe gc idx m₂ := by
  unfold BchFs.setStripe
  refine congrArg (fun f => { c with stripes := f }) ?_
  funext g i
  dsimp only
  split_ifs <;> rfl

theorem setStripe_self (c : BchFs) (gc : Bool) (idx : Nat) (m : Stripe)
    (hm : c.stripes gc idx = some m) :
    c.setStripe gc idx m = c := by
  unfold BchFs.setStripe
  have h : (fun g i => if g = gc ∧ i = idx then some m else c.stripes g i) =
      c.stripes := by
    funext g i
    split_ifs with hq
    · obtain ⟨h1, h2⟩ := hq
      rw [h1, h2]
      exact hm.symm
    · rfl
  rw [h]

theorem setStripe_devs (c : BchFs) (gc : Bool) (idx : Nat) (m : Stripe) :
    (c.setStripe gc idx m).devs = c.devs := rfl

theorem setStripe_usage (c : BchFs) (gc : Bool) (idx : Nat) (m : Stripe) :
    (c.setStripe gc idx m).usage = c.usage := rfl

theorem setStripe_comm (c : BchFs) (gc : Bool) (i j : Nat) (m₁ m₂ : Stripe)
    (h : i ≠ j) :
    (c.setStripe gc i m₁).setStripe gc j m₂ =
      (c.setStripe gc j m₂).setStripe gc i m₁ := by
  unfold BchFs.setStripe
  refine congrArg (fun f => { c with stripes := f }) ?_
  funext g x
  dsimp only
  split_ifs with h1 h2 h2 <;> try rfl
  exact absurd (h2.2.symm.trans h1.2) h

theorem setBAU_setStripe_comm (c : BchFs) (dev : Nat) (gcb : Bool) (b : Nat)
    (m : BucketMark) (du : BchDevUsage) (gcs : Bool) (idx : Nat) (s : Stripe) :
    (c.setStripe gcs idx s).setBucketAndUsage dev gcb b m du =
      (c.setBucketAndUsage dev gcb b m du).setStripe gcs idx s := rfl


theorem checked_add_agree (a : Nat) (b : Int) (r : Nat)
    (h : checked_add a b = some r) : add32 a b = r := by
  unfold checked_add at h
  unfold add32
  simp only [] at h
  split at h
  · exact (Option.some.injEq _ _).mp h
  · exact Option.noConfusion h

theorem markPointer_agree (c : BchFs) (p : ExtentPtrDecoded) (sectors : Int)
    (dt : BchDataType) (u : BchFsUsage) (jseq : Nat) (flags : MarkFlags)
    (gc : Bool) (c' : BchFs) (u' : BchFsUsage)
    (h : bch2_mark_pointer c p sectors dt u jseq flags gc = some (c', u')) :
    markPointerT c p sectors dt u jseq gc = (c', u') := by
  unfold bch2_mark_pointer at h
  unfold markPointerT
  cases hg : gen_after ((c.devs p.ptr.dev).buckets gc p.ptr.bucket).gen p.ptr.gen
  case true =>
    simp only [hg, if_true, ite_true] at h ⊢
    split at h
    · exact Option.noConfusion h
    · exact (Option.some.injEq _ _).mp h
  case false =>
    simp only [hg, Bool.false_eq_true, if_false, ite_false] at h ⊢
    rcases hd : (if !p.ptr.cached
        then checked_add ((c.devs p.ptr.dev).buckets gc p.ptr.bucket).dirty_sectors sectors
        else some ((c.devs p.ptr.dev).buckets gc p.ptr.bucket).dirty_sectors) with _ | d
    · rw [hd] at h
      exact Option.noConfusion h
    rcases hcs : (if p.ptr.cached
        then checked_add ((c.devs p.ptr.dev).buckets gc p.ptr.bucket).cached_sectors sectors
        else some ((c.devs p.ptr.dev).buckets gc p.ptr.bucket).cached_sectors) with _ | cs
    · rw [hd, hcs] at h
      exact Option.noConfusion h
    rw [hd, hcs] at h
    simp only [] at h
    have hd' : (if !p.ptr.cached
        then add32 ((c.devs p.ptr.dev).buckets gc p.ptr.bucket).dirty_sectors sectors
        else ((c.devs p.ptr.dev).buckets gc p.ptr.bucket).dirty_sectors) = d := by
      cases hc : p.ptr.cached
      all_goals rw [hc] at hd
      all_goals simp only [Bool.not_true, Bool.not_false, Bool.false_eq_true,
        if_true, if_false, ite_true, ite_false] at hd ⊢
      · exact checked_add_agree _ _ _ hd
      · exact (Option.some.injEq _ _).mp hd
    have hcs' : (if p.ptr.cached
        then add32 ((c.devs p.ptr.dev).buckets gc p.ptr.bucket).cached_sectors sectors
        else ((c.devs p.ptr.dev).buckets gc p.ptr.bucket).cached_sectors) = cs := by
      cases hc : p.ptr.cached
      all_goals rw [hc] at hcs
      all_goals simp only [Bool.not_true, Bool.not_false, Bool.false_eq_true,
        if_true, if_false, ite_true, ite_false] at hcs ⊢
      · exact (Option.some.injEq _ _).mp hcs
      · exact checked_add_agree _ _ _ hcs
    rw [hd', hcs']
    by_cases hz : (d = 0 ∧ cs = 0)
    all_goals try rw [if_pos hz] at h
    all_goals try rw [if_pos hz]
    all_goals try rw [if_neg hz] at h
    all_goals try rw [if_neg hz]
    all_goals by_cases hj : (jseq ≠ 0)
    all_goals try rw [if_pos hj] at h
    all_goals try rw [if_pos hj]
    all_goals try rw [if_neg hj] at h
    all_goals try rw [if_neg hj]
    all_goals split at h
    all_goals first
      | exact Option.noConfusion h
      | exact (Option.some.injEq _ _).mp h

theorem stripePtr_agree (c : BchFs) (e : BchExtentStripePtr) (sectors : Int)
    (flags : MarkFlags) (adj : Int) (red : Nat) (gc : Bool)
    (c' : BchFs) (adj' : Int) (red' : Nat)
    (h : bch2_mark_stripe_ptr c e sectors flags adj red gc = .ok (c', adj', red')) :
    stripePtrT c e sectors gc = c' := by
  unfold bch2_mark_stripe_ptr at h
  unfold stripePtrT
  rcases hst : c.stripes gc e.idx with _ | m <;> simp only [hst] at h ⊢
  · exact CRes.noConfusion h
  cases ha : m.alive <;>
    simp only [ha, Bool.not_false, Bool.not_true, Bool.false_eq_true,
      if_true, if_false, ite_true, ite_false] at h ⊢
  · exact CRes.noConfusion h
  try simp only [] at h ⊢
  split at h
  case isTrue hz =>
    simp only [CRes.ok.injEq, Prod.mk.injEq] at h
    obtain ⟨hc', -⟩ := h
    rw [← hc']
    rw [hz]
    exact congrArg (fun m' => c.setStripe gc e.idx m') (by
      refine Stripe.ext rfl rfl rfl rfl rfl ?_ ?_ <;> simp)
  case isFalse hz =>
    split at h
    · exact CRes.noConfusion h
    · simp only [CRes.ok.injEq, Prod.mk.injEq] at h
      obtain ⟨hc', -⟩ := h
      rw [← hc']

theorem stripeRefs_agree (ecl : List BchExtentStripePtr) (c : BchFs)
    (sectors : Int) (flags : MarkFlags) (adj : Int) (red : Nat) (gc : Bool)
    (c' : BchFs) (adj' : Int) (red' : Nat)
    (h : markStripeRefs c ecl sectors flags adj red gc = .ok (c', adj', red')) :
    stripeRefsT c ecl sectors gc = c' := by
  induction ecl generalizing c adj red with
  | nil =>
    simp only [markStripeRefs, CRes.ok.injEq, Prod.mk.injEq] at h
    exact h.1
  | cons e rest ih =>
    rcases hh : bch2_mark_stripe_ptr c e sectors flags adj red gc with s | s | _ <;>
      simp only [markStripeRefs, hh] at h
    · obtain ⟨c₁, adj₁, red₁⟩ := s
      simp only [stripeRefsT]
      rw [stripePtr_agree c e sectors flags adj red gc c₁ adj₁ red₁ hh]
      exact ih c₁ adj₁ red₁ h
    · exact CRes.noConfusion h
    · exact CRes.noConfusion h



theorem extentPtrs_agree (L : List ExtentPtrDecoded) (c : BchFs) (S : Int)
    (dt : BchDataType) (u : BchFsUsage) (jseq : Nat) (flags : MarkFlags)
    (gc : Bool) (acc : ExtentAcc) (c' : BchFs) (u' : BchFsUsage)
    (acc' : ExtentAcc)
    (h : markExtentPtrs c L S dt u jseq flags gc acc = .ok (c', u', acc')) :
    extentFoldT (L.map (fun p => (p, (deltaOf dt S p).getD 0))) dt jseq gc
      (c, u) = (c', u') := by
  induction L generalizing c u acc with
  | nil =>
    simp only [markExtentPtrs, CRes.ok.injEq, Prod.mk.injEq] at h
    simp only [List.map_nil, extentFoldT]
    exact Prod.ext h.1 h.2.1
  | cons p rest ih =>
    simp only [markExtentPtrs] at h
    rcases hdel : (if dt = BchDataType.btree then some S
        else ptr_disk_sectors_delta p S) with _ | δ <;>
      simp only [hdel] at h
    · exact CRes.noConfusion h
    rcases hmp : bch2_mark_pointer c p δ dt u jseq flags gc with _ | s <;>
      simp only [hmp] at h
    · exact CRes.noConfusion h
    obtain ⟨c₁, u₁⟩ := s
    simp only [List.map_cons, extentFoldT, stepFullT]
    have hδ : (deltaOf dt S p).getD 0 = δ := by
      unfold deltaOf
      rw [hdel]
      rfl
    rw [hδ]
    rw [markPointer_agree c p δ dt u jseq flags gc c₁ u₁ hmp]
    simp only [] at h ⊢
    cases hc : p.ptr.cached
    case false =>
      rw [hc] at h
      simp only [Bool.not_false, if_true, ite_true] at h
      try simp only [Bool.not_false, if_true, ite_true]
      rcases hsr : markStripeRefs c₁ p.ec δ flags δ acc.ec_redundancy gc
          with s | s | _ <;> simp only [hsr] at h
      · obtain ⟨c₂, adj, red⟩ := s
        rw [stripeRefs_agree p.ec c₁ δ flags δ acc.ec_redundancy gc c₂ adj red hsr]
        exact ih c₂ u₁ _ h
      · exact CRes.noConfusion h
      · exact CRes.noConfusion h
    case true =>
      rw [hc] at h
      simp only [Bool.not_true, Bool.false_eq_true, if_false, ite_false] at h
      try simp only [Bool.not_true, Bool.false_eq_true, if_false, ite_false]
      exact ih c₁ u₁ _ h

theorem extentPtrs_deltas_defined (L : List ExtentPtrDecoded) (c : BchFs)
    (S : Int) (dt : BchDataType) (u : BchFsUsage) (jseq : Nat)
    (flags : MarkFlags) (gc : Bool) (acc : ExtentAcc) (r : BchFs × BchFsUsage × ExtentAcc)
    (h : markExtentPtrs c L S dt u jseq flags gc acc = .ok r) :
    ∀ p ∈ L, ∃ δ, deltaOf dt S p = some δ := by
  induction L generalizing c u acc with
  | nil => intro p hp; exact absurd hp (List.not_mem_nil p)
  | cons p rest ih =>
    intro q hq
    simp only [markExtentPtrs] at h
    rcases hdel : (if dt = BchDataType.btree then some S
        else ptr_disk_sectors_delta p S) with _ | δ <;>
      simp only [hdel] at h
    · exact CRes.noConfusion h
    rcases hmp : bch2_mark_pointer c p δ dt u jseq flags gc with _ | s <;>
      simp only [hmp] at h
    · exact CRes.noConfusion h
    obtain ⟨c₁, u₁⟩ := s
    simp only [] at h
    rcases List.mem_cons.mp hq with hq | hq
    · subst hq
      exact ⟨δ, hdel⟩
    · cases hc : p.ptr.cached <;> rw [hc] at h
      case false =>
        simp only [Bool.not_false, if_true, ite_true] at h
        rcases hsr : markStripeRefs c₁ p.ec δ flags δ acc.ec_redundancy gc
            with s | s | _ <;> simp only [hsr] at h
        · obtain ⟨c₂, adj, red⟩ := s
          exact ih c₂ u₁ _ h q hq
        · exact CRes.noConfusion h
        · exact CRes.noConfusion h
      case true =>
        simp only [Bool.not_true, Bool.false_eq_true, if_false, ite_false] at h
        exact ih c₁ u₁ _ h q hq

theorem deltaOf_neg (p : ExtentPtrDecoded) (dt : BchDataType) (S : Int)
    (hu : p.crc.compression_type = 0) (δ₁ δ₂ : Int)
    (h₁ : deltaOf dt S p = some δ₁) (h₂ : deltaOf dt (-S) p = some δ₂) :
    δ₂ = -δ₁ := by
  unfold deltaOf at h₁ h₂
  by_cases hb : dt = BchDataType.btree
  · rw [if_pos hb] at h₁ h₂
    simp only [Option.some.injEq] at h₁ h₂
    omega
  · rw [if_neg hb] at h₁ h₂
    unfold ptr_disk_sectors_delta ptr_disk_sectors ptr_disk_sectors_of_size at h₁ h₂
    simp only [hu, ne_eq, not_true_eq_false, false_and, if_false, ite_false] at h₁ h₂
    split at h₁ <;> split at h₂
    all_goals try split at h₁
    all_goals try split at h₂
    all_goals try exact Option.noConfusion h₁
    all_goals try exact Option.noConfusion h₂
    all_goals try simp only [Option.some.injEq] at h₁ h₂
    all_goals omega


theorem SParamsEq.rfl (c : BchFs) : SParamsEq c c := fun _ _ => Eq.refl _

theorem SParamsEq.symm (c t : BchFs) (h : SParamsEq c t) : SParamsEq t c :=
  fun g i => (h g i).symm

theorem SParamsEq.strans (c t s : BchFs) (h₁ : SParamsEq c t)
    (h₂ : SParamsEq t s) : SParamsEq c s :=
  fun g i => (h₁ g i).trans (h₂ g i)

theorem markPointerT_stripes (c : BchFs) (p : ExtentPtrDecoded) (a : Int)
    (dt : BchDataType) (u : BchFsUsage) (j : Nat) (gc : Bool) :
    (markPointerT c p a dt u j gc).1.stripes = c.stripes := by
  unfold markPointerT
  cases hg : gen_after ((c.devs p.ptr.dev).buckets gc p.ptr.bucket).gen p.ptr.gen
  · simp only [hg, Bool.false_eq_true, if_false, ite_false]
    rfl
  · simp only [hg, if_true, ite_true]

theorem stripePtrT_sparams (c : BchFs) (e : BchExtentStripePtr) (s : Int)
    (gc : Bool) : SParamsEq c (stripePtrT c e s gc) := by
  unfold stripePtrT
  rcases hst : c.stripes gc e.idx with _ | m
  · exact SParamsEq.rfl c
  · simp only []
    split
    · exact SParamsEq.rfl c
    · intro g i
      unfold BchFs.setStripe
      simp only []
      split_ifs with hq
      · rw [hq.1, hq.2, hst]
        rfl
      · rfl

theorem stripeRefsT_sparams (ecl : List BchExtentStripePtr) (c : BchFs)
    (s : Int) (gc : Bool) : SParamsEq c (stripeRefsT c ecl s gc) := by
  induction ecl generalizing c with
  | nil => exact SParamsEq.rfl c
  | cons e rest ih =>
    exact SParamsEq.strans _ _ _ (stripePtrT_sparams c e s gc)
      (ih (stripePtrT c e s gc))

theorem stripe_ptr_acc_neg (c t : BchFs) (e : BchExtentStripePtr) (δ : Int)
    (fl : MarkFlags) (adj : Int) (red : Nat) (gc : Bool)
    (c₁ t₁ : BchFs) (adj₁ adj₂ : Int) (red₁ red₂ : Nat)
    (hsp : SParamsEq c t)
    (h₁ : bch2_mark_stripe_ptr c e δ fl adj red gc = .ok (c₁, adj₁, red₁))
    (h₂ : bch2_mark_stripe_ptr t e (-δ) fl (-adj) red gc = .ok (t₁, adj₂, red₂)) :
    adj₂ = -adj₁ ∧ red₂ = red₁ := by
  unfold bch2_mark_stripe_ptr at h₁ h₂
  rcases hc : c.stripes gc e.idx with _ | m
  · rw [hc] at h₁
    exact CRes.noConfusion h₁
  have ht : ∃ m', t.stripes gc e.idx = some m' ∧ stripeParamsOf m' = stripeParamsOf m := by
    have := hsp gc e.idx
    rw [hc] at this
    rcases ht' : t.stripes gc e.idx with _ | m'
    · rw [ht'] at this
      exact Option.noConfusion this
    · rw [ht'] at this
      simp only [Option.map_some', Option.some.injEq] at this
      exact ⟨m', Eq.refl _, this.symm⟩
  obtain ⟨m', htm, hpm⟩ := ht
  rw [hc] at h₁
  rw [htm] at h₂
  try simp only [] at h₁ h₂
  have halive : m'.alive = m.alive := congrArg Prod.fst hpm
  have hblocks : m'.nr_blocks = m.nr_blocks := congrArg (fun q => q.2.1) hpm
  have hred : m'.nr_redundant = m.nr_redundant := congrArg (fun q => q.2.2) hpm
  cases ha : m.alive
  · rw [ha] at h₁
    simp only [Bool.not_false, if_true, ite_true] at h₁
    exact CRes.noConfusion h₁
  · rw [ha] at h₁
    rw [halive, ha] at h₂
    simp only [Bool.not_true, Bool.false_eq_true, if_false, ite_false] at h₁ h₂
    rw [hblocks, hred] at h₂
    have hpabs : ((-δ).natAbs * m.nr_redundant + (m.nr_blocks - m.nr_redundant - 1)) /
        (m.nr_blocks - m.nr_redundant) =
        (δ.natAbs * m.nr_redundant + (m.nr_blocks - m.nr_redundant - 1)) /
        (m.nr_blocks - m.nr_redundant) := by
      rw [Int.natAbs_neg]
    rw [hpabs] at h₂
    have key₁ : adj₁ = adj + (if δ < 0
        then -(((δ.natAbs * m.nr_redundant + (m.nr_blocks - m.nr_redundant - 1)) /
          (m.nr_blocks - m.nr_redundant) : Nat) : Int)
        else (((δ.natAbs * m.nr_redundant + (m.nr_blocks - m.nr_redundant - 1)) /
          (m.nr_blocks - m.nr_redundant) : Nat) : Int)) ∧ red₁ = max red (m.nr_redundant + 1) := by
      split at h₁
      · simp only [CRes.ok.injEq, Prod.mk.injEq] at h₁
        exact ⟨h₁.2.1.symm, h₁.2.2.symm⟩
      · split at h₁
        · exact CRes.noConfusion h₁
        · simp only [CRes.ok.injEq, Prod.mk.injEq] at h₁
          exact ⟨h₁.2.1.symm, h₁.2.2.symm⟩
    have key₂ : adj₂ = -adj + (if -δ < 0
        then -(((δ.natAbs * m.nr_redundant + (m.nr_blocks - m.nr_redundant - 1)) /
          (m.nr_blocks - m.nr_redundant) : Nat) : Int)
        else (((δ.natAbs * m.nr_redundant + (m.nr_blocks - m.nr_redundant - 1)) /
          (m.nr_blocks - m.nr_redundant) : Nat) : Int)) ∧ red₂ = max red (m.nr_redundant + 1) := by
      split at h₂
      · simp only [CRes.ok.injEq, Prod.mk.injEq] at h₂
        exact ⟨h₂.2.1.symm, h₂.2.2.symm⟩
      · split at h₂
        · exact CRes.noConfusion h₂
        · simp only [CRes.ok.injEq, Prod.mk.injEq] at h₂
          exact ⟨h₂.2.1.symm, h₂.2.2.symm⟩
    obtain ⟨ha₁, hr₁⟩ := key₁
    obtain ⟨ha₂, hr₂⟩ := key₂
    constructor
    · rw [ha₁, ha₂]
      by_cases hδ : δ = 0
      · subst hδ
        have hz : ((0 : Int).natAbs * m.nr_redundant + (m.nr_blocks - m.nr_redundant - 1)) /
            (m.nr_blocks - m.nr_redundant) = 0 := by
          have h0 : ((0 : Int).natAbs) = 0 := rfl
          rw [h0]
          by_cases hnd : m.nr_blocks - m.nr_redundant = 0
          · rw [hnd]
            exact Nat.div_zero _
          · exact Nat.div_eq_of_lt (by omega)
        rw [hz]
        simp
      · split_ifs <;> push_cast <;> omega
    · rw [hr₁, hr₂]



theorem sparams_of_stripes_eq (c c' : BchFs) (h : c'.stripes = c.stripes) :
    SParamsEq c c' := by
  intro g i
  rw [h]

theorem refs_acc_neg (ec : List BchExtentStripePtr) (c t : BchFs) (δ : Int)
    (fl : MarkFlags) (adj : Int) (red : Nat) (gc : Bool)
    (c₁ t₁ : BchFs) (adj₁ adj₂ : Int) (red₁ red₂ : Nat)
    (hsp : SParamsEq c t)
    (h₁ : markStripeRefs c ec δ fl adj red gc = .ok (c₁, adj₁, red₁))
    (h₂ : markStripeRefs t ec (-δ) fl (-adj) red gc = .ok (t₁, adj₂, red₂)) :
    adj₂ = -adj₁ ∧ red₂ = red₁ := by
  induction ec generalizing c t adj red with
  | nil =>
    simp only [markStripeRefs, CRes.ok.injEq, Prod.mk.injEq] at h₁ h₂
    exact ⟨h₂.2.1.symm.trans (congrArg Neg.neg h₁.2.1), h₂.2.2.symm.trans h₁.2.2⟩
  | cons e rest ih =>
    rcases hs₁ : bch2_mark_stripe_ptr c e δ fl adj red gc with s | s | _ <;>
      simp only [markStripeRefs, hs₁] at h₁
    case err => exact CRes.noConfusion h₁
    case trap => exact CRes.noConfusion h₁
    obtain ⟨c', adj', red'⟩ := s
    rcases hs₂ : bch2_mark_stripe_ptr t e (-δ) fl (-adj) red gc with s | s | _ <;>
      simp only [markStripeRefs, hs₂] at h₂
    case err => exact CRes.noConfusion h₂
    case trap => exact CRes.noConfusion h₂
    obtain ⟨t', adj'', red''⟩ := s
    obtain ⟨hadj, hred⟩ := stripe_ptr_acc_neg c t e δ fl adj red gc c' t'
      adj' adj'' red' red'' hsp hs₁ hs₂
    have hsp' : SParamsEq c' t' := by
      have e₁ := stripePtr_agree c e δ fl adj red gc c' adj' red' hs₁
      have e₂ := stripePtr_agree t e (-δ) fl (-adj) red gc t' adj'' red'' hs₂
      rw [← e₁, ← e₂]
      exact SParamsEq.strans _ _ _
        (SParamsEq.strans _ _ _
          ((stripePtrT_sparams c e δ gc).symm _ _) hsp)
        (stripePtrT_sparams t e (-δ) gc)
    rw [hadj, hred] at h₂
    exact ih c' t' adj' red' hsp' h₁ h₂

theorem fold_acc_neg (L : List ExtentPtrDecoded) (c t : BchFs) (S : Int)
    (dt : BchDataType) (u w : BchFsUsage) (j₁ j₂ : Nat) (fl : MarkFlags)
    (gc : Bool) (a b : ExtentAcc) (c₁ t₁ : BchFs) (u₁ w₁ : BchFsUsage)
    (acc₁ acc₂ : ExtentAcc)
    (hsp : SParamsEq c t) (hab : AccNegRel a b)
    (hcomp : ∀ p ∈ L, p.crc.compression_type = 0)
    (h₁ : markExtentPtrs c L S dt u j₁ fl gc a = .ok (c₁, u₁, acc₁))
    (h₂ : markExtentPtrs t L (-S) dt w j₂ fl gc b = .ok (t₁, w₁, acc₂)) :
    AccNegRel acc₁ acc₂ := by
  induction L generalizing c t u w a b with
  | nil =>
    simp only [markExtentPtrs, CRes.ok.injEq, Prod.mk.injEq] at h₁ h₂
    rw [← h₁.2.2, ← h₂.2.2]
    exact hab
  | cons p rest ih =>
    simp only [markExtentPtrs] at h₁ h₂
    rcases hdel₁ : (if dt = BchDataType.btree then some S
        else ptr_disk_sectors_delta p S) with _ | δp <;>
      simp only [hdel₁] at h₁
    · exact CRes.noConfusion h₁
    rcases hdel₂ : (if dt = BchDataType.btree then some (-S)
        else ptr_disk_sectors_delta p (-S)) with _ | δm <;>
      simp only [hdel₂] at h₂
    · exact CRes.noConfusion h₂
    have hneg : δm = -δp :=
      deltaOf_neg p dt S (hcomp p (List.mem_cons_self p rest)) δp δm
        (by unfold deltaOf; exact hdel₁) (by unfold deltaOf; exact hdel₂)
    subst hneg
    rcases hmp₁ : bch2_mark_pointer c p δp dt u j₁ fl gc with _ | s <;>
      simp only [hmp₁] at h₁
    · exact CRes.noConfusion h₁
    obtain ⟨c', u'⟩ := s
    rcases hmp₂ : bch2_mark_pointer t p (-δp) dt w j₂ fl gc with _ | s <;>
      simp only [hmp₂] at h₂
    · exact CRes.noConfusion h₂
    obtain ⟨t', w'⟩ := s
    have hsp' : SParamsEq c' t' := by
      have e₁ := markPointer_agree c p δp dt u j₁ fl gc c' u' hmp₁
      have e₂ := markPointer_agree t p (-δp) dt w j₂ fl gc t' w' hmp₂
      have s₁ : c'.stripes = c.stripes := by
        rw [← congrArg (fun z => z.1.stripes) e₁]
        exact markPointerT_stripes c p δp dt u j₁ gc
      have s₂ : t'.stripes = t.stripes := by
        rw [← congrArg (fun z => z.1.stripes) e₂]
        exact markPointerT_stripes t p (-δp) dt w j₂ gc
      exact SParamsEq.strans _ _ _
        (SParamsEq.strans _ _ _
          ((sparams_of_stripes_eq c c' s₁).symm _ _) hsp)
        (sparams_of_stripes_eq t t' s₂)
    have hcomp' : ∀ q ∈ rest, q.crc.compression_type = 0 :=
      fun q hq => hcomp q (List.mem_cons_of_mem p hq)
    obtain ⟨hc1, hd1, he1, hr1, hee1⟩ := hab
    cases hc : p.ptr.cached
    case false =>
      rw [hc] at h₁ h₂
      simp only [Bool.not_false, if_true, ite_true, Bool.false_eq_true,
        if_false, ite_false] at h₁ h₂
      rcases hsr₁ : markStripeRefs c' p.ec δp fl δp a.ec_redundancy gc
          with s | s | _ <;> simp only [hsr₁] at h₁
      case err => exact CRes.noConfusion h₁
      case trap => exact CRes.noConfusion h₁
      obtain ⟨c'', adj₁, red₁'⟩ := s
      rcases hsr₂ : markStripeRefs t' p.ec (-δp) fl (-δp) b.ec_redundancy gc
          with s | s | _ <;> simp only [hsr₂] at h₂
      case err => exact CRes.noConfusion h₂
      case trap => exact CRes.noConfusion h₂
      obtain ⟨t'', adj₂, red₂'⟩ := s
      rw [hee1] at hsr₂
      obtain ⟨hadj, hred⟩ := refs_acc_neg p.ec c' t' δp fl δp a.ec_redundancy gc
        c'' t'' adj₁ adj₂ red₁' red₂' hsp' hsr₁ hsr₂
      have hsp'' : SParamsEq c'' t'' := by
        have e₁ := stripeRefs_agree p.ec c' δp fl δp a.ec_redundancy gc c'' adj₁ red₁' hsr₁
        have e₂ := stripeRefs_agree p.ec t' (-δp) fl (-δp) a.ec_redundancy gc t'' adj₂ red₂' hsr₂
        rw [← e₁, ← e₂]
        exact SParamsEq.strans _ _ _
          (SParamsEq.strans _ _ _
            ((stripeRefsT_sparams p.ec c' δp gc).symm _ _) hsp')
          (stripeRefsT_sparams p.ec t' (-δp) gc)
      refine ih c'' t'' u' w' _ _ hsp'' ?_ hcomp' h₁ h₂
      by_cases hie : p.ec.isEmpty
      all_goals simp only [hie, Bool.false_eq_true, eq_self_iff_true,
        if_true, if_false, ite_true, ite_false]
      all_goals refine ⟨?_, ?_, ?_, ?_, ?_⟩
      all_goals dsimp only
      · exact hc1
      · rw [hd1, hadj]
        ring
      · exact he1
      · rw [hr1]
      · exact hred
      · exact hc1
      · exact hd1
      · rw [he1, hadj]
        ring
      · rw [hr1]
      · exact hred
    case true =>
      rw [hc] at h₁ h₂
      simp only [Bool.not_true, Bool.false_eq_true, if_false, ite_false,
        if_true, ite_true] at h₁ h₂
      refine ih c' t' u' w' _ _ hsp' ?_ hcomp' h₁ h₂
      refine ⟨?_, ?_, ?_, ?_, ?_⟩
      all_goals dsimp only
      · rw [hc1]
        ring
      · exact hd1
      · exact he1
      · exact hr1
      · exact hee1


theorem fsu_add_sub_self (u : BchFsUsage) (a : BchFsUsage) :
    u.add (a.sub a) = u := by
  unfold BchFsUsage.add BchFsUsage.sub FsUsageSummarized.add FsUsageSummarized.sub
  unfold ReplicasUsage.add ReplicasUsage.sub
  ext <;> simp

theorem dvu_add_sub_self (u : BchDevUsage) (a : BchDevUsage) :
    u.add (a.sub a) = u := by
  unfold BchDevUsage.add BchDevUsage.sub
  ext <;> simp

theorem setBAU_bucket_read (c : BchFs) (dev : Nat) (gc : Bool) (b : Nat)
    (m : BucketMark) (du : BchDevUsage) (d : Nat) (g : Bool) (i : Nat) :
    ((c.setBucketAndUsage dev gc b m du).devs d).buckets g i =
      if d = dev ∧ g = gc ∧ i = b then m else (c.devs d).buckets g i := by
  rw [setBAU_devs_apply]
  by_cases hd : d = dev
  · subst hd
    simp only [if_pos rfl, true_and]
    rfl
  · simp only [if_neg hd, hd, false_and, ite_false, if_false]

theorem setBAU_usage_read (c : BchFs) (dev : Nat) (gc : Bool) (b : Nat)
    (m : BucketMark) (du : BchDevUsage) (d : Nat) (g : Bool) :
    ((c.setBucketAndUsage dev gc b m du).devs d).usage g =
      if d = dev ∧ g = gc then du else (c.devs d).usage g := by
  rw [setBAU_devs_apply]
  by_cases hd : d = dev
  · subst hd
    simp only [if_pos rfl, true_and]
    rfl
  · simp only [if_neg hd, hd, false_and, ite_false, if_false]

theorem setBAU_bucket_size (c : BchFs) (dev : Nat) (gc : Bool) (b : Nat)
    (m : BucketMark) (du : BchDevUsage) (d : Nat) :
    ((c.setBucketAndUsage dev gc b m du).devs d).bucket_size =
      (c.devs d).bucket_size := by
  rw [setBAU_devs_apply]
  split_ifs with hd
  · subst hd
    rfl
  · rfl

theorem fsBucketPot_size (ca ca' : BchDev) (m : BucketMark)
    (h : ca'.bucket_size = ca.bucket_size) :
    fsBucketPot ca' m = fsBucketPot ca m := by
  unfold fsBucketPot
  rw [h]

theorem devBucketPot_size (ca ca' : BchDev) (m : BucketMark)
    (h : ca'.bucket_size = ca.bucket_size) :
    devBucketPot ca' m = devBucketPot ca m := by
  unfold devBucketPot is_fragmented_bucket
  rw [h]

theorem markPointerT_normal (c : BchFs) (p : ExtentPtrDecoded) (a : Int)
    (dt : BchDataType) (u : BchFsUsage) (jseq : Nat) (gc : Bool) :
    markPointerT c p a dt u jseq gc =
      (c.setBucketAndUsage p.ptr.dev gc p.ptr.bucket
        (newMarkT ((c.devs p.ptr.dev).buckets gc p.ptr.bucket) p.ptr.gen
          p.ptr.cached a dt jseq)
        (((c.devs p.ptr.dev).usage gc).add
          ((devBucketPot (c.devs p.ptr.dev)
              (newMarkT ((c.devs p.ptr.dev).buckets gc p.ptr.bucket) p.ptr.gen
                p.ptr.cached a dt jseq)).sub
            (devBucketPot (c.devs p.ptr.dev)
              ((c.devs p.ptr.dev).buckets gc p.ptr.bucket)))),
       u.add
        ((fsBucketPot (c.devs p.ptr.dev)
            (newMarkT ((c.devs p.ptr.dev).buckets gc p.ptr.bucket) p.ptr.gen
              p.ptr.cached a dt jseq)).sub
          (fsBucketPot (c.devs p.ptr.dev)
            ((c.devs p.ptr.dev).buckets gc p.ptr.bucket)))) := by
  unfold markPointerT newMarkT
  cases hg : gen_after ((c.devs p.ptr.dev).buckets gc p.ptr.bucket).gen p.ptr.gen
  · simp only [hg, Bool.false_eq_true, if_false, ite_false]
    rw [dev_usage_update_potential]
  · simp only [hg, if_true, ite_true]
    rw [setBAU_self c p.ptr.dev gc p.ptr.bucket _ _ rfl
      (by rw [dvu_add_sub_self]), fsu_add_sub_self]

theorem newMarkT_stale (m : BucketMark) (pg : Nat) (cached : Bool) (a : Int)
    (dt : BchDataType) (j : Nat) (hg : gen_after m.gen pg = true) :
    newMarkT m pg cached a dt j = m := by
  unfold newMarkT
  simp only [hg, if_true, ite_true]

theorem newMarkT_gen (m : BucketMark) (pg : Nat) (cached : Bool) (a : Int)
    (dt : BchDataType) (j : Nat) : (newMarkT m pg cached a dt j).gen = m.gen := by
  unfold newMarkT
  dsimp only
  split_ifs <;> rfl

theorem newMarkT_eq (m : BucketMark) (pg : Nat) (cached : Bool) (a : Int)
    (dt : BchDataType) (hg : gen_after m.gen pg = false) :
    newMarkT m pg cached a dt 0 =
      { gen := m.gen,
        data_type := if (if !cached then add32 m.dirty_sectors a else m.dirty_sectors) = 0 ∧
            (if cached then add32 m.cached_sectors a else m.cached_sectors) = 0
          then BchDataType.none else dt,
        owned_by_allocator := m.owned_by_allocator,
        dirty_sectors := if !cached then add32 m.dirty_sectors a else m.dirty_sectors,
        cached_sectors := if cached then add32 m.cached_sectors a else m.cached_sectors,
        stripe := m.stripe,
        journal_seq_valid := m.journal_seq_valid,
        journal_seq := m.journal_seq } := by
  unfold newMarkT
  simp only [hg, Bool.false_eq_true, if_false, ite_false]
  simp only [show ¬((0 : Nat) ≠ 0) from fun hq => hq rfl, if_false, ite_false]
  split_ifs <;> rfl

theorem add32_cancel (a : Nat) (δ : Int) (h : a < 2 ^ 32) :
    add32 (add32 a δ) (-δ) = a := by
  unfold add32
  omega

theorem newMarkT_inv (m : BucketMark) (pg : Nat) (cached : Bool) (a : Int)
    (dt : BchDataType) (h : PtrOk m dt) :
    newMarkT (newMarkT m pg cached a dt 0) pg cached (-a) dt 0 = m := by
  obtain ⟨h1, h2, h3, h4⟩ := h
  cases hg : gen_after m.gen pg
  case true =>
    rw [newMarkT_stale m pg cached a dt 0 hg, newMarkT_stale m pg cached (-a) dt 0 hg]
  case false =>
    have hg' : gen_after (newMarkT m pg cached a dt 0).gen pg = false := by
      rw [newMarkT_gen]
      exact hg
    rw [newMarkT_eq _ pg cached (-a) dt hg']
    rw [newMarkT_eq m pg cached a dt hg]
    cases hc : cached
    all_goals simp only [Bool.not_false, Bool.not_true, Bool.false_eq_true,
      if_true, if_false, ite_true, ite_false]
    all_goals rw [add32_cancel _ _ (by omega)]
    all_goals refine BucketMark.ext rfl ?_ rfl rfl rfl rfl rfl rfl
    all_goals dsimp only
    all_goals split_ifs with hz
    all_goals first
      | exact (h3 hz).symm
      | exact (h4 hz).symm

theorem markPointerT_inv (c : BchFs) (p : ExtentPtrDecoded) (a : Int)
    (dt : BchDataType) (u : BchFsUsage) (gc : Bool)
    (h : PtrOk ((c.devs p.ptr.dev).buckets gc p.ptr.bucket) dt) :
    markPointerT (markPointerT c p a dt u 0 gc).1 p (-a) dt
      (markPointerT c p a dt u 0 gc).2 0 gc = (c, u) := by
  rw [markPointerT_normal c p a dt u 0 gc]
  simp only []
  rw [markPointerT_normal]
  rw [setBAU_bucket_read, setBAU_usage_read]
  simp only [and_self, eq_self_iff_true, if_true, ite_true]
  rw [fsBucketPot_size (c.devs p.ptr.dev) _ _ (setBAU_bucket_size c p.ptr.dev gc p.ptr.bucket _ _ p.ptr.dev)]
  rw [devBucketPot_size (c.devs p.ptr.dev) _ _ (setBAU_bucket_size c p.ptr.dev gc p.ptr.bucket _ _ p.ptr.dev)]
  try rw [fsBucketPot_size (c.devs p.ptr.dev) _ _ (setBAU_bucket_size c p.ptr.dev gc p.ptr.bucket _ _ p.ptr.dev)]
  try rw [devBucketPot_size (c.devs p.ptr.dev) _ _ (setBAU_bucket_size c p.ptr.dev gc p.ptr.bucket _ _ p.ptr.dev)]
  rw [newMarkT_inv _ p.ptr.gen p.ptr.cached a dt h]
  rw [setBAU_absorb]
  rw [dvu_add_sub_cancel, fsu_add_sub_cancel]
  rw [setBAU_self c p.ptr.dev gc p.ptr.bucket _ _ rfl rfl]


theorem setStripe_read (c : BchFs) (gc : Bool) (idx : Nat) (m : Stripe)
    (g : Bool) (j : Nat) :
    (c.setStripe gc idx m).stripes g j =
      if g = gc ∧ j = idx then some m else c.stripes g j := rfl

theorem stripePtrT_none (c : BchFs) (e : BchExtentStripePtr) (δ : Int)
    (gc : Bool) (h : c.stripes gc e.idx = none) : stripePtrT c e δ gc = c := by
  unfold stripePtrT
  rw [h]

theorem stripePtrT_dead (c : BchFs) (e : BchExtentStripePtr) (δ : Int)
    (gc : Bool) (m : Stripe) (h : c.stripes gc e.idx = some m)
    (ha : m.alive = false) : stripePtrT c e δ gc = c := by
  unfold stripePtrT
  rw [h]
  simp only [ha, Bool.not_false, if_true, ite_true]

theorem stripePtrT_live (c : BchFs) (e : BchExtentStripePtr) (δ : Int)
    (gc : Bool) (m : Stripe) (h : c.stripes gc e.idx = some m)
    (ha : m.alive = true) :
    stripePtrT c e δ gc = c.setStripe gc e.idx (stripeWrite m e.block δ) := by
  unfold stripePtrT stripeWrite
  rw [h]
  simp only [ha, Bool.not_true, Bool.false_eq_true, if_false, ite_false]

theorem stripeWrite_alive (m : Stripe) (blk : Nat) (δ : Int) :
    (stripeWrite m blk δ).alive = m.alive := rfl

theorem stripeWrite_inv (m : Stripe) (blk : Nat) (δ : Int) :
    stripeWrite (stripeWrite m blk δ) blk (-δ) = m := by
  unfold stripeWrite
  dsimp only
  rw [Function.update_same]
  have n₂ : m.block_sectors blk + δ + -δ - -δ = m.block_sectors blk + δ := by ring
  rw [n₂]
  have n₁ : m.block_sectors blk + δ + -δ = m.block_sectors blk := by ring
  rw [n₁]
  have n₃ : m.block_sectors blk + δ - δ = m.block_sectors blk := by ring
  rw [n₃, Function.update_idem, Function.update_eq_self]
  refine Stripe.ext rfl rfl rfl rfl rfl ?_ rfl
  dsimp only
  ring

theorem stripeWrite_comm (m : Stripe) (eb fb : Nat) (δ ε : Int) :
    stripeWrite (stripeWrite m eb δ) fb ε =
      stripeWrite (stripeWrite m fb ε) eb δ := by
  unfold stripeWrite
  dsimp only
  by_cases hb : fb = eb
  case pos =>
    subst hb
    rw [Function.update_same, Function.update_same,
      Function.update_idem, Function.update_idem]
    have n₁ : m.block_sectors fb + δ + ε - ε = m.block_sectors fb + δ := by ring
    have n₂ : m.block_sectors fb + ε + δ - δ = m.block_sectors fb + ε := by ring
    have n₃ : m.block_sectors fb + δ - δ = m.block_sectors fb := by ring
    have n₄ : m.block_sectors fb + ε - ε = m.block_sectors fb := by ring
    have n₅ : m.block_sectors fb + ε + δ = m.block_sectors fb + δ + ε := by ring
    rw [n₁, n₂, n₃, n₄, n₅]
    refine Stripe.ext rfl rfl rfl rfl rfl ?_ rfl
    dsimp only
    ring
  case neg =>
    rw [Function.update_noteq hb, Function.update_noteq (fun hq => hb hq.symm)]
    rw [Function.update_comm (fun hq => hb hq.symm)]
    have n₃ : m.block_sectors eb + δ - δ = m.block_sectors eb := by ring
    have n₄ : m.block_sectors fb + ε - ε = m.block_sectors fb := by ring
    rw [n₃, n₄]
    refine Stripe.ext rfl rfl rfl rfl rfl ?_ rfl
    dsimp only
    ring

theorem stripePtrT_inv (c : BchFs) (e : BchExtentStripePtr) (δ : Int)
    (gc : Bool) : stripePtrT (stripePtrT c e δ gc) e (-δ) gc = c := by
  rcases hst : c.stripes gc e.idx with _ | m
  · rw [stripePtrT_none c e δ gc hst, stripePtrT_none c e (-δ) gc hst]
  · cases ha : m.alive
    · rw [stripePtrT_dead c e δ gc m hst ha, stripePtrT_dead c e (-δ) gc m hst ha]
    · rw [stripePtrT_live c e δ gc m hst ha]
      rw [stripePtrT_live _ e (-δ) gc (stripeWrite m e.block δ)
        (by rw [setStripe_read, if_pos ⟨rfl, rfl⟩]) (by rw [stripeWrite_alive]; exact ha)]
      rw [setStripe_absorb, stripeWrite_inv]
      exact setStripe_self c gc e.idx m hst

theorem stripePtrT_comm (c : BchFs) (e f : BchExtentStripePtr) (δ ε : Int)
    (gc : Bool) :
    stripePtrT (stripePtrT c e δ gc) f ε gc =
      stripePtrT (stripePtrT c f ε gc) e δ gc := by
  by_cases hidx : f.idx = e.idx
  case pos =>
    rcases hst : c.stripes gc e.idx with _ | m
    · have hst₂ : c.stripes gc f.idx = none := by rw [hidx]; exact hst
      rw [stripePtrT_none c e δ gc hst, stripePtrT_none c f ε gc hst₂,
        stripePtrT_none c e δ gc hst]
    · have hst₂ : c.stripes gc f.idx = some m := by rw [hidx]; exact hst
      cases ha : m.alive
      · rw [stripePtrT_dead c e δ gc m hst ha, stripePtrT_dead c f ε gc m hst₂ ha,
          stripePtrT_dead c e δ gc m hst ha]
      · rw [stripePtrT_live c e δ gc m hst ha]
        rw [stripePtrT_live c f ε gc m hst₂ ha]
        rw [stripePtrT_live _ f ε gc (stripeWrite m e.block δ)
          (by rw [setStripe_read, if_pos ⟨rfl, hidx⟩])
          (by rw [stripeWrite_alive]; exact ha)]
        rw [stripePtrT_live _ e δ gc (stripeWrite m f.block ε)
          (by rw [setStripe_read, if_pos ⟨rfl, hidx.symm⟩])
          (by rw [stripeWrite_alive]; exact ha)]
        rw [hidx, setStripe_absorb, setStripe_absorb, stripeWrite_comm]
  case neg =>
    have hne : ¬(gc = gc ∧ f.idx = e.idx) := fun hq => hidx hq.2
    have hne' : ¬(gc = gc ∧ e.idx = f.idx) := fun hq => hidx hq.2.symm
    rcases hst₁ : c.stripes gc e.idx with _ | m₁
    · rw [stripePtrT_none c e δ gc hst₁]
      rcases hst₂ : c.stripes gc f.idx with _ | m₂
      · rw [stripePtrT_none c f ε gc hst₂, stripePtrT_none c e δ gc hst₁]
      · cases ha₂ : m₂.alive
        · rw [stripePtrT_dead c f ε gc m₂ hst₂ ha₂, stripePtrT_none c e δ gc hst₁]
        · rw [stripePtrT_live c f ε gc m₂ hst₂ ha₂,
            stripePtrT_none _ e δ gc (by rw [setStripe_read, if_neg hne']; exact hst₁)]
    · cases ha₁ : m₁.alive
      · rw [stripePtrT_dead c e δ gc m₁ hst₁ ha₁]
        rcases hst₂ : c.stripes gc f.idx with _ | m₂
        · rw [stripePtrT_none c f ε gc hst₂, stripePtrT_dead c e δ gc m₁ hst₁ ha₁]
        · cases ha₂ : m₂.alive
          · rw [stripePtrT_dead c f ε gc m₂ hst₂ ha₂, stripePtrT_dead c e δ gc m₁ hst₁ ha₁]
          · rw [stripePtrT_live c f ε gc m₂ hst₂ ha₂,
              stripePtrT_dead _ e δ gc m₁ (by rw [setStripe_read, if_neg hne']; exact hst₁) ha₁]
      · rw [stripePtrT_live c e δ gc m₁ hst₁ ha₁]
        rcases hst₂ : c.stripes gc f.idx with _ | m₂
        · rw [stripePtrT_none _ f ε gc (by rw [setStripe_read, if_neg hne]; exact hst₂),
            stripePtrT_none c f ε gc hst₂, stripePtrT_live c e δ gc m₁ hst₁ ha₁]
        · cases ha₂ : m₂.alive
          · rw [stripePtrT_dead _ f ε gc m₂ (by rw [setStripe_read, if_neg hne]; exact hst₂) ha₂,
              stripePtrT_dead c f ε gc m₂ hst₂ ha₂, stripePtrT_live c e δ gc m₁ hst₁ ha₁]
          · rw [stripePtrT_live _ f ε gc m₂ (by rw [setStripe_read, if_neg hne]; exact hst₂) ha₂,
              stripePtrT_live c f ε gc m₂ hst₂ ha₂,
              stripePtrT_live _ e δ gc m₁ (by rw [setStripe_read, if_neg hne']; exact hst₁) ha₁,
              setStripe_comm c gc e.idx f.idx _ _ (fun hq => hidx hq.symm)]

theorem stripeRefsT_step_comm (L : List BchExtentStripePtr) (c : BchFs)
    (s ε : Int) (e : BchExtentStripePtr) (gc : Bool) :
    stripePtrT (stripeRefsT c L s gc) e ε gc =
      stripeRefsT (stripePtrT c e ε gc) L s gc := by
  induction L generalizing c with
  | nil => rfl
  | cons f rest ih =>
    simp only [stripeRefsT]
    rw [ih (stripePtrT c f s gc), stripePtrT_comm]

theorem stripeRefsT_inv (L : List BchExtentStripePtr) (c : BchFs) (δ : Int)
    (gc : Bool) : stripeRefsT (stripeRefsT c L δ gc) L (-δ) gc = c := by
  induction L generalizing c with
  | nil => rfl
  | cons e rest ih =>
    simp only [stripeRefsT]
    rw [stripeRefsT_step_comm rest (stripePtrT c e δ gc) δ (-δ) e gc]
    rw [stripePtrT_inv]
    exact ih c



theorem add32_swap (x : Nat) (a b : Int) :
    add32 (add32 x a) b = add32 (add32 x b) a := by
  unfold add32
  omega

theorem newMarkT_comm (m : BucketMark) (pg qg : Nat) (pc qc : Bool)
    (a b : Int) (dt : BchDataType) :
    newMarkT (newMarkT m pg pc a dt 0) qg qc b dt 0 =
      newMarkT (newMarkT m qg qc b dt 0) pg pc a dt 0 := by
  cases hgp : gen_after m.gen pg <;> cases hgq : gen_after m.gen qg
  case false.false =>
    have hgp' : gen_after (newMarkT m qg qc b dt 0).gen pg = false := by
      rw [newMarkT_gen]
      exact hgp
    have hgq' : gen_after (newMarkT m pg pc a dt 0).gen qg = false := by
      rw [newMarkT_gen]
      exact hgq
    rw [newMarkT_eq _ qg qc b dt hgq', newMarkT_eq _ pg pc a dt hgp']
    rw [newMarkT_eq m pg pc a dt hgp, newMarkT_eq m qg qc b dt hgq]
    cases hpc : pc <;> cases hqc : qc
    all_goals simp only [Bool.not_false, Bool.not_true, Bool.false_eq_true,
      if_true, if_false, ite_true, ite_false]
    all_goals first
      | rfl
      | rw [add32_swap m.dirty_sectors a b]
      | rw [add32_swap m.cached_sectors a b]
  case false.true =>
    rw [newMarkT_stale m qg qc b dt 0 hgq]
    rw [newMarkT_stale _ qg qc b dt 0 (by rw [newMarkT_gen]; exact hgq)]
  case true.false =>
    rw [newMarkT_stale m pg pc a dt 0 hgp]
    rw [newMarkT_stale _ pg pc a dt 0 (by rw [newMarkT_gen]; exact hgp)]
  case true.true =>
    rw [newMarkT_stale m pg pc a dt 0 hgp, newMarkT_stale m qg qc b dt 0 hgq,
      newMarkT_stale m pg pc a dt 0 hgp]

theorem setBAU_swap (c : BchFs) (dev : Nat) (gc : Bool) (b₁ b₂ : Nat)
    (m₁ m₂ : BucketMark) (duA duB duC duD : BchDevUsage)
    (hb : b₁ ≠ b₂) (hu : duB = duD) :
    (c.setBucketAndUsage dev gc b₁ m₁ duA).setBucketAndUsage dev gc b₂ m₂ duB =
      (c.setBucketAndUsage dev gc b₂ m₂ duC).setBucketAndUsage dev gc b₁ m₁ duD := by
  unfold BchFs.setBucketAndUsage
  simp only [Function.update_same, Function.update_idem]
  refine congrArg (fun ca => { c with devs := Function.update c.devs dev ca }) ?_
  refine BchDev.ext rfl ?_ ?_
  · funext g i
    dsimp only
    split_ifs with h1 h2 h2 <;> try rfl
    exact absurd (h2.2.symm.trans h1.2) hb
  · funext g
    dsimp only
    split_ifs with h1
    · exact hu
    · rfl

theorem setBAU_comm_dev (c : BchFs) (dev₁ dev₂ : Nat) (gc₁ gc₂ : Bool)
    (b₁ b₂ : Nat) (m₁ m₂ : BucketMark) (du₁ du₂ : BchDevUsage)
    (h : dev₁ ≠ dev₂) :
    (c.setBucketAndUsage dev₁ gc₁ b₁ m₁ du₁).setBucketAndUsage dev₂ gc₂ b₂ m₂ du₂ =
      (c.setBucketAndUsage dev₂ gc₂ b₂ m₂ du₂).setBucketAndUsage dev₁ gc₁ b₁ m₁ du₁ := by
  unfold BchFs.setBucketAndUsage
  dsimp only
  rw [Function.update_noteq (fun hq => h hq.symm), Function.update_noteq h]
  refine congrArg (fun f => { c with devs := f }) ?_
  exact Function.update_comm h _ _ _

theorem fsBucketPot_setBAU (c : BchFs) (dev : Nat) (gc : Bool) (b : Nat)
    (m : BucketMark) (du : BchDevUsage) (d : Nat) (x : BucketMark) :
    fsBucketPot ((c.setBucketAndUsage dev gc b m du).devs d) x =
      fsBucketPot (c.devs d) x :=
  fsBucketPot_size (c.devs d) _ x (setBAU_bucket_size c dev gc b m du d)

theorem devBucketPot_setBAU (c : BchFs) (dev : Nat) (gc : Bool) (b : Nat)
    (m : BucketMark) (du : BchDevUsage) (d : Nat) (x : BucketMark) :
    devBucketPot ((c.setBucketAndUsage dev gc b m du).devs d) x =
      devBucketPot (c.devs d) x :=
  devBucketPot_size (c.devs d) _ x (setBAU_bucket_size c dev gc b m du d)



theorem markPointerT_comm (c : BchFs) (p q : ExtentPtrDecoded) (a b : Int)
    (dt : BchDataType) (u : BchFsUsage) (gc : Bool) :
    markPointerT (markPointerT c p a dt u 0 gc).1 q b dt
      (markPointerT c p a dt u 0 gc).2 0 gc =
    markPointerT (markPointerT c q b dt u 0 gc).1 p a dt
      (markPointerT c q b dt u 0 gc).2 0 gc := by
  rw [markPointerT_normal c p a dt u 0 gc, markPointerT_normal c q b dt u 0 gc]
  simp only []
  rw [markPointerT_normal, markPointerT_normal]
  by_cases hdev : q.ptr.dev = p.ptr.dev
  case pos =>
    by_cases hbkt : q.ptr.bucket = p.ptr.bucket
    case pos =>
      simp only [setBAU_bucket_read, setBAU_usage_read, fsBucketPot_setBAU,
        devBucketPot_setBAU, hdev, hbkt, eq_self_iff_true, and_self, if_true,
        ite_true, true_and]
      rw [setBAU_absorb, setBAU_absorb]
      rw [dvu_add_sub_chain, dvu_add_sub_chain, fsu_add_sub_chain,
        fsu_add_sub_chain]
      rw [newMarkT_comm]
    case neg =>
      have hbkt' : ¬p.ptr.bucket = q.ptr.bucket := fun hq => hbkt hq.symm
      simp only [setBAU_bucket_read, setBAU_usage_read, fsBucketPot_setBAU,
        devBucketPot_setBAU, hdev, hbkt, hbkt', eq_self_iff_true, and_self,
        if_true, ite_true, true_and, and_false, false_and, if_false, ite_false]
      refine Prod.ext ?_ ?_
      · exact setBAU_swap c p.ptr.dev gc p.ptr.bucket q.ptr.bucket _ _ _ _ _ _
          hbkt' (dvu_add_comm _ _ _)
      · exact fsu_add_comm u _ _
  case neg =>
    have hdev' : ¬p.ptr.dev = q.ptr.dev := fun hq => hdev hq.symm
    simp only [setBAU_bucket_read, setBAU_usage_read, fsBucketPot_setBAU,
      devBucketPot_setBAU, hdev, hdev', eq_self_iff_true, and_self, if_true,
      ite_true, true_and, and_false, false_and, if_false, ite_false]
    refine Prod.ext ?_ ?_
    · exact setBAU_comm_dev c p.ptr.dev q.ptr.dev gc gc p.ptr.bucket
        q.ptr.bucket _ _ _ _ hdev'
    · exact fsu_add_comm u _ _



theorem stripePtrT_devs (c : BchFs) (e : BchExtentStripePtr) (ε : Int)
    (gc : Bool) : (stripePtrT c e ε gc).devs = c.devs := by
  rcases hst : c.stripes gc e.idx with _ | m
  · rw [stripePtrT_none c e ε gc hst]
  · cases ha : m.alive
    · rw [stripePtrT_dead c e ε gc m hst ha]
    · rw [stripePtrT_live c e ε gc m hst ha]
      rfl

theorem stripeRefsT_devs (L : List BchExtentStripePtr) (c : BchFs) (ε : Int)
    (gc : Bool) : (stripeRefsT c L ε gc).devs = c.devs := by
  induction L generalizing c with
  | nil => rfl
  | cons e rest ih =>
    simp only [stripeRefsT]
    rw [ih, stripePtrT_devs]

theorem stripeRefsT_stripes_eq (L : List BchExtentStripePtr) (c c' : BchFs)
    (ε : Int) (gc : Bool) (hd : c'.devs = c.devs) (hs : c'.stripes = c.stripes) :
    (stripeRefsT c' L ε gc).stripes = (stripeRefsT c L ε gc).stripes := by
  induction L generalizing c c' with
  | nil => exact hs
  | cons e rest ih =>
    simp only [stripeRefsT]
    refine ih (stripePtrT c e ε gc) (stripePtrT c' e ε gc) ?_ ?_
    · rw [stripePtrT_devs, stripePtrT_devs, hd]
    · rcases hst : c.stripes gc e.idx with _ | m
      · rw [stripePtrT_none c e ε gc hst, stripePtrT_none c' e ε gc (by rw [hs]; exact hst), hs]
      · cases ha : m.alive
        · rw [stripePtrT_dead c e ε gc m hst ha,
            stripePtrT_dead c' e ε gc m (by rw [hs]; exact hst) ha, hs]
        · rw [stripePtrT_live c e ε gc m hst ha,
            stripePtrT_live c' e ε gc m (by rw [hs]; exact hst) ha]
          unfold BchFs.setStripe
          dsimp only
          rw [hs]

theorem markPointerT_stripePtrT_comm (c : BchFs) (p : ExtentPtrDecoded)
    (a : Int) (dt : BchDataType) (u : BchFsUsage) (gc : Bool)
    (e : BchExtentStripePtr) (ε : Int) :
    markPointerT (stripePtrT c e ε gc) p a dt u 0 gc =
      (stripePtrT (markPointerT c p a dt u 0 gc).1 e ε gc,
       (markPointerT c p a dt u 0 gc).2) := by
  rcases hst : c.stripes gc e.idx with _ | m
  · rw [stripePtrT_none c e ε gc hst,
      stripePtrT_none _ e ε gc (by rw [markPointerT_stripes]; exact hst)]
  · cases ha : m.alive
    · rw [stripePtrT_dead c e ε gc m hst ha,
        stripePtrT_dead _ e ε gc m (by rw [markPointerT_stripes]; exact hst) ha]
    · rw [stripePtrT_live c e ε gc m hst ha,
        stripePtrT_live _ e ε gc m (by rw [markPointerT_stripes]; exact hst) ha]
      rw [markPointerT_normal, markPointerT_normal c p a dt u 0 gc]
      simp only [setStripe_devs]
      rw [setBAU_setStripe_comm]

theorem markPointerT_stripeRefsT_comm (L : List BchExtentStripePtr)
    (c : BchFs) (ε : Int) (p : ExtentPtrDecoded) (a : Int) (dt : BchDataType)
    (u : BchFsUsage) (gc : Bool) :
    markPointerT (stripeRefsT c L ε gc) p a dt u 0 gc =
      (stripeRefsT (markPointerT c p a dt u 0 gc).1 L ε gc,
       (markPointerT c p a dt u 0 gc).2) := by
  induction L generalizing c u with
  | nil => rfl
  | cons e rest ih =>
    simp only [stripeRefsT]
    rw [ih (stripePtrT c e ε gc) u]
    rw [markPointerT_stripePtrT_comm]

theorem stripeRefsT_refsT_comm (L₁ L₂ : List BchExtentStripePtr) (c : BchFs)
    (a b : Int) (gc : Bool) :
    stripeRefsT (stripeRefsT c L₁ a gc) L₂ b gc =
      stripeRefsT (stripeRefsT c L₂ b gc) L₁ a gc := by
  induction L₁ generalizing c with
  | nil => rfl
  | cons e rest ih =>
    simp only [stripeRefsT]
    rw [ih (stripePtrT c e a gc), ← stripeRefsT_step_comm L₂ c b a e gc]

theorem stepFullT_comm (p q : ExtentPtrDecoded) (δp δq : Int)
    (dt : BchDataType) (gc : Bool) (s : BchFs × BchFsUsage) :
    stepFullT q δq dt 0 gc (stepFullT p δp dt 0 gc s) =
      stepFullT p δp dt 0 gc (stepFullT q δq dt 0 gc s) := by
  unfold stepFullT
  cases hpc : p.ptr.cached <;> cases hqc : q.ptr.cached <;>
    simp only [hpc, hqc, Bool.not_false, Bool.not_true, Bool.false_eq_true,
      if_true, if_false, ite_true, ite_false]
  case false.false =>
    rw [markPointerT_stripeRefsT_comm]
    try simp only []
    rw [markPointerT_comm]
    try rw [markPointerT_stripeRefsT_comm]
    try simp only []
    try rw [stripeRefsT_refsT_comm]
  case false.true =>
    rw [markPointerT_stripeRefsT_comm]
    try simp only []
    try rw [markPointerT_comm]
  case true.false =>
    rw [markPointerT_comm]
    try rw [markPointerT_stripeRefsT_comm]
    try simp only []
  case true.true =>
    rw [markPointerT_comm]

theorem stepFullT_inv (p : ExtentPtrDecoded) (δ : Int) (dt : BchDataType)
    (gc : Bool) (s : BchFs × BchFsUsage)
    (h : PtrOk ((s.1.devs p.ptr.dev).buckets gc p.ptr.bucket) dt) :
    stepFullT p (-δ) dt 0 gc (stepFullT p δ dt 0 gc s) = s := by
  unfold stepFullT
  cases hpc : p.ptr.cached <;>
    simp only [hpc, Bool.not_false, Bool.not_true, Bool.false_eq_true,
      if_true, if_false, ite_true, ite_false]
  case false =>
    rw [markPointerT_stripeRefsT_comm]
    try simp only []
    rw [markPointerT_inv s.1 p δ dt s.2 gc h]
    try simp only []
    try rw [stripeRefsT_inv]
  case true =>
    rw [markPointerT_inv s.1 p δ dt s.2 gc h]

theorem extentFoldT_step_comm (L : List (ExtentPtrDecoded × Int))
    (dt : BchDataType) (gc : Bool) (p : ExtentPtrDecoded) (δ : Int)
    (s : BchFs × BchFsUsage) :
    extentFoldT L dt 0 gc (stepFullT p δ dt 0 gc s) =
      stepFullT p δ dt 0 gc (extentFoldT L dt 0 gc s) := by
  induction L generalizing s with
  | nil => rfl
  | cons qd rest ih =>
    simp only [extentFoldT]
    rw [stepFullT_comm, ih]

theorem extentFoldT_rt (L : List (ExtentPtrDecoded × Int)) (dt : BchDataType)
    (gc : Bool) (s : BchFs × BchFsUsage)
    (h : ∀ pd ∈ L, PtrOk ((s.1.devs pd.1.ptr.dev).buckets gc pd.1.ptr.bucket) dt) :
    extentFoldT (L.map (fun pd => (pd.1, -pd.2))) dt 0 gc
      (extentFoldT L dt 0 gc s) = s := by
  induction L generalizing s with
  | nil => rfl
  | cons pd rest ih =>
    simp only [extentFoldT, List.map_cons]
    rw [← extentFoldT_step_comm rest dt gc pd.1 (-pd.2) (stepFullT pd.1 pd.2 dt 0 gc s)]
    rw [stepFullT_inv pd.1 pd.2 dt gc s (h pd (List.mem_cons_self pd rest))]
    exact ih s (fun qd hq => h qd (List.mem_cons_of_mem pd hq))


theorem markPointerT_shift (c : BchFs) (p : ExtentPtrDecoded) (a : Int)
    (dt : BchDataType) (u w : BchFsUsage) (jseq : Nat) (gc : Bool) :
    markPointerT c p a dt (u.add w) jseq gc =
      ((markPointerT c p a dt u jseq gc).1,
       (markPointerT c p a dt u jseq gc).2.add w) := by
  rw [markPointerT_normal c p a dt (u.add w) jseq gc,
    markPointerT_normal c p a dt u jseq gc]
  exact Prod.ext rfl (fsu_add_comm u w _)

theorem stepFullT_shift (p : ExtentPtrDecoded) (δ : Int) (dt : BchDataType)
    (jseq : Nat) (gc : Bool) (c : BchFs) (u w : BchFsUsage) :
    stepFullT p δ dt jseq gc (c, u.add w) =
      ((stepFullT p δ dt jseq gc (c, u)).1,
       (stepFullT p δ dt jseq gc (c, u)).2.add w) := by
  unfold stepFullT
  cases hpc : p.ptr.cached <;>
    simp only [hpc, Bool.not_false, Bool.not_true, Bool.false_eq_true,
      if_true, if_false, ite_true, ite_false]
  · rw [markPointerT_shift]
  · rw [markPointerT_shift]

theorem extentFoldT_shift (L : List (ExtentPtrDecoded × Int))
    (dt : BchDataType) (jseq : Nat) (gc : Bool) (c : BchFs)
    (u w : BchFsUsage) :
    extentFoldT L dt jseq gc (c, u.add w) =
      ((extentFoldT L dt jseq gc (c, u)).1,
       (extentFoldT L dt jseq gc (c, u)).2.add w) := by
  induction L generalizing c u with
  | nil => rfl
  | cons pd rest ih =>
    simp only [extentFoldT]
    rw [stepFullT_shift]
    rw [show (stepFullT pd.1 pd.2 dt jseq gc (c, u)) =
      ((stepFullT pd.1 pd.2 dt jseq gc (c, u)).1,
       (stepFullT pd.1 pd.2 dt jseq gc (c, u)).2) from rfl]
    exact ih _ _

set_option maxHeartbeats 1000000 in
theorem mark_extent_ok_eq (c : BchFs) (ptrs : List ExtentPtrDecoded) (S : Int)
    (dt : BchDataType) (u : BchFsUsage) (j : Nat) (fl : MarkFlags) (gc : Bool)
    (c' : BchFs) (u' : BchFsUsage) (acc' : ExtentAcc) (hS : ¬(S = 0))
    (hfold : markExtentPtrs c ptrs S dt u j fl gc ⟨0, 0, 0, 0, 0⟩ =
      .ok (c', u', acc')) :
    bch2_mark_extent c ptrs S dt u j fl gc =
      .ok (c', u'.add (aggUsage dt (min (max acc'.replicas 1) BCH_REPLICAS_MAX)
        (min (max acc'.ec_redundancy 1) BCH_REPLICAS_MAX) acc')) := by
  unfold bch2_mark_extent
  rw [if_neg hS, hfold]
  simp only []
  refine congrArg CRes.ok (Prod.ext rfl ?_)
  clear hfold hS
  unfold aggUsage BchFsUsage.updReplicas ReplicasUsage.addData
  unfold BchFsUsage.add FsUsageSummarized.add ReplicasUsage.add
  generalize min (max acc'.replicas 1) BCH_REPLICAS_MAX - 1 = Kr
  generalize min (max acc'.ec_redundancy 1) BCH_REPLICAS_MAX - 1 = Ke
  ext
  case s.hidden => simp
  case s.data => simp; ring
  case s.cached => simp
  case s.reserved => simp
  case s.nr_inodes => simp
  case s.online_reserved => simp
  case buckets.h => simp
  all_goals simp only [Function.update_apply]
  all_goals split_ifs
  all_goals try simp only [Function.update_apply]
  all_goals try split_ifs
  all_goals try subst_vars
  all_goals first
    | rfl
    | ring1
    | omega
    | (simp_all; try ring1)



theorem agg_cancel (u : BchFsUsage) (dt : BchDataType) (r e : Nat)
    (a b : ExtentAcc) (hab : AccNegRel a b) :
    (u.add (aggUsage dt r e a)).add (aggUsage dt r e b) = u := by
  obtain ⟨hc, hd, he, -, -⟩ := hab
  unfold aggUsage BchFsUsage.add FsUsageSummarized.add ReplicasUsage.add
  ext
  all_goals simp only [hc, hd, he]
  all_goals try dsimp only
  all_goals try split_ifs
  all_goals first
    | rfl
    | ring1
    | omega
    | (simp_all; try ring1)

theorem list_deltas_neg (ptrs : List ExtentPtrDecoded) (S : Int)
    (dt : BchDataType)
    (hcomp : ∀ p ∈ ptrs, p.crc.compression_type = 0)
    (hdef₁ : ∀ p ∈ ptrs, ∃ δ, deltaOf dt S p = some δ)
    (hdef₂ : ∀ p ∈ ptrs, ∃ δ, deltaOf dt (-S) p = some δ) :
    ptrs.map (fun p => (p, (deltaOf dt (-S) p).getD 0)) =
      (ptrs.map (fun p => (p, (deltaOf dt S p).getD 0))).map
        (fun pd => (pd.1, -pd.2)) := by
  rw [List.map_map]
  refine List.map_congr_left ?_
  intro p hp
  obtain ⟨δ₁, h₁⟩ := hdef₁ p hp
  obtain ⟨δ₂, h₂⟩ := hdef₂ p hp
  have hneg := deltaOf_neg p dt S (hcomp p hp) δ₁ δ₂ h₁ h₂
  simp only [Function.comp, h₁, h₂, Option.getD_some, hneg]

theorem stepFullT_sparams (p : ExtentPtrDecoded) (δ : Int) (dt : BchDataType)
    (j : Nat) (gc : Bool) (s : BchFs × BchFsUsage) :
    SParamsEq s.1 (stepFullT p δ dt j gc s).1 := by
  unfold stepFullT
  cases hpc : p.ptr.cached <;>
    simp only [hpc, Bool.not_false, Bool.not_true, Bool.false_eq_true,
      if_true, if_false, ite_true, ite_false]
  · exact SParamsEq.strans _ _ _
      (sparams_of_stripes_eq _ _ (markPointerT_stripes s.1 p δ dt s.2 j gc))
      (stripeRefsT_sparams p.ec _ δ gc)
  · exact sparams_of_stripes_eq _ _ (markPointerT_stripes s.1 p δ dt s.2 j gc)

theorem extentFoldT_sparams (L : List (ExtentPtrDecoded × Int))
    (dt : BchDataType) (j : Nat) (gc : Bool) (s : BchFs × BchFsUsage) :
    SParamsEq s.1 (extentFoldT L dt j gc s).1 := by
  induction L generalizing s with
  | nil => exact SParamsEq.rfl s.1
  | cons pd rest ih =>
    simp only [extentFoldT]
    exact SParamsEq.strans _ _ _ (stepFullT_sparams pd.1 pd.2 dt j gc s)
      (ih (stepFullT pd.1 pd.2 dt j gc s))

theorem mark_extent_roundtrip (c : BchFs) (ptrs : List ExtentPtrDecoded)
    (S : Int) (dt : BchDataType) (u : BchFsUsage) (fl : MarkFlags) (gc : Bool)
    (c₁ c₂ : BchFs) (u₁ u₂ : BchFsUsage)
    (hcomp : ∀ p ∈ ptrs, p.crc.compression_type = 0)
    (hok : ∀ p ∈ ptrs,
      PtrOk ((c.devs p.ptr.dev).buckets gc p.ptr.bucket) dt)
    (h₁ : bch2_mark_extent c ptrs S dt u 0 fl gc = .ok (c₁, u₁))
    (h₂ : bch2_mark_extent c₁ ptrs (-S) dt u₁ 0 fl gc = .ok (c₂, u₂)) :
    c₂ = c ∧ u₂ = u := by
  have hS : ¬(S = 0) := by
    intro hz
    rw [hz] at h₁
    unfold bch2_mark_extent at h₁
    rw [if_pos rfl] at h₁
    exact CRes.noConfusion h₁
  have hS' : ¬(-S = 0) := fun hz => hS (by omega)
  have h₁' := h₁
  have h₂' := h₂
  unfold bch2_mark_extent at h₁' h₂'
  rw [if_neg hS] at h₁'
  rw [if_neg hS'] at h₂'
  rcases hf₁ : markExtentPtrs c ptrs S dt u 0 fl gc ⟨0, 0, 0, 0, 0⟩
      with s | s | _ <;> simp only [hf₁] at h₁'
  case err => exact CRes.noConfusion h₁'
  case trap => exact CRes.noConfusion h₁'
  obtain ⟨cA, uA, acc₁⟩ := s
  rcases hf₂ : markExtentPtrs c₁ ptrs (-S) dt u₁ 0 fl gc ⟨0, 0, 0, 0, 0⟩
      with s | s | _ <;> simp only [hf₂] at h₂'
  case err => exact CRes.noConfusion h₂'
  case trap => exact CRes.noConfusion h₂'
  obtain ⟨cB, uB, acc₂⟩ := s
  clear h₁' h₂'
  have e₁ := mark_extent_ok_eq c ptrs S dt u 0 fl gc cA uA acc₁ hS hf₁
  have e₂ := mark_extent_ok_eq c₁ ptrs (-S) dt u₁ 0 fl gc cB uB acc₂ hS' hf₂
  rw [h₁] at e₁
  rw [h₂] at e₂
  simp only [CRes.ok.injEq, Prod.mk.injEq] at e₁ e₂
  obtain ⟨hc₁, hu₁⟩ := e₁
  obtain ⟨hc₂, hu₂⟩ := e₂
  -- agreement with the total fold
  have A₁ := extentPtrs_agree ptrs c S dt u 0 fl gc ⟨0, 0, 0, 0, 0⟩ cA uA acc₁ hf₁
  have A₂ := extentPtrs_agree ptrs c₁ (-S) dt u₁ 0 fl gc ⟨0, 0, 0, 0, 0⟩ cB uB acc₂ hf₂
  have hdef₁ := extentPtrs_deltas_defined ptrs c S dt u 0 fl gc ⟨0, 0, 0, 0, 0⟩ _ hf₁
  have hdef₂ := extentPtrs_deltas_defined ptrs c₁ (-S) dt u₁ 0 fl gc ⟨0, 0, 0, 0, 0⟩ _ hf₂
  have hLneg := list_deltas_neg ptrs S dt hcomp hdef₁ hdef₂
  rw [hLneg] at A₂
  -- the roundtrip of the total fold
  have hokL : ∀ pd ∈ ptrs.map (fun p => (p, (deltaOf dt S p).getD 0)),
      PtrOk ((c.devs pd.1.ptr.dev).buckets gc pd.1.ptr.bucket) dt := by
    intro pd hpd
    obtain ⟨p, hp, hpe⟩ := List.mem_map.mp hpd
    rw [← hpe]
    exact hok p hp
  have RT := extentFoldT_rt (ptrs.map (fun p => (p, (deltaOf dt S p).getD 0)))
    dt gc (c, u) hokL
  rw [A₁] at RT
  -- the remove fold, shifted by the insert aggregation
  rw [hc₁, hu₁, extentFoldT_shift, RT] at A₂
  simp only [Prod.mk.injEq] at A₂
  obtain ⟨hcB, huB⟩ := A₂
  -- accumulator negation
  have hsp : SParamsEq c c₁ := by
    have hA : cA = (extentFoldT (ptrs.map (fun p => (p, (deltaOf dt S p).getD 0)))
        dt 0 gc (c, u)).1 := by
      rw [A₁]
    rw [hc₁, hA]
    exact extentFoldT_sparams _ dt 0 gc (c, u)
  have hrel : AccNegRel acc₁ acc₂ := by
    refine fold_acc_neg ptrs c c₁ S dt u u₁ 0 0 fl gc ⟨0, 0, 0, 0, 0⟩
      ⟨0, 0, 0, 0, 0⟩ cA cB uA uB acc₁ acc₂ hsp ?_ hcomp hf₁ hf₂
    unfold AccNegRel
    norm_num
  constructor
  · rw [hc₂, ← hcB]
  · rw [hu₂, ← huB, hrel.2.2.2.1, hrel.2.2.2.2]
    exact agg_cancel u dt _ _ acc₁ acc₂ hrel


theorem bucket_set_stripe_agree (L : List BchExtentPtr) (c : BchFs)
    (enabled : Bool) (u : BchFsUsage) (gc : Bool) (c' : BchFs)
    (u' : BchFsUsage)
    (h : bucket_set_stripe c L enabled u 0 gc = some (c', u')) :
    bitFoldT L enabled gc (c, u) = (c', u') := by
  induction L generalizing c u with
  | nil =>
    simp only [bucket_set_stripe, Option.some.injEq] at h
    simp only [bitFoldT]
    exact h
  | cons ptr rest ih =>
    simp only [bucket_set_stripe] at h
    split at h
    · exact Option.noConfusion h
    · split at h
      · exact Option.noConfusion h
      · simp only [show ¬((0 : Nat) ≠ 0) from fun hq => hq rfl, if_false,
          ite_false] at h
        simp only [bitFoldT, bitT]
        exact ih _ _ h

theorem bitT_normal (ptr : BchExtentPtr) (enabled : Bool) (gc : Bool)
    (c : BchFs) (u : BchFsUsage) :
    bitT ptr enabled gc (c, u) =
      (c.setBucketAndUsage ptr.dev gc ptr.bucket
        { (c.devs ptr.dev).buckets gc ptr.bucket with stripe := enabled }
        (((c.devs ptr.dev).usage gc).add
          ((devBucketPot (c.devs ptr.dev)
              { (c.devs ptr.dev).buckets gc ptr.bucket with stripe := enabled }).sub
            (devBucketPot (c.devs ptr.dev)
              ((c.devs ptr.dev).buckets gc ptr.bucket)))),
       u.add
        ((fsBucketPot (c.devs ptr.dev)
            { (c.devs ptr.dev).buckets gc ptr.bucket with stripe := enabled }).sub
          (fsBucketPot (c.devs ptr.dev)
            ((c.devs ptr.dev).buckets gc ptr.bucket)))) := by
  unfold bitT
  simp only []
  rw [dev_usage_update_potential]

theorem bitT_inv (ptr : BchExtentPtr) (gc : Bool) (c : BchFs) (u : BchFsUsage)
    (h : ((c.devs ptr.dev).buckets gc ptr.bucket).stripe = false) :
    bitT ptr false gc (bitT ptr true gc (c, u)) = (c, u) := by
  rw [bitT_normal, bitT_normal]
  rw [setBAU_bucket_read, setBAU_usage_read]
  simp only [and_self, eq_self_iff_true, if_true, ite_true]
  rw [fsBucketPot_setBAU, devBucketPot_setBAU, fsBucketPot_setBAU,
    devBucketPot_setBAU]
  have hm : ({ ({ (c.devs ptr.dev).buckets gc ptr.bucket with stripe := true } :
      BucketMark) with stripe := false } : BucketMark) =
      (c.devs ptr.dev).buckets gc ptr.bucket := by
    refine BucketMark.ext rfl rfl rfl rfl rfl ?_ rfl rfl
    exact h.symm
  rw [hm]
  rw [setBAU_absorb, dvu_add_sub_cancel, fsu_add_sub_cancel]
  rw [setBAU_self c ptr.dev gc ptr.bucket _ _ rfl rfl]



theorem bitT_comm (p q : BchExtentPtr) (e₁ e₂ : Bool) (gc : Bool)
    (c : BchFs) (u : BchFsUsage)
    (h : ¬(q.dev = p.dev ∧ q.bucket = p.bucket)) :
    bitT q e₂ gc (bitT p e₁ gc (c, u)) = bitT p e₁ gc (bitT q e₂ gc (c, u)) := by
  rw [bitT_normal p e₁ gc c u, bitT_normal q e₂ gc c u]
  rw [bitT_normal, bitT_normal]
  by_cases hdev : q.dev = p.dev
  case pos =>
    have hbkt : ¬(q.bucket = p.bucket) := fun hq => h ⟨hdev, hq⟩
    have hbkt' : ¬(p.bucket = q.bucket) := fun hq => hbkt hq.symm
    simp only [setBAU_bucket_read, setBAU_usage_read, fsBucketPot_setBAU,
      devBucketPot_setBAU, hdev, hbkt, hbkt', eq_self_iff_true, and_self,
      if_true, ite_true, true_and, and_false, false_and, if_false, ite_false]
    refine Prod.ext ?_ ?_
    · exact setBAU_swap c p.dev gc p.bucket q.bucket _ _ _ _ _ _
        hbkt' (dvu_add_comm _ _ _)
    · exact fsu_add_comm u _ _
  case neg =>
    have hdev' : ¬(p.dev = q.dev) := fun hq => hdev hq.symm
    simp only [setBAU_bucket_read, setBAU_usage_read, fsBucketPot_setBAU,
      devBucketPot_setBAU, hdev, hdev', eq_self_iff_true, and_self, if_true,
      ite_true, true_and, and_false, false_and, if_false, ite_false]
    refine Prod.ext ?_ ?_
    · exact setBAU_comm_dev c p.dev q.dev gc gc p.bucket q.bucket _ _ _ _ hdev'
    · exact fsu_add_comm u _ _

theorem bitFoldT_step_comm (L : List BchExtentPtr) (e₁ e₂ : Bool) (gc : Bool)
    (p : BchExtentPtr) (s : BchFs × BchFsUsage)
    (h : ∀ q ∈ L, ¬(q.dev = p.dev ∧ q.bucket = p.bucket)) :
    bitFoldT L e₁ gc (bitT p e₂ gc s) = bitT p e₂ gc (bitFoldT L e₁ gc s) := by
  induction L generalizing s with
  | nil => rfl
  | cons q rest ih =>
    simp only [bitFoldT]
    obtain ⟨c, u⟩ := s
    rw [bitT_comm p q e₂ e₁ gc c u (h q (List.mem_cons_self q rest))]
    exact ih (bitT q e₁ gc (c, u)) (fun x hx => h x (List.mem_cons_of_mem q hx))

theorem bitFoldT_rt (L : List BchExtentPtr) (gc : Bool) (c : BchFs)
    (u : BchFsUsage)
    (hd : List.Pairwise (fun a b => ¬(b.dev = a.dev ∧ b.bucket = a.bucket)) L)
    (hb : ∀ p ∈ L, ((c.devs p.dev).buckets gc p.bucket).stripe = false) :
    bitFoldT L false gc (bitFoldT L true gc (c, u)) = (c, u) := by
  induction L generalizing u with
  | nil => rfl
  | cons p rest ih =>
    simp only [bitFoldT]
    rw [← bitFoldT_step_comm rest true false gc p (bitT p true gc (c, u))
      (fun q hq => (List.pairwise_cons.mp hd).1 q hq)]
    rw [bitT_inv p gc c u (hb p (List.mem_cons_self p rest))]
    exact ih u (List.pairwise_cons.mp hd).2
      (fun q hq => hb q (List.mem_cons_of_mem p hq))

theorem bitFoldT_stripes (L : List BchExtentPtr) (e : Bool) (gc : Bool)
    (s : BchFs × BchFsUsage) :
    (bitFoldT L e gc s).1.stripes = s.1.stripes := by
  induction L generalizing s with
  | nil => rfl
  | cons p rest ih =>
    simp only [bitFoldT]
    rw [ih (bitT p e gc s)]
    rfl

theorem bitT_setStripe (ptr : BchExtentPtr) (e : Bool) (gc g : Bool)
    (i : Nat) (m : Stripe) (c : BchFs) (u : BchFsUsage) :
    bitT ptr e gc (c.setStripe g i m, u) =
      ((bitT ptr e gc (c, u)).1.setStripe g i m, (bitT ptr e gc (c, u)).2) := by
  rw [bitT_normal, bitT_normal]
  simp only [setStripe_devs]
  rw [setBAU_setStripe_comm]

theorem bitFoldT_setStripe (L : List BchExtentPtr) (e : Bool) (gc g : Bool)
    (i : Nat) (m : Stripe) (c : BchFs) (u : BchFsUsage) :
    bitFoldT L e gc (c.setStripe g i m, u) =
      ((bitFoldT L e gc (c, u)).1.setStripe g i m,
       (bitFoldT L e gc (c, u)).2) := by
  induction L generalizing c u with
  | nil => rfl
  | cons p rest ih =>
    simp only [bitFoldT]
    rw [bitT_setStripe]
    rw [show bitT p e gc (c, u) =
      ((bitT p e gc (c, u)).1, (bitT p e gc (c, u)).2) from rfl]
    exact ih _ _

theorem bucket_set_stripe_insert_facts (L : List BchExtentPtr) (c : BchFs)
    (u : BchFsUsage) (gc : Bool) (r : BchFs × BchFsUsage)
    (h : bucket_set_stripe c L true u 0 gc = some r) :
    (∀ p ∈ L, ((c.devs p.dev).buckets gc p.bucket).stripe = false) ∧
    List.Pairwise (fun a b => ¬(b.dev = a.dev ∧ b.bucket = a.bucket)) L := by
  induction L generalizing c u with
  | nil => exact ⟨fun p hp => absurd hp (List.not_mem_nil p), List.Pairwise.nil⟩
  | cons ptr rest ih =>
    simp only [bucket_set_stripe] at h
    split at h
    · exact Option.noConfusion h
    · split at h
      case isTrue hbit =>
        exact Option.noConfusion h
      case isFalse hbit =>
        simp only [show ¬((0 : Nat) ≠ 0) from fun hq => hq rfl, if_false,
          ite_false] at h hbit
        have hbit' : ((c.devs ptr.dev).buckets gc ptr.bucket).stripe = false := by
          cases hx : ((c.devs ptr.dev).buckets gc ptr.bucket).stripe
          · rfl
          · exact absurd hx hbit
        obtain ⟨hrest, hpw⟩ := ih _ _ h
        have hdist : ∀ q ∈ rest, ¬(q.dev = ptr.dev ∧ q.bucket = ptr.bucket) := by
          intro q hq hcontra
          have := hrest q hq
          rw [setBAU_bucket_read, if_pos ⟨hcontra.1, rfl, hcontra.2⟩] at this
          exact Bool.noConfusion this
        refine ⟨?_, List.pairwise_cons.mpr ⟨hdist, hpw⟩⟩
        intro q hq
        rcases List.mem_cons.mp hq with hq | hq
        · rw [hq]
          exact hbit'
        · have := hrest q hq
          rw [setBAU_bucket_read, if_neg (fun hcontra =>
            hdist q hq ⟨hcontra.1, hcontra.2.2⟩)] at this
          exact this



theorem mark_stripe_roundtrip (c : BchFs) (idx : Nat) (v : BchStripeVal)
    (u : BchFsUsage) (fl : MarkFlags) (gc : Bool)
    (c₁ c₂ : BchFs) (u₁ u₂ : BchFsUsage)
    (h₁ : bch2_mark_stripe c idx v true u 0 fl gc = .ok (c₁, u₁))
    (h₂ : bch2_mark_stripe c₁ idx v false u₁ 0 fl gc = .ok (c₂, u₂)) :
    ∃ m', c₂ = c.setStripe gc idx m' ∧ u₂ = u := by
  unfold bch2_mark_stripe at h₁
  rcases hm₀ : c.stripes gc idx with _ | m₀
  · rw [hm₀] at h₁
    exact CRes.noConfusion h₁
  rw [hm₀] at h₁
  simp only [Bool.not_true, Bool.false_and, Bool.true_and, if_false,
    ite_false, if_true, ite_true] at h₁
  by_cases ha : m₀.alive
  · rw [if_pos ha] at h₁
    exact CRes.noConfusion h₁
  rw [if_neg ha] at h₁
  by_cases hbn : m₀.blocks_nonempty ≠ 0
  · rw [if_pos hbn] at h₁
    exact CRes.noConfusion h₁
  rw [if_neg hbn] at h₁
  by_cases hbs : (List.range EC_STRIPE_MAX).any (fun i => m₀.block_sectors i ≠ 0)
  · rw [if_pos hbs] at h₁
    exact CRes.noConfusion h₁
  rw [if_neg hbs] at h₁
  rcases hins : bucket_set_stripe
      (c.setStripe gc idx
        { m₀ with sectors := v.sectors, algorithm := v.algorithm,
                  nr_blocks := v.ptrs.length, nr_redundant := v.nr_redundant,
                  alive := true })
      v.ptrs true u 0 gc with _ | r₁
  · rw [hins] at h₁
    exact CRes.noConfusion h₁
  rw [hins] at h₁
  have hr₁ : r₁ = (c₁, u₁) := CRes.ok.inj h₁
  subst hr₁
  have hagree₁ := bucket_set_stripe_agree v.ptrs _ true u gc c₁ u₁ hins
  obtain ⟨hbits, hpw⟩ := bucket_set_stripe_insert_facts v.ptrs _ u gc _ hins
  have hbits' : ∀ p ∈ v.ptrs,
      ((c.devs p.dev).buckets gc p.bucket).stripe = false := by
    intro p hp
    have := hbits p hp
    rw [setStripe_devs] at this
    exact this
  rw [bitFoldT_setStripe] at hagree₁
  injection hagree₁ with hA hB
  generalize hM₁ : ({ m₀ with sectors := v.sectors, algorithm := v.algorithm, nr_blocks := v.ptrs.length, nr_redundant := v.nr_redundant, alive := true } : Stripe) = M₁ at hA
  have hal : M₁.alive = true := by rw [← hM₁]
  have hbnM : M₁.blocks_nonempty = m₀.blocks_nonempty := by rw [← hM₁]
  have hbsM : M₁.block_sectors = m₀.block_sectors := by rw [← hM₁]
  have hm₁ : c₁.stripes gc idx = some M₁ := by
    rw [← hA, setStripe_read, if_pos ⟨rfl, rfl⟩]
  unfold bch2_mark_stripe at h₂
  rw [hm₁] at h₂
  simp only [hal, Bool.not_false, Bool.not_true, Bool.true_and,
    Bool.false_and, Bool.and_false, Bool.false_eq_true, if_false, ite_false,
    if_true, ite_true] at h₂
  have hbn' : ¬(M₁.blocks_nonempty ≠ 0) := by rw [hbnM]; exact hbn
  have hbs' : ¬((List.range EC_STRIPE_MAX).any
      (fun i => M₁.block_sectors i ≠ 0) = true) := by rw [hbsM]; exact hbs
  rw [if_neg hbn', if_neg hbs'] at h₂
  rcases hdel : bucket_set_stripe
      (c₁.setStripe gc idx { M₁ with alive := false })
      v.ptrs false u₁ 0 gc with _ | r₂
  · rw [hdel] at h₂
    exact CRes.noConfusion h₂
  rw [hdel] at h₂
  have hr₂ : r₂ = (c₂, u₂) := CRes.ok.inj h₂
  subst hr₂
  have hagree₂ := bucket_set_stripe_agree v.ptrs _ false u₁ gc c₂ u₂ hdel
  rw [← hA, setStripe_absorb, ← hB] at hagree₂
  rw [bitFoldT_setStripe] at hagree₂
  rw [show ((bitFoldT v.ptrs true gc (c, u)).1,
      (bitFoldT v.ptrs true gc (c, u)).2) = bitFoldT v.ptrs true gc (c, u)
      from rfl] at hagree₂
  rw [bitFoldT_rt v.ptrs gc c u hpw hbits'] at hagree₂
  dsimp only at hagree₂
  injection hagree₂ with h1 h2
  exact ⟨_, h1.symm, h2.symm⟩


theorem mark_key_inner_roundtrip (c : BchFs) (k : BkeyVal) (S : Int)
    (u : BchFsUsage) (fl : MarkFlags) (gc : Bool) (c₁ c₂ : BchFs)
    (u₁ u₂ : BchFsUsage)
    (hk : KeyRTOk c k gc)
    (h₁ : __bch2_mark_key c k true S u 0 fl gc = .ok (c₁, u₁))
    (h₂ : __bch2_mark_key c₁ k false (-S) u₁ 0 fl gc = .ok (c₂, u₂)) :
    c₂ = { c with stripes := c₂.stripes } ∧ u₂ = u := by
  cases k with
  | btree_ptr ptrs =>
    unfold __bch2_mark_key at h₁ h₂
    simp only [if_true, ite_true, if_false, ite_false] at h₁ h₂
    obtain ⟨-, -, -, -, -, -, -, -, -, hbns, -⟩ :=
      mark_extent_offshard c ptrs (c.btree_node_size : Int) BchDataType.btree
        u 0 fl gc c₁ u₁ (Or.inl h₁)
    rw [hbns] at h₂
    obtain ⟨hc, hu⟩ := mark_extent_roundtrip c ptrs (c.btree_node_size : Int)
      BchDataType.btree u fl gc c₁ c₂ u₁ u₂ hk.1 hk.2 h₁ h₂
    subst hc hu
    exact ⟨rfl, rfl⟩
  | extent ptrs =>
    unfold __bch2_mark_key at h₁ h₂
    obtain ⟨hc, hu⟩ := mark_extent_roundtrip c ptrs S BchDataType.user u fl gc
      c₁ c₂ u₁ u₂ hk.1 hk.2 h₁ h₂
    subst hc hu
    exact ⟨rfl, rfl⟩
  | stripe idx v =>
    unfold __bch2_mark_key at h₁ h₂
    obtain ⟨m', hc, hu⟩ := mark_stripe_roundtrip c idx v u fl gc c₁ c₂ u₁ u₂ h₁ h₂
    subst hc hu
    exact ⟨rfl, rfl⟩
  | alloc =>
    unfold __bch2_mark_key at h₁ h₂
    simp only [CRes.ok.injEq, Prod.mk.injEq, if_true, ite_true, if_false,
      ite_false] at h₁ h₂
    obtain ⟨hc₁, hu₁⟩ := h₁
    obtain ⟨hc₂, hu₂⟩ := h₂
    subst hc₁ hc₂
    refine ⟨rfl, ?_⟩
    rw [← hu₂, ← hu₁]
    ext
    all_goals simp
  | reservation nr =>
    unfold __bch2_mark_key at h₂
    unfold __bch2_mark_key at h₁
    simp only [CRes.ok.injEq, Prod.mk.injEq] at h₁ h₂
    obtain ⟨hc₁, hu₁⟩ := h₁
    obtain ⟨hc₂, hu₂⟩ := h₂
    subst hc₁ hc₂
    refine ⟨rfl, ?_⟩
    rw [← hu₂, ← hu₁]
    unfold BchFsUsage.updReplicas
    ext
    all_goals simp only [Function.update_apply]
    all_goals try split_ifs
    all_goals try subst_vars
    all_goals first
      | rfl
      | ring1
      | omega
      | (simp_all [Function.update_apply]; try ring1)
  | other =>
    unfold __bch2_mark_key at h₁ h₂
    simp only [CRes.ok.injEq, Prod.mk.injEq] at h₁ h₂
    obtain ⟨hc₁, hu₁⟩ := h₁
    obtain ⟨hc₂, hu₂⟩ := h₂
    subst hc₁ hc₂ hu₁ hu₂
    exact ⟨rfl, rfl⟩



theorem setUsage_devs (c : BchFs) (g : Bool) (w : BchFsUsage) :
    (c.setUsage g w).devs = c.devs := rfl

theorem setUsage_stripes (c : BchFs) (g : Bool) (w : BchFsUsage) :
    (c.setUsage g w).stripes = c.stripes := rfl

theorem setUsage_ard (c : BchFs) (g : Bool) (w : BchFsUsage) :
    (c.setUsage g w).alloc_read_done = c.alloc_read_done := rfl

theorem setUsage_bns (c : BchFs) (g : Bool) (w : BchFsUsage) :
    (c.setUsage g w).btree_node_size = c.btree_node_size := rfl

theorem setBAU_setUsage_comm (c : BchFs) (g : Bool) (w : BchFsUsage)
    (d : Nat) (gc : Bool) (b : Nat) (m : BucketMark) (du : BchDevUsage) :
    (c.setUsage g w).setBucketAndUsage d gc b m du =
      (c.setBucketAndUsage d gc b m du).setUsage g w := rfl

theorem setStripe_setUsage_comm (c : BchFs) (g : Bool) (w : BchFsUsage)
    (gc : Bool) (i : Nat) (m : Stripe) :
    (c.setUsage g w).setStripe gc i m = (c.setStripe gc i m).setUsage g w := rfl

theorem mark_pointer_setUsage (c : BchFs) (g : Bool) (w : BchFsUsage)
    (p : ExtentPtrDecoded) (s : Int) (dt : BchDataType) (u : BchFsUsage)
    (j : Nat) (fl : MarkFlags) (gc : Bool) :
    bch2_mark_pointer (c.setUsage g w) p s dt u j fl gc =
      match bch2_mark_pointer c p s dt u j fl gc with
      | Option.some (c', u') => some (c'.setUsage g w, u')
      | Option.none => none := by
  unfold bch2_mark_pointer
  simp only [setUsage_devs, setUsage_ard]
  cases hga : gen_after ((c.devs p.ptr.dev).buckets gc p.ptr.bucket).gen
      p.ptr.gen <;>
    simp only [hga, Bool.false_eq_true, if_true, if_false, ite_true, ite_false]
  case true =>
    by_cases ha : (!c.alloc_read_done) = true
    · rw [if_pos ha, if_pos ha]
    · rw [if_neg ha, if_neg ha]
  case false =>
    rcases hd : (if !p.ptr.cached then
        checked_add ((c.devs p.ptr.dev).buckets gc p.ptr.bucket).dirty_sectors s
      else some ((c.devs p.ptr.dev).buckets gc p.ptr.bucket).dirty_sectors)
      with _ | d <;>
    rcases hcs : (if p.ptr.cached then
        checked_add ((c.devs p.ptr.dev).buckets gc p.ptr.bucket).cached_sectors s
      else some ((c.devs p.ptr.dev).buckets gc p.ptr.bucket).cached_sectors)
      with _ | cs <;>
    simp only [] <;>
    try rfl
    split_ifs <;> rfl

theorem stripe_ptr_setUsage (c : BchFs) (g : Bool) (w : BchFsUsage)
    (e : BchExtentStripePtr) (s : Int) (fl : MarkFlags) (adj : Int)
    (red : Nat) (gc : Bool) :
    bch2_mark_stripe_ptr (c.setUsage g w) e s fl adj red gc =
      match bch2_mark_stripe_ptr c e s fl adj red gc with
      | .ok (c', r) => .ok (c'.setUsage g w, r)
      | .err (c', r) => .err (c'.setUsage g w, r)
      | .trap => .trap := by
  unfold bch2_mark_stripe_ptr
  simp only [setUsage_stripes]
  rcases hm : c.stripes gc e.idx with _ | m
  · rfl
  simp only []
  by_cases ha : (!m.alive) = true
  · rw [if_pos ha, if_pos ha]
  · rw [if_neg ha, if_neg ha]
    split_ifs <;> rfl

theorem stripeRefs_setUsage (ecl : List BchExtentStripePtr) (c : BchFs)
    (g : Bool) (w : BchFsUsage) (s : Int) (fl : MarkFlags) (adj : Int)
    (red : Nat) (gc : Bool) :
    markStripeRefs (c.setUsage g w) ecl s fl adj red gc =
      match markStripeRefs c ecl s fl adj red gc with
      | .ok (c', r) => .ok (c'.setUsage g w, r)
      | .err (c', r) => .err (c'.setUsage g w, r)
      | .trap => .trap := by
  induction ecl generalizing c adj red with
  | nil => rfl
  | cons e rest ih =>
    unfold markStripeRefs
    rw [stripe_ptr_setUsage]
    rcases hsp : bch2_mark_stripe_ptr c e s fl adj red gc with r | r | _
    · obtain ⟨c', adj', red'⟩ := r
      simp only []
      exact ih c' adj' red'
    · obtain ⟨c', r'⟩ := r
      rfl
    · rfl

theorem markExtentPtrs_setUsage (ptrs : List ExtentPtrDecoded) (c : BchFs)
    (g : Bool) (w : BchFsUsage) (s : Int) (dt : BchDataType) (u : BchFsUsage)
    (j : Nat) (fl : MarkFlags) (gc : Bool) (acc : ExtentAcc) :
    markExtentPtrs (c.setUsage g w) ptrs s dt u j fl gc acc =
      match markExtentPtrs c ptrs s dt u j fl gc acc with
      | .ok (c', r) => .ok (c'.setUsage g w, r)
      | .err (c', r) => .err (c'.setUsage g w, r)
      | .trap => .trap := by
  induction ptrs generalizing c u acc with
  | nil => rfl
  | cons p rest ih =>
    unfold markExtentPtrs
    rcases hds : (if dt = BchDataType.btree then some s
        else ptr_disk_sectors_delta p s) with _ | ds
    · rfl
    simp only []
    rw [mark_pointer_setUsage]
    rcases hmp : bch2_mark_pointer c p ds dt u j fl gc with _ | r
    · rfl
    obtain ⟨c', u'⟩ := r
    simp only []
    by_cases hc : (!p.ptr.cached) = true
    · rw [if_pos hc, if_pos hc]
      rw [stripeRefs_setUsage]
      rcases hsr : markStripeRefs c' p.ec ds fl ds acc.ec_redundancy gc
          with r | r | _
      · obtain ⟨c'', adj'', red''⟩ := r
        simp only []
        exact ih c'' u' _
      · obtain ⟨c'', r''⟩ := r
        rfl
      · rfl
    · rw [if_neg hc, if_neg hc]
      simp only []
      exact ih c' u' _

theorem mark_extent_setUsage (c : BchFs) (g : Bool) (w : BchFsUsage)
    (ptrs : List ExtentPtrDecoded) (s : Int) (dt : BchDataType)
    (u : BchFsUsage) (j : Nat) (fl : MarkFlags) (gc : Bool) :
    bch2_mark_extent (c.setUsage g w) ptrs s dt u j fl gc =
      match bch2_mark_extent c ptrs s dt u j fl gc with
      | .ok (c', u') => .ok (c'.setUsage g w, u')
      | .err (c', u') => .err (c'.setUsage g w, u')
      | .trap => .trap := by
  unfold bch2_mark_extent
  by_cases hs : s = 0
  · rw [if_pos hs, if_pos hs]
  rw [if_neg hs, if_neg hs]
  rw [markExtentPtrs_setUsage]
  rcases hf : markExtentPtrs c ptrs s dt u j fl gc ⟨0, 0, 0, 0, 0⟩ with r | r | _
  · obtain ⟨c', u', acc'⟩ := r
    rfl
  · obtain ⟨c', r'⟩ := r
    rfl
  · rfl

theorem bucket_set_stripe_setUsage (ptrs : List BchExtentPtr) (c : BchFs)
    (g : Bool) (w : BchFsUsage) (enabled : Bool) (u : BchFsUsage) (j : Nat)
    (gc : Bool) :
    bucket_set_stripe (c.setUsage g w) ptrs enabled u j gc =
      match bucket_set_stripe c ptrs enabled u j gc with
      | Option.some (c', u') => some (c'.setUsage g w, u')
      | Option.none => none := by
  induction ptrs generalizing c u with
  | nil => rfl
  | cons ptr rest ih =>
    unfold bucket_set_stripe
    simp only [setUsage_devs]
    by_cases hga : gen_after ((c.devs ptr.dev).buckets false ptr.bucket).gen
        ptr.gen = true
    · rw [if_pos hga, if_pos hga]
    rw [if_neg hga, if_neg hga]
    by_cases hst : ((c.devs ptr.dev).buckets gc ptr.bucket).stripe = enabled
    · rw [if_pos hst, if_pos hst]
    rw [if_neg hst, if_neg hst]
    rw [setBAU_setUsage_comm]
    exact ih _ _

theorem mark_stripe_setUsage (c : BchFs) (g : Bool) (w : BchFsUsage)
    (idx : Nat) (v : BchStripeVal) (ins : Bool) (u : BchFsUsage) (j : Nat)
    (fl : MarkFlags) (gc : Bool) :
    bch2_mark_stripe (c.setUsage g w) idx v ins u j fl gc =
      match bch2_mark_stripe c idx v ins u j fl gc with
      | .ok (c', u') => .ok (c'.setUsage g w, u')
      | .err (c', u') => .err (c'.setUsage g w, u')
      | .trap => .trap := by
  unfold bch2_mark_stripe
  simp only [setUsage_stripes]
  rcases hm : c.stripes gc idx with _ | m
  · rfl
  simp only []
  by_cases h1 : (!ins && !m.alive) = true
  · rw [if_pos h1, if_pos h1]
  rw [if_neg h1, if_neg h1]
  by_cases h2 : (ins && m.alive) = true
  · rw [if_pos h2, if_pos h2]
  rw [if_neg h2, if_neg h2]
  by_cases h3 : m.blocks_nonempty ≠ 0
  · rw [if_pos h3, if_pos h3]
  rw [if_neg h3, if_neg h3]
  by_cases h4 : (List.range EC_STRIPE_MAX).any (fun i => m.block_sectors i ≠ 0)
      = true
  · rw [if_pos h4, if_pos h4]
  rw [if_neg h4, if_neg h4]
  rw [setStripe_setUsage_comm, bucket_set_stripe_setUsage]
  rcases hbs : bucket_set_stripe (c.setStripe gc idx _) v.ptrs ins u 0 gc
      with _ | r
  · rfl
  obtain ⟨c', u'⟩ := r
  rfl

theorem mark_key_inner_setUsage (c : BchFs) (g : Bool) (w : BchFsUsage)
    (k : BkeyVal) (ins : Bool) (s : Int) (u : BchFsUsage) (j : Nat)
    (fl : MarkFlags) (gc : Bool) :
    __bch2_mark_key (c.setUsage g w) k ins s u j fl gc =
      match __bch2_mark_key c k ins s u j fl gc with
      | .ok (c', u') => .ok (c'.setUsage g w, u')
      | .err (c', u') => .err (c'.setUsage g w, u')
      | .trap => .trap := by
  cases k with
  | btree_ptr ptrs =>
    unfold __bch2_mark_key
    dsimp only
    rw [setUsage_bns, mark_extent_setUsage]
  | extent ptrs =>
    unfold __bch2_mark_key
    dsimp only
    rw [mark_extent_setUsage]
  | stripe idx v =>
    unfold __bch2_mark_key
    dsimp only
    rw [mark_stripe_setUsage]
  | alloc => rfl
  | reservation nr => rfl
  | other => rfl



theorem setUsage_usage (c : BchFs) (g : Bool) (w : BchFsUsage) (g' : Bool) :
    (c.setUsage g w).usage g' = if g' = g then w else c.usage g' := rfl

theorem setUsage_absorb (c : BchFs) (g : Bool) (w w' : BchFsUsage) :
    (c.setUsage g w).setUsage g w' = c.setUsage g w' := by
  unfold BchFs.setUsage
  refine BchFs.ext rfl ?_ rfl rfl rfl rfl rfl rfl rfl rfl
  funext g'
  by_cases h : g' = g <;> simp [h]

theorem markKeyGcPass_roundtrip (c : BchFs) (k : BkeyVal) (S : Int)
    (fsu fsu₁ fsu₂ : Option BchFsUsage) (fl : MarkFlags) (d₁ d₂ : BchFs)
    (hk : KeyRTOk c k true)
    (h₁ : markKeyGcPass c k true S fsu 0 fl = .ok (d₁, fsu₁))
    (h₂ : markKeyGcPass d₁ k false (-S) fsu₁ 0 fl = .ok (d₂, fsu₂)) :
    d₂.devs = c.devs ∧ (∀ g, d₂.usage g = c.usage g) ∧ fsu₂ = fsu := by
  unfold markKeyGcPass at h₁ h₂
  rcases hA : __bch2_mark_key c k true S (c.usage true) 0 fl true
      with r | r | _ <;> simp only [hA] at h₁
  case err => exact CRes.noConfusion h₁
  case trap => exact CRes.noConfusion h₁
  obtain ⟨cA, uA⟩ := r
  simp only [CRes.ok.injEq, Prod.mk.injEq] at h₁
  obtain ⟨hd₁, hfsu₁⟩ := h₁
  subst hd₁ hfsu₁
  rw [show (cA.setUsage true uA).usage true = uA from rfl,
      mark_key_inner_setUsage] at h₂
  rcases hB : __bch2_mark_key cA k false (-S) uA 0 fl true
      with r | r | _ <;> simp only [hB] at h₂
  case err => exact CRes.noConfusion h₂
  case trap => exact CRes.noConfusion h₂
  obtain ⟨cB, uB⟩ := r
  simp only [CRes.ok.injEq, Prod.mk.injEq] at h₂
  obtain ⟨hd₂, hfsu₂⟩ := h₂
  obtain ⟨hcB, huB⟩ := mark_key_inner_roundtrip c k S (c.usage true) fl true
    cA cB uA uB hk hA hB
  rw [setUsage_absorb, hcB, huB] at hd₂
  subst hfsu₂
  refine ⟨?_, ?_, rfl⟩
  · rw [← hd₂]
    rfl
  · intro g
    rw [← hd₂, setUsage_usage]
    by_cases hg : g = true
    · rw [if_pos hg, hg]
    · rw [if_neg hg]

theorem markKeyLivePass_roundtrip (c : BchFs) (k : BkeyVal) (S : Int)
    (fsu fsu₁ fsu₂ : Option BchFsUsage) (fl : MarkFlags) (d₁ d₂ : BchFs)
    (hk : KeyRTOk c k false)
    (h₁ : markKeyLivePass c k true S fsu 0 fl = .ok (d₁, fsu₁))
    (h₂ : markKeyLivePass d₁ k false (-S) fsu₁ 0 fl = .ok (d₂, fsu₂)) :
    d₂.devs = c.devs ∧ (∀ g, d₂.usage g = c.usage g) ∧ fsu₂ = fsu := by
  unfold markKeyLivePass at h₁ h₂
  rcases hA : __bch2_mark_key c k true S (fsu.getD (c.usage false)) 0 fl false
      with r | r | _ <;> simp only [hA] at h₁
  case err => exact CRes.noConfusion h₁
  case trap => exact CRes.noConfusion h₁
  obtain ⟨cA, uA⟩ := r
  rcases fsu with _ | u0
  · simp only [CRes.ok.injEq, Prod.mk.injEq] at h₁
    obtain ⟨hd₁, hfsu₁⟩ := h₁
    subst hd₁ hfsu₁
    simp only [Option.getD] at h₂
    rw [show (cA.setUsage false uA).usage false = uA from rfl,
        mark_key_inner_setUsage] at h₂
    rcases hB : __bch2_mark_key cA k false (-S) uA 0 fl false
        with r | r | _ <;> simp only [hB] at h₂
    case err => exact CRes.noConfusion h₂
    case trap => exact CRes.noConfusion h₂
    obtain ⟨cB, uB⟩ := r
    simp only [CRes.ok.injEq, Prod.mk.injEq] at h₂
    obtain ⟨hd₂, hfsu₂⟩ := h₂
    obtain ⟨hcB, huB⟩ := mark_key_inner_roundtrip c k S (c.usage false) fl false
      cA cB uA uB hk hA hB
    rw [setUsage_absorb, hcB, huB] at hd₂
    subst hfsu₂
    refine ⟨?_, ?_, rfl⟩
    · rw [← hd₂]
      rfl
    · intro g
      rw [← hd₂, setUsage_usage]
      by_cases hg : g = false
      · rw [if_pos hg, hg]
      · rw [if_neg hg]
  · simp only [CRes.ok.injEq, Prod.mk.injEq] at h₁
    obtain ⟨hd₁, hfsu₁⟩ := h₁
    subst hd₁
    subst hfsu₁
    simp only [Option.getD] at h₂
    rcases hB : __bch2_mark_key cA k false (-S) uA 0 fl false
        with r | r | _ <;> simp only [hB] at h₂
    case err => exact CRes.noConfusion h₂
    case trap => exact CRes.noConfusion h₂
    obtain ⟨cB, uB⟩ := r
    simp only [CRes.ok.injEq, Prod.mk.injEq] at h₂
    obtain ⟨hd₂, hfsu₂⟩ := h₂
    obtain ⟨hcB, huB⟩ := mark_key_inner_roundtrip c k S u0 fl false
      cA cB uA uB hk hA hB
    subst hd₂
    subst hfsu₂
    rw [hcB]
    exact ⟨rfl, fun g => rfl, by rw [huB]⟩



theorem setBAU_cross (c : BchFs) (d₁ d₂ : Nat) (g₁ g₂ : Bool) (b₁ b₂ : Nat)
    (m₁ m₂ : BucketMark) (du₁ du₂ : BchDevUsage) (hg : g₁ ≠ g₂) :
    (c.setBucketAndUsage d₁ g₁ b₁ m₁ du₁).setBucketAndUsage d₂ g₂ b₂ m₂ du₂ =
      (c.setBucketAndUsage d₂ g₂ b₂ m₂ du₂).setBucketAndUsage d₁ g₁ b₁ m₁ du₁ := by
  by_cases hd : d₁ = d₂
  · subst hd
    unfold BchFs.setBucketAndUsage
    simp only [Function.update_same, Function.update_idem]
    refine congrArg (fun ca => { c with devs := Function.update c.devs d₁ ca }) ?_
    refine BchDev.ext rfl ?_ ?_
    · funext g i
      dsimp only
      split_ifs with h1 h2 h2 <;> try rfl
      exact absurd (h1.1.symm.trans h2.1) (Ne.symm hg)
    · funext g
      dsimp only
      split_ifs with h1 h2 h2 <;> try rfl
      exact absurd (h1.symm.trans h2) (Ne.symm hg)
  · exact setBAU_comm_dev c d₁ d₂ g₁ g₂ b₁ b₂ m₁ m₂ du₁ du₂ hd

theorem setStripe_cross (c : BchFs) (g₁ g₂ : Bool) (i j : Nat)
    (m₁ m₂ : Stripe) (hg : g₁ ≠ g₂) :
    (c.setStripe g₁ i m₁).setStripe g₂ j m₂ =
      (c.setStripe g₂ j m₂).setStripe g₁ i m₁ := by
  unfold BchFs.setStripe
  refine congrArg (fun f => { c with stripes := f }) ?_
  funext g x
  dsimp only
  split_ifs with h1 h2 h2 <;> try rfl
  exact absurd (h1.1.symm.trans h2.1) (Ne.symm hg)

theorem markPointerT_cross (c : BchFs) (p q : ExtentPtrDecoded) (a b : Int)
    (dt dt' : BchDataType) (u w : BchFsUsage) (g₁ g₂ : Bool) (hg : g₁ ≠ g₂) :
    markPointerT (markPointerT c q b dt' w 0 g₂).1 p a dt u 0 g₁ =
      ((markPointerT (markPointerT c p a dt u 0 g₁).1 q b dt' w 0 g₂).1,
       (markPointerT c p a dt u 0 g₁).2) := by
  have hg' : g₂ ≠ g₁ := Ne.symm hg
  rw [markPointerT_normal c q b dt' w 0 g₂, markPointerT_normal c p a dt u 0 g₁]
  simp only []
  rw [markPointerT_normal, markPointerT_normal]
  simp only [setBAU_bucket_read, setBAU_usage_read, fsBucketPot_setBAU,
    devBucketPot_setBAU, hg, hg', and_false, false_and, if_false, ite_false]
  refine Prod.ext ?_ rfl
  exact setBAU_cross c q.ptr.dev p.ptr.dev g₂ g₁ q.ptr.bucket p.ptr.bucket
    _ _ _ _ hg'

theorem markPointerT_stripePtrT_comm2 (c : BchFs) (p : ExtentPtrDecoded)
    (a : Int) (dt : BchDataType) (u : BchFsUsage) (g₁ g₂ : Bool)
    (e : BchExtentStripePtr) (ε : Int) :
    markPointerT (stripePtrT c e ε g₂) p a dt u 0 g₁ =
      (stripePtrT (markPointerT c p a dt u 0 g₁).1 e ε g₂,
       (markPointerT c p a dt u 0 g₁).2) := by
  rcases hst : c.stripes g₂ e.idx with _ | m
  · rw [stripePtrT_none c e ε g₂ hst,
      stripePtrT_none _ e ε g₂ (by rw [markPointerT_stripes]; exact hst)]
  · cases ha : m.alive
    · rw [stripePtrT_dead c e ε g₂ m hst ha,
        stripePtrT_dead _ e ε g₂ m (by rw [markPointerT_stripes]; exact hst) ha]
    · rw [stripePtrT_live c e ε g₂ m hst ha,
        stripePtrT_live _ e ε g₂ m (by rw [markPointerT_stripes]; exact hst) ha]
      rw [markPointerT_normal, markPointerT_normal c p a dt u 0 g₁]
      simp only [setStripe_devs]
      rw [setBAU_setStripe_comm]

theorem markPointerT_stripeRefsT_comm2 (L : List BchExtentStripePtr)
    (c : BchFs) (ε : Int) (p : ExtentPtrDecoded) (a : Int) (dt : BchDataType)
    (u : BchFsUsage) (g₁ g₂ : Bool) :
    markPointerT (stripeRefsT c L ε g₂) p a dt u 0 g₁ =
      (stripeRefsT (markPointerT c p a dt u 0 g₁).1 L ε g₂,
       (markPointerT c p a dt u 0 g₁).2) := by
  induction L generalizing c u with
  | nil => rfl
  | cons e rest ih =>
    simp only [stripeRefsT]
    rw [ih (stripePtrT c e ε g₂) u]
    rw [markPointerT_stripePtrT_comm2]

theorem stripePtrT_cross (c : BchFs) (e f : BchExtentStripePtr) (δ ε : Int)
    (g₁ g₂ : Bool) (hg : g₁ ≠ g₂) :
    stripePtrT (stripePtrT c f ε g₂) e δ g₁ =
      stripePtrT (stripePtrT c e δ g₁) f ε g₂ := by
  have hg' : g₂ ≠ g₁ := Ne.symm hg
  have hre : ∀ (x : BchFs) (hx : x.stripes = c.stripes) (m : Stripe),
      (x.setStripe g₂ f.idx m).stripes g₁ e.idx = c.stripes g₁ e.idx := by
    intro x hx m
    rw [setStripe_read, if_neg (fun hq => hg hq.1), hx]
  have hrf : ∀ (x : BchFs) (hx : x.stripes = c.stripes) (m : Stripe),
      (x.setStripe g₁ e.idx m).stripes g₂ f.idx = c.stripes g₂ f.idx := by
    intro x hx m
    rw [setStripe_read, if_neg (fun hq => hg' hq.1), hx]
  rcases hst₁ : c.stripes g₁ e.idx with _ | m₁ <;>
    rcases hst₂ : c.stripes g₂ f.idx with _ | m₂
  · conv_lhs => rw [stripePtrT_none c f ε g₂ hst₂, stripePtrT_none c e δ g₁ hst₁]
    conv_rhs => rw [stripePtrT_none c e δ g₁ hst₁, stripePtrT_none c f ε g₂ hst₂]
  · cases ha₂ : m₂.alive
    · conv_lhs => rw [stripePtrT_dead c f ε g₂ m₂ hst₂ ha₂,
        stripePtrT_none c e δ g₁ hst₁]
      conv_rhs => rw [stripePtrT_none c e δ g₁ hst₁,
        stripePtrT_dead c f ε g₂ m₂ hst₂ ha₂]
    · conv_lhs => rw [stripePtrT_live c f ε g₂ m₂ hst₂ ha₂]
      conv_rhs => rw [stripePtrT_none c e δ g₁ hst₁,
        stripePtrT_live c f ε g₂ m₂ hst₂ ha₂]
      rw [stripePtrT_none _ e δ g₁ ((hre c rfl _).trans hst₁)]
  · cases ha₁ : m₁.alive
    · conv_lhs => rw [stripePtrT_none c f ε g₂ hst₂,
        stripePtrT_dead c e δ g₁ m₁ hst₁ ha₁]
      conv_rhs => rw [stripePtrT_dead c e δ g₁ m₁ hst₁ ha₁,
        stripePtrT_none c f ε g₂ hst₂]
    · conv_lhs => rw [stripePtrT_none c f ε g₂ hst₂,
        stripePtrT_live c e δ g₁ m₁ hst₁ ha₁]
      conv_rhs => rw [stripePtrT_live c e δ g₁ m₁ hst₁ ha₁]
      rw [stripePtrT_none _ f ε g₂ ((hrf c rfl _).trans hst₂)]
  · cases ha₁ : m₁.alive <;> cases ha₂ : m₂.alive
    · conv_lhs => rw [stripePtrT_dead c f ε g₂ m₂ hst₂ ha₂,
        stripePtrT_dead c e δ g₁ m₁ hst₁ ha₁]
      conv_rhs => rw [stripePtrT_dead c e δ g₁ m₁ hst₁ ha₁,
        stripePtrT_dead c f ε g₂ m₂ hst₂ ha₂]
    · conv_lhs => rw [stripePtrT_live c f ε g₂ m₂ hst₂ ha₂]
      conv_rhs => rw [stripePtrT_dead c e δ g₁ m₁ hst₁ ha₁,
        stripePtrT_live c f ε g₂ m₂ hst₂ ha₂]
      rw [stripePtrT_dead _ e δ g₁ m₁ ((hre c rfl _).trans hst₁) ha₁]
    · conv_lhs => rw [stripePtrT_dead c f ε g₂ m₂ hst₂ ha₂,
        stripePtrT_live c e δ g₁ m₁ hst₁ ha₁]
      conv_rhs => rw [stripePtrT_live c e δ g₁ m₁ hst₁ ha₁]
      rw [stripePtrT_dead _ f ε g₂ m₂ ((hrf c rfl _).trans hst₂) ha₂]
    · conv_lhs => rw [stripePtrT_live c f ε g₂ m₂ hst₂ ha₂]
      conv_rhs => rw [stripePtrT_live c e δ g₁ m₁ hst₁ ha₁]
      rw [stripePtrT_live _ e δ g₁ m₁ ((hre c rfl _).trans hst₁) ha₁,
        stripePtrT_live _ f ε g₂ m₂ ((hrf c rfl _).trans hst₂) ha₂]
      exact setStripe_cross c g₂ g₁ f.idx e.idx _ _ hg'

theorem stripePtrT_refsT_cross (L : List BchExtentStripePtr) (c : BchFs)
    (ε : Int) (e : BchExtentStripePtr) (δ : Int) (g₁ g₂ : Bool)
    (hg : g₁ ≠ g₂) :
    stripePtrT (stripeRefsT c L ε g₂) e δ g₁ =
      stripeRefsT (stripePtrT c e δ g₁) L ε g₂ := by
  induction L generalizing c with
  | nil => rfl
  | cons f rest ih =>
    simp only [stripeRefsT]
    rw [ih (stripePtrT c f ε g₂), stripePtrT_cross c e f δ ε g₁ g₂ hg]

theorem stripeRefsT_cross (L₁ L₂ : List BchExtentStripePtr) (c : BchFs)
    (δ ε : Int) (g₁ g₂ : Bool) (hg : g₁ ≠ g₂) :
    stripeRefsT (stripeRefsT c L₂ ε g₂) L₁ δ g₁ =
      stripeRefsT (stripeRefsT c L₁ δ g₁) L₂ ε g₂ := by
  induction L₁ generalizing c with
  | nil => rfl
  | cons e rest ih =>
    simp only [stripeRefsT]
    rw [stripePtrT_refsT_cross L₂ c ε e δ g₁ g₂ hg]
    exact ih (stripePtrT c e δ g₁)

theorem stepFullT_cross (p q : ExtentPtrDecoded) (δ ε : Int)
    (dt dt' : BchDataType) (u w : BchFsUsage) (g₁ g₂ : Bool) (c : BchFs)
    (hg : g₁ ≠ g₂) :
    stepFullT p δ dt 0 g₁ ((stepFullT q ε dt' 0 g₂ (c, w)).1, u) =
      ((stepFullT q ε dt' 0 g₂ ((stepFullT p δ dt 0 g₁ (c, u)).1, w)).1,
       (stepFullT p δ dt 0 g₁ (c, u)).2) := by
  unfold stepFullT
  cases hpc : p.ptr.cached <;> cases hqc : q.ptr.cached <;>
    simp only [hpc, hqc, Bool.not_false, Bool.not_true, Bool.false_eq_true,
      if_true, if_false, ite_true, ite_false]
  case false.false =>
    rw [markPointerT_stripeRefsT_comm2]
    try simp only []
    rw [markPointerT_cross c p q δ ε dt dt' u w g₁ g₂ hg]
    try simp only []
    rw [markPointerT_stripeRefsT_comm2]
    try simp only []
    rw [stripeRefsT_cross p.ec q.ec _ δ ε g₁ g₂ hg]
  case false.true =>
    rw [markPointerT_cross c p q δ ε dt dt' u w g₁ g₂ hg]
    try simp only []
    rw [markPointerT_stripeRefsT_comm2]
  case true.false =>
    rw [markPointerT_stripeRefsT_comm2]
    try simp only []
    rw [markPointerT_cross c p q δ ε dt dt' u w g₁ g₂ hg]
  case true.true =>
    rw [markPointerT_cross c p q δ ε dt dt' u w g₁ g₂ hg]

theorem markPointerT_fst (c : BchFs) (p : ExtentPtrDecoded) (a : Int)
    (dt : BchDataType) (u u' : BchFsUsage) (j : Nat) (g : Bool) :
    (markPointerT c p a dt u j g).1 = (markPointerT c p a dt u' j g).1 := by
  rw [markPointerT_normal, markPointerT_normal]

theorem stepFullT_fst (p : ExtentPtrDecoded) (δ : Int) (dt : BchDataType)
    (g : Bool) (c : BchFs) (u u' : BchFsUsage) :
    (stepFullT p δ dt 0 g (c, u)).1 = (stepFullT p δ dt 0 g (c, u')).1 := by
  unfold stepFullT
  cases hpc : p.ptr.cached <;>
    simp only [hpc, Bool.not_false, Bool.not_true, Bool.false_eq_true,
      if_true, if_false, ite_true, ite_false]
  · rw [markPointerT_fst c p δ dt u u' 0 g]
  · rw [markPointerT_fst c p δ dt u u' 0 g]

theorem extentFoldT_fst (L : List (ExtentPtrDecoded × Int)) (dt : BchDataType)
    (g : Bool) (c : BchFs) (u u' : BchFsUsage) :
    (extentFoldT L dt 0 g (c, u)).1 = (extentFoldT L dt 0 g (c, u')).1 := by
  induction L generalizing c u u' with
  | nil => rfl
  | cons pd rest ih =>
    simp only [extentFoldT]
    rw [show stepFullT pd.1 pd.2 dt 0 g (c, u) =
        ((stepFullT pd.1 pd.2 dt 0 g (c, u)).1,
         (stepFullT pd.1 pd.2 dt 0 g (c, u)).2) from rfl]
    rw [show stepFullT pd.1 pd.2 dt 0 g (c, u') =
        ((stepFullT pd.1 pd.2 dt 0 g (c, u')).1,
         (stepFullT pd.1 pd.2 dt 0 g (c, u')).2) from rfl]
    rw [ih _ _ (stepFullT pd.1 pd.2 dt 0 g (c, u')).2]
    rw [stepFullT_fst pd.1 pd.2 dt g c u u']

theorem stepFoldT_cross (L : List (ExtentPtrDecoded × Int))
    (p : ExtentPtrDecoded) (δ : Int) (dt dt' : BchDataType) (g₁ g₂ : Bool)
    (c : BchFs) (u w : BchFsUsage) (hg : g₁ ≠ g₂) :
    stepFullT p δ dt 0 g₁ ((extentFoldT L dt' 0 g₂ (c, w)).1, u) =
      ((extentFoldT L dt' 0 g₂ ((stepFullT p δ dt 0 g₁ (c, u)).1, w)).1,
       (stepFullT p δ dt 0 g₁ (c, u)).2) := by
  induction L generalizing c u w with
  | nil => rfl
  | cons qd rest ih =>
    simp only [extentFoldT]
    rw [show stepFullT qd.1 qd.2 dt' 0 g₂ (c, w) =
        ((stepFullT qd.1 qd.2 dt' 0 g₂ (c, w)).1,
         (stepFullT qd.1 qd.2 dt' 0 g₂ (c, w)).2) from rfl]
    rw [ih]
    rw [stepFullT_cross p qd.1 δ qd.2 dt dt' u w g₁ g₂ c hg]
    refine Prod.ext ?_ rfl
    rw [show stepFullT qd.1 qd.2 dt' 0 g₂ ((stepFullT p δ dt 0 g₁ (c, u)).1, w)
        = ((stepFullT qd.1 qd.2 dt' 0 g₂ ((stepFullT p δ dt 0 g₁ (c, u)).1,
            w)).1,
           (stepFullT qd.1 qd.2 dt' 0 g₂ ((stepFullT p δ dt 0 g₁ (c, u)).1,
            w)).2) from rfl]
    exact extentFoldT_fst rest dt' g₂ _ _ _

theorem extentFoldT_cross (L₁ L₂ : List (ExtentPtrDecoded × Int))
    (dt dt' : BchDataType) (g₁ g₂ : Bool) (c : BchFs) (u w : BchFsUsage)
    (hg : g₁ ≠ g₂) :
    extentFoldT L₁ dt 0 g₁ ((extentFoldT L₂ dt' 0 g₂ (c, w)).1, u) =
      ((extentFoldT L₂ dt' 0 g₂ ((extentFoldT L₁ dt 0 g₁ (c, u)).1, w)).1,
       (extentFoldT L₁ dt 0 g₁ (c, u)).2) := by
  induction L₁ generalizing c u w with
  | nil => rfl
  | cons pd rest ih =>
    simp only [extentFoldT]
    rw [stepFoldT_cross L₂ pd.1 pd.2 dt dt' g₁ g₂ c u w hg]
    rw [show stepFullT pd.1 pd.2 dt 0 g₁ (c, u) =
        ((stepFullT pd.1 pd.2 dt 0 g₁ (c, u)).1,
         (stepFullT pd.1 pd.2 dt 0 g₁ (c, u)).2) from rfl]
    exact ih _ _ _



theorem bitT_fst (ptr : BchExtentPtr) (e : Bool) (g : Bool) (c : BchFs)
    (u u' : BchFsUsage) :
    (bitT ptr e g (c, u)).1 = (bitT ptr e g (c, u')).1 := by
  rw [bitT_normal, bitT_normal]

theorem bitFoldT_fst (L : List BchExtentPtr) (e : Bool) (g : Bool) (c : BchFs)
    (u u' : BchFsUsage) :
    (bitFoldT L e g (c, u)).1 = (bitFoldT L e g (c, u')).1 := by
  induction L generalizing c u u' with
  | nil => rfl
  | cons p rest ih =>
    simp only [bitFoldT]
    rw [show bitT p e g (c, u) =
        ((bitT p e g (c, u)).1, (bitT p e g (c, u)).2) from rfl]
    rw [show bitT p e g (c, u') =
        ((bitT p e g (c, u')).1, (bitT p e g (c, u')).2) from rfl]
    rw [ih _ _ (bitT p e g (c, u')).2]
    rw [bitT_fst p e g c u u']

theorem bitT_cross (p q : BchExtentPtr) (e₁ e₂ : Bool) (g₁ g₂ : Bool)
    (c : BchFs) (u w : BchFsUsage) (hg : g₁ ≠ g₂) :
    bitT p e₁ g₁ ((bitT q e₂ g₂ (c, w)).1, u) =
      ((bitT q e₂ g₂ ((bitT p e₁ g₁ (c, u)).1, w)).1,
       (bitT p e₁ g₁ (c, u)).2) := by
  have hg' : g₂ ≠ g₁ := Ne.symm hg
  rw [bitT_normal q e₂ g₂ c w, bitT_normal p e₁ g₁ c u]
  simp only []
  rw [bitT_normal, bitT_normal]
  simp only [setBAU_bucket_read, setBAU_usage_read, fsBucketPot_setBAU,
    devBucketPot_setBAU, hg, hg', and_false, false_and, if_false, ite_false]
  refine Prod.ext ?_ rfl
  exact setBAU_cross c q.dev p.dev g₂ g₁ q.bucket p.bucket _ _ _ _ hg'

theorem bitStepFoldT_cross (L : List BchExtentPtr) (p : BchExtentPtr)
    (e₁ e₂ : Bool) (g₁ g₂ : Bool) (c : BchFs) (u w : BchFsUsage)
    (hg : g₁ ≠ g₂) :
    bitT p e₁ g₁ ((bitFoldT L e₂ g₂ (c, w)).1, u) =
      ((bitFoldT L e₂ g₂ ((bitT p e₁ g₁ (c, u)).1, w)).1,
       (bitT p e₁ g₁ (c, u)).2) := by
  induction L generalizing c u w with
  | nil => rfl
  | cons q rest ih =>
    simp only [bitFoldT]
    rw [show bitT q e₂ g₂ (c, w) =
        ((bitT q e₂ g₂ (c, w)).1, (bitT q e₂ g₂ (c, w)).2) from rfl]
    rw [ih]
    rw [bitT_cross p q e₁ e₂ g₁ g₂ c u w hg]
    refine Prod.ext ?_ rfl
    rw [show bitT q e₂ g₂ ((bitT p e₁ g₁ (c, u)).1, w)
        = ((bitT q e₂ g₂ ((bitT p e₁ g₁ (c, u)).1, w)).1,
           (bitT q e₂ g₂ ((bitT p e₁ g₁ (c, u)).1, w)).2) from rfl]
    exact bitFoldT_fst rest e₂ g₂ _ _ _

theorem bitFoldT_cross (L₁ L₂ : List BchExtentPtr) (e₁ e₂ : Bool)
    (g₁ g₂ : Bool) (c : BchFs) (u w : BchFsUsage) (hg : g₁ ≠ g₂) :
    bitFoldT L₁ e₁ g₁ ((bitFoldT L₂ e₂ g₂ (c, w)).1, u) =
      ((bitFoldT L₂ e₂ g₂ ((bitFoldT L₁ e₁ g₁ (c, u)).1, w)).1,
       (bitFoldT L₁ e₁ g₁ (c, u)).2) := by
  induction L₁ generalizing c u w with
  | nil => rfl
  | cons p rest ih =>
    simp only [bitFoldT]
    rw [bitStepFoldT_cross L₂ p e₁ e₂ g₁ g₂ c u w hg]
    rw [show bitT p e₁ g₁ (c, u) =
        ((bitT p e₁ g₁ (c, u)).1, (bitT p e₁ g₁ (c, u)).2) from rfl]
    exact ih _ _ _


theorem markExtentPtrs_append (pre rest : List ExtentPtrDecoded) (c : BchFs)
    (S : Int) (dt : BchDataType) (u : BchFsUsage) (j : Nat) (fl : MarkFlags)
    (gc : Bool) (a₀ : ExtentAcc) (c₁ : BchFs) (u₁ : BchFsUsage)
    (acc₁ : ExtentAcc)
    (hpre : markExtentPtrs c pre S dt u j fl gc a₀ = .ok (c₁, u₁, acc₁)) :
    markExtentPtrs c (pre ++ rest) S dt u j fl gc a₀ =
      markExtentPtrs c₁ rest S dt u₁ j fl gc acc₁ := by
  induction pre generalizing c u a₀ with
  | nil =>
    simp only [markExtentPtrs, CRes.ok.injEq, Prod.mk.injEq] at hpre
    obtain ⟨h1, h2, h3⟩ := hpre
    subst h1 h2 h3
    rfl
  | cons q qs ih =>
    simp only [List.cons_append]
    simp only [markExtentPtrs] at hpre ⊢
    rcases hds : (if dt = BchDataType.btree then some S
        else ptr_disk_sectors_delta q S) with _ | ds <;>
      simp only [hds] at hpre ⊢
    · exact CRes.noConfusion hpre
    rcases hmp : bch2_mark_pointer c q ds dt u j fl gc with _ | s <;>
      simp only [hmp] at hpre ⊢
    · exact CRes.noConfusion hpre
    obtain ⟨c', u'⟩ := s
    rcases hsr : (if !q.ptr.cached then
        markStripeRefs c' q.ec ds fl ds a₀.ec_redundancy gc
      else .ok (c', ds, a₀.ec_redundancy)) with r | r | _ <;>
      simp only [hsr] at hpre ⊢
    · obtain ⟨c'', adj'', red''⟩ := r
      exact ih _ _ _ hpre
    · exact CRes.noConfusion hpre
    · exact CRes.noConfusion hpre

theorem markStripeRefs_prefix_err (ecpre : List BchExtentStripePtr)
    (c : BchFs) (δ : Int) (fl : MarkFlags) (adj₀ : Int) (red₀ : Nat)
    (gc : Bool) (c' : BchFs) (adj : Int) (red : Nat)
    (e : BchExtentStripePtr) (ecpost : List BchExtentStripePtr)
    (hpre : markStripeRefs c ecpre δ fl adj₀ red₀ gc = .ok (c', adj, red))
    (hdead : ∀ m, c'.stripes gc e.idx = some m → m.alive = false) :
    markStripeRefs c (ecpre ++ e :: ecpost) δ fl adj₀ red₀ gc =
      .err (c', adj, red) := by
  induction ecpre generalizing c adj₀ red₀ with
  | nil =>
    simp only [markStripeRefs, CRes.ok.injEq, Prod.mk.injEq] at hpre
    obtain ⟨h1, h2, h3⟩ := hpre
    subst h1 h2 h3
    simp only [List.nil_append, markStripeRefs, bch2_mark_stripe_ptr]
    rcases hst : c.stripes gc e.idx with _ | m
    · rfl
    · simp only [hdead m hst, Bool.not_false, if_true, ite_true]
  | cons f fs ih =>
    simp only [List.cons_append]
    simp only [markStripeRefs] at hpre ⊢
    rcases hsp : bch2_mark_stripe_ptr c f δ fl adj₀ red₀ gc with r | r | _ <;>
      simp only [hsp] at hpre ⊢
    · obtain ⟨c'', adj'', red''⟩ := r
      exact ih _ _ _ hpre
    · exact CRes.noConfusion hpre
    · exact CRes.noConfusion hpre

/-- C3 amended: a stripe reference resolving to a missing or dead stripe
record makes the extent marking return an error, but the failed call is not
side-effect free: with the pointers before the failing one fully marked
(`hpre`), the failing pointer's own bucket marked (`hmp`) and its stripe
references before the failing one walked (`hecpre`), a failing reference
`e` (missing or dead, at any position) makes `bch2_mark_extent` return an
error carrying exactly that partially-mutated state — the buckets of the
pointers already processed, including the failing pointer's own bucket
(`c₃.devs = c₂.devs`: the ec walk does not touch bucket marks), keep their
new marks and usage deltas, and the pointers after the failing one were
never reached. -/
theorem mark_extent_dead_stripe_err (c c₁ c₂ c₃ : BchFs)
    (pre post : List ExtentPtrDecoded) (p : ExtentPtrDecoded)
    (sectors disk_sectors adj : Int) (dt : BchDataType)
    (u u₁ u₂ : BchFsUsage) (acc₁ : ExtentAcc) (red : Nat)
    (jseq : Nat) (flags : MarkFlags) (gc : Bool)
    (ecpre ecpost : List BchExtentStripePtr) (e : BchExtentStripePtr)
    (hsec : sectors ≠ 0)
    (hcached : p.ptr.cached = false)
    (hec : p.ec = ecpre ++ e :: ecpost)
    (hpre : markExtentPtrs c pre sectors dt u jseq flags gc ⟨0, 0, 0, 0, 0⟩ =
      .ok (c₁, u₁, acc₁))
    (hdisk : (if dt = BchDataType.btree then some sectors
              else ptr_disk_sectors_delta p sectors) = some disk_sectors)
    (hmp : bch2_mark_pointer c₁ p disk_sectors dt u₁ jseq flags gc =
      some (c₂, u₂))
    (hecpre : markStripeRefs c₂ ecpre disk_sectors flags disk_sectors
      acc₁.ec_redundancy gc = .ok (c₃, adj, red))
    (hdead : ∀ m, c₃.stripes gc e.idx = some m → m.alive = false) :
    bch2_mark_extent c (pre ++ p :: post) sectors dt u jseq flags gc =
      .err (c₃, u₂) ∧
    c₃.devs = c₂.devs := by
  constructor
  · unfold bch2_mark_extent
    rw [if_neg hsec]
    rw [markExtentPtrs_append pre (p :: post) c sectors dt u jseq flags gc
      ⟨0, 0, 0, 0, 0⟩ c₁ u₁ acc₁ hpre]
    simp only [markExtentPtrs, hdisk, hmp, hcached, Bool.not_false, ite_true,
      if_true]
    rw [hec, markStripeRefs_prefix_err ecpre c₂ disk_sectors flags disk_sectors
      acc₁.ec_redundancy gc c₃ adj red e ecpost hecpre hdead]
  · rw [← stripeRefs_agree ecpre c₂ disk_sectors flags disk_sectors
      acc₁.ec_redundancy gc c₃ adj red hecpre]
    exact stripeRefsT_devs ecpre c₂ disk_sectors gc

theorem mark_extent_dead_stripe_err_witness :
    (100 : Int) ≠ 0 ∧
    ptrEc3.ptr.cached = false ∧
    ptrEc3.ec = [⟨3, 0⟩] ++ (⟨7, 0⟩ : BchExtentStripePtr) :: [] ∧
    markExtentPtrs fsEc3 [ptrPre3] 100 BchDataType.user BchFsUsage.zero 0
      ⟨false, false⟩ false ⟨0, 0, 0, 0, 0⟩ =
      .ok (cx3Walk.1, cx3Walk.2.1, cx3Walk.2.2) ∧
    (if BchDataType.user = BchDataType.btree then some (100 : Int)
     else ptr_disk_sectors_delta ptrEc3 100) = some 100 ∧
    bch2_mark_pointer cx3Walk.1 ptrEc3 100 BchDataType.user cx3Walk.2.1 0
      ⟨false, false⟩ false = some (cx3Mp2.1, cx3Mp2.2) ∧
    markStripeRefs cx3Mp2.1 [⟨3, 0⟩] 100 ⟨false, false⟩ 100
      cx3Walk.2.2.ec_redundancy false =
      .ok (cx3Refs.1, cx3Refs.2.1, cx3Refs.2.2) ∧
    (∀ m, cx3Refs.1.stripes false (7 : Nat) = some m → m.alive = false) ∧
    (bch2_mark_extent fsEc3 ([ptrPre3] ++ ptrEc3 :: [ptrPost3]) 100
        BchDataType.user BchFsUsage.zero 0 ⟨false, false⟩ false =
      .err (cx3Refs.1, cx3Mp2.2) ∧
     cx3Refs.1.devs = cx3Mp2.1.devs) :=
  ⟨by decide, by decide, by decide, by rfl, by decide, by rfl, by rfl,
    fun m hm => Option.noConfusion hm,
    mark_extent_dead_stripe_err fsEc3 cx3Walk.1 cx3Mp2.1 cx3Refs.1
      [ptrPre3] [ptrPost3] ptrEc3 100 100 cx3Refs.2.1 BchDataType.user
      BchFsUsage.zero cx3Walk.2.1 cx3Mp2.2 cx3Walk.2.2 cx3Refs.2.2 0
      ⟨false, false⟩ false [⟨3, 0⟩] [] ⟨7, 0⟩
      (by decide) (by decide) (by decide) (by rfl) (by decide) (by rfl)
      (by rfl) (fun m hm => Option.noConfusion hm)⟩



theorem stripe_ptr_usage (c : BchFs) (e : BchExtentStripePtr) (s : Int)
    (fl : MarkFlags) (adj : Int) (red : Nat) (gc : Bool) (c' : BchFs)
    (r : Int × Nat)
    (h : bch2_mark_stripe_ptr c e s fl adj red gc = .ok (c', r)) :
    c'.usage = c.usage := by
  unfold bch2_mark_stripe_ptr at h
  rcases hst : c.stripes gc e.idx with _ | m <;> simp only [hst] at h
  · exact CRes.noConfusion h
  split at h
  · exact CRes.noConfusion h
  split at h
  · simp only [CRes.ok.injEq, Prod.mk.injEq] at h
    rw [← h.1]
    exact setStripe_usage c gc e.idx _
  · split at h
    · exact CRes.noConfusion h
    · simp only [CRes.ok.injEq, Prod.mk.injEq] at h
      rw [← h.1]
      exact setStripe_usage c gc e.idx _

theorem refs_usage (ecl : List BchExtentStripePtr) (c : BchFs) (s : Int)
    (fl : MarkFlags) (adj : Int) (red : Nat) (gc : Bool) (c' : BchFs)
    (r : Int × Nat)
    (h : markStripeRefs c ecl s fl adj red gc = .ok (c', r)) :
    c'.usage = c.usage := by
  induction ecl generalizing c adj red with
  | nil =>
    simp only [markStripeRefs, CRes.ok.injEq, Prod.mk.injEq] at h
    rw [← h.1]
  | cons e rest ih =>
    simp only [markStripeRefs] at h
    rcases hsp : bch2_mark_stripe_ptr c e s fl adj red gc with q | q | _ <;>
      simp only [hsp] at h
    · obtain ⟨c'', adj'', red''⟩ := q
      rw [ih _ _ _ h]
      exact stripe_ptr_usage c e s fl adj red gc c'' (adj'', red'') hsp
    · exact CRes.noConfusion h
    · exact CRes.noConfusion h

theorem extentPtrs_usage (ptrs : List ExtentPtrDecoded) (c : BchFs) (S : Int)
    (dt : BchDataType) (u : BchFsUsage) (j : Nat) (fl : MarkFlags) (gc : Bool)
    (acc : ExtentAcc) (c' : BchFs) (r : BchFsUsage × ExtentAcc)
    (h : markExtentPtrs c ptrs S dt u j fl gc acc = .ok (c', r)) :
    c'.usage = c.usage := by
  induction ptrs generalizing c u acc with
  | nil =>
    simp only [markExtentPtrs, CRes.ok.injEq, Prod.mk.injEq] at h
    rw [← h.1]
  | cons p rest ih =>
    simp only [markExtentPtrs] at h
    rcases hds : (if dt = BchDataType.btree then some S
        else ptr_disk_sectors_delta p S) with _ | ds <;>
      simp only [hds] at h
    · exact CRes.noConfusion h
    rcases hmp : bch2_mark_pointer c p ds dt u j fl gc with _ | s <;>
      simp only [hmp] at h
    · exact CRes.noConfusion h
    obtain ⟨cm, um⟩ := s
    rcases hsr : (if !p.ptr.cached then
        markStripeRefs cm p.ec ds fl ds acc.ec_redundancy gc
      else .ok (cm, ds, acc.ec_redundancy)) with q | q | _ <;>
      simp only [hsr] at h
    · obtain ⟨cs, adjs, reds⟩ := q
      rw [ih _ _ _ h]
      have hmu := (mark_pointer_preserves c p ds dt u j fl gc cm um hmp).2.1
      by_cases hc : (!p.ptr.cached) = true
      · rw [if_pos hc] at hsr
        rw [refs_usage p.ec cm ds fl ds acc.ec_redundancy gc cs
          (adjs, reds) hsr, hmu]
      · rw [if_neg hc] at hsr
        simp only [CRes.ok.injEq, Prod.mk.injEq] at hsr
        rw [← hsr.1, hmu]
    · exact CRes.noConfusion h
    · exact CRes.noConfusion h

theorem mark_extent_usage (c : BchFs) (ptrs : List ExtentPtrDecoded) (S : Int)
    (dt : BchDataType) (u : BchFsUsage) (j : Nat) (fl : MarkFlags) (gc : Bool)
    (c' : BchFs) (u' : BchFsUsage)
    (h : bch2_mark_extent c ptrs S dt u j fl gc = .ok (c', u')) :
    c'.usage = c.usage := by
  unfold bch2_mark_extent at h
  split at h
  · exact CRes.noConfusion h
  rcases hf : markExtentPtrs c ptrs S dt u j fl gc ⟨0, 0, 0, 0, 0⟩
      with s | s | _ <;> simp only [hf] at h
  · obtain ⟨cf, uf, accf⟩ := s
    simp only [CRes.ok.injEq, Prod.mk.injEq] at h
    rw [← h.1]
    exact extentPtrs_usage ptrs c S dt u j fl gc ⟨0, 0, 0, 0, 0⟩ cf
      (uf, accf) hf
  · exact CRes.noConfusion h
  · exact CRes.noConfusion h

theorem bucket_set_stripe_usage_const (ptrs : List BchExtentPtr) (c : BchFs)
    (en : Bool) (u : BchFsUsage) (j : Nat) (gc : Bool) (c' : BchFs)
    (u' : BchFsUsage)
    (h : bucket_set_stripe c ptrs en u j gc = some (c', u')) :
    c'.usage = c.usage := by
  induction ptrs generalizing c u with
  | nil =>
    simp only [bucket_set_stripe, Option.some.injEq, Prod.mk.injEq] at h
    rw [← h.1]
  | cons ptr rest ih =>
    unfold bucket_set_stripe at h
    cases hga : gen_after ((c.devs ptr.dev).buckets false ptr.bucket).gen
        ptr.gen <;>
      simp only [hga, Bool.false_eq_true, if_false, if_true, ite_true,
        ite_false] at h
    case true => exact Option.noConfusion h
    case false =>
      repeat' split at h
      all_goals try exact Option.noConfusion h
      all_goals rw [ih _ _ h]
      all_goals exact setBAU_usage c ptr.dev gc ptr.bucket _ _

theorem mark_stripe_usage (c : BchFs) (idx : Nat) (v : BchStripeVal)
    (ins : Bool) (u : BchFsUsage) (j : Nat) (fl : MarkFlags) (gc : Bool)
    (c' : BchFs) (u' : BchFsUsage)
    (h : bch2_mark_stripe c idx v ins u j fl gc = .ok (c', u')) :
    c'.usage = c.usage := by
  unfold bch2_mark_stripe at h
  rcases hst : c.stripes gc idx with _ | m <;> simp only [hst] at h
  · exact CRes.noConfusion h
  · repeat' split at h
    all_goals try exact CRes.noConfusion h
    all_goals simp only [CRes.ok.injEq, Prod.mk.injEq] at h
    all_goals obtain ⟨hc', -⟩ := h
    all_goals subst hc'
    all_goals
      exact (bucket_set_stripe_usage_const _ _ _ _ _ _ _ _
        (by assumption)).trans (setStripe_usage c gc idx _)

theorem mark_key_inner_usage (c : BchFs) (k : BkeyVal) (ins : Bool) (s : Int)
    (u : BchFsUsage) (j : Nat) (fl : MarkFlags) (gc : Bool) (c' : BchFs)
    (u' : BchFsUsage)
    (h : __bch2_mark_key c k ins s u j fl gc = .ok (c', u')) :
    c'.usage = c.usage := by
  cases k with
  | btree_ptr ptrs => exact mark_extent_usage c ptrs _ _ u j fl gc c' u' h
  | extent ptrs => exact mark_extent_usage c ptrs _ _ u j fl gc c' u' h
  | stripe idx v => exact mark_stripe_usage c idx v ins u j fl gc c' u' h
  | alloc =>
    simp only [__bch2_mark_key, CRes.ok.injEq, Prod.mk.injEq] at h
    rw [← h.1]
  | reservation nr =>
    simp only [__bch2_mark_key, CRes.ok.injEq, Prod.mk.injEq] at h
    rw [← h.1]
  | other =>
    simp only [__bch2_mark_key, CRes.ok.injEq, Prod.mk.injEq] at h
    rw [← h.1]



theorem mark_extent_cross_roundtrip (c : BchFs) (ptrs : List ExtentPtrDecoded)
    (S : Int) (dt : BchDataType) (u w : BchFsUsage) (fl : MarkFlags)
    (cA cB cC cD : BchFs) (uA uB uC uD : BchFsUsage)
    (hcomp : ∀ p ∈ ptrs, p.crc.compression_type = 0)
    (hokF : ∀ p ∈ ptrs,
      PtrOk ((c.devs p.ptr.dev).buckets false p.ptr.bucket) dt)
    (hokT : ∀ p ∈ ptrs,
      PtrOk ((c.devs p.ptr.dev).buckets true p.ptr.bucket) dt)
    (hA : bch2_mark_extent c ptrs S dt u 0 fl false = .ok (cA, uA))
    (hB : bch2_mark_extent cA ptrs S dt w 0 fl true = .ok (cB, uB))
    (hC : bch2_mark_extent cB ptrs (-S) dt uA 0 fl false = .ok (cC, uC))
    (hD : bch2_mark_extent cC ptrs (-S) dt uB 0 fl true = .ok (cD, uD)) :
    cD = c ∧ uC = u ∧ uD = w := by
  have hS : ¬(S = 0) := by
    intro hz
    rw [hz] at hA
    unfold bch2_mark_extent at hA
    rw [if_pos rfl] at hA
    exact CRes.noConfusion hA
  have hS' : ¬(-S = 0) := fun hz => hS (by omega)
  have hgne : (false : Bool) ≠ true := by decide
  have hgne' : (true : Bool) ≠ false := by decide
  -- destructure the four pointer walks
  have hA' := hA
  have hB' := hB
  have hC' := hC
  have hD' := hD
  unfold bch2_mark_extent at hA' hB' hC' hD'
  rw [if_neg hS] at hA' hB'
  rw [if_neg hS'] at hC' hD'
  rcases hfA : markExtentPtrs c ptrs S dt u 0 fl false ⟨0, 0, 0, 0, 0⟩
      with s | s | _ <;> simp only [hfA] at hA'
  case err => exact CRes.noConfusion hA'
  case trap => exact CRes.noConfusion hA'
  obtain ⟨cA', uA', accA⟩ := s
  rcases hfB : markExtentPtrs cA ptrs S dt w 0 fl true ⟨0, 0, 0, 0, 0⟩
      with s | s | _ <;> simp only [hfB] at hB'
  case err => exact CRes.noConfusion hB'
  case trap => exact CRes.noConfusion hB'
  obtain ⟨cB', uB', accB⟩ := s
  rcases hfC : markExtentPtrs cB ptrs (-S) dt uA 0 fl false ⟨0, 0, 0, 0, 0⟩
      with s | s | _ <;> simp only [hfC] at hC'
  case err => exact CRes.noConfusion hC'
  case trap => exact CRes.noConfusion hC'
  obtain ⟨cC', uC', accC⟩ := s
  rcases hfD : markExtentPtrs cC ptrs (-S) dt uB 0 fl true ⟨0, 0, 0, 0, 0⟩
      with s | s | _ <;> simp only [hfD] at hD'
  case err => exact CRes.noConfusion hD'
  case trap => exact CRes.noConfusion hD'
  obtain ⟨cD', uD', accD⟩ := s
  clear hA' hB' hC' hD'
  have eA := mark_extent_ok_eq c ptrs S dt u 0 fl false cA' uA' accA hS hfA
  have eB := mark_extent_ok_eq cA ptrs S dt w 0 fl true cB' uB' accB hS hfB
  have eC := mark_extent_ok_eq cB ptrs (-S) dt uA 0 fl false cC' uC' accC hS' hfC
  have eD := mark_extent_ok_eq cC ptrs (-S) dt uB 0 fl true cD' uD' accD hS' hfD
  rw [hA] at eA
  rw [hB] at eB
  rw [hC] at eC
  rw [hD] at eD
  simp only [CRes.ok.injEq, Prod.mk.injEq] at eA eB eC eD
  obtain ⟨hcA, huA⟩ := eA
  obtain ⟨hcB, huB⟩ := eB
  obtain ⟨hcC, huC⟩ := eC
  obtain ⟨hcD, huD⟩ := eD
  -- total-fold equations
  have AgA := extentPtrs_agree ptrs c S dt u 0 fl false ⟨0, 0, 0, 0, 0⟩
    cA' uA' accA hfA
  have AgB := extentPtrs_agree ptrs cA S dt w 0 fl true ⟨0, 0, 0, 0, 0⟩
    cB' uB' accB hfB
  have AgC := extentPtrs_agree ptrs cB (-S) dt uA 0 fl false ⟨0, 0, 0, 0, 0⟩
    cC' uC' accC hfC
  have AgD := extentPtrs_agree ptrs cC (-S) dt uB 0 fl true ⟨0, 0, 0, 0, 0⟩
    cD' uD' accD hfD
  have AgC₀ := AgC
  have hdef₁ := extentPtrs_deltas_defined ptrs c S dt u 0 fl false
    ⟨0, 0, 0, 0, 0⟩ _ hfA
  have hdef₂ := extentPtrs_deltas_defined ptrs cB (-S) dt uA 0 fl false
    ⟨0, 0, 0, 0, 0⟩ _ hfC
  have hLneg := list_deltas_neg ptrs S dt hcomp hdef₁ hdef₂
  rw [hLneg] at AgC AgD
  -- mapped PtrOk
  have hokLF : ∀ pd ∈ ptrs.map (fun p => (p, (deltaOf dt S p).getD 0)),
      PtrOk ((c.devs pd.1.ptr.dev).buckets false pd.1.ptr.bucket) dt := by
    intro pd hpd
    obtain ⟨p, hp, hpe⟩ := List.mem_map.mp hpd
    rw [← hpe]
    exact hokF p hp
  have hokLT : ∀ pd ∈ ptrs.map (fun p => (p, (deltaOf dt S p).getD 0)),
      PtrOk ((c.devs pd.1.ptr.dev).buckets true pd.1.ptr.bucket) dt := by
    intro pd hpd
    obtain ⟨p, hp, hpe⟩ := List.mem_map.mp hpd
    rw [← hpe]
    exact hokT p hp
  have RTF := extentFoldT_rt (ptrs.map (fun p => (p, (deltaOf dt S p).getD 0)))
    dt false (c, u) hokLF
  have RTT := extentFoldT_rt (ptrs.map (fun p => (p, (deltaOf dt S p).getD 0)))
    dt true (c, w) hokLT
  rw [AgA] at RTF
  -- the C fold through the cross commutation
  have hcB1 : (extentFoldT (ptrs.map (fun p => (p, (deltaOf dt S p).getD 0)))
      dt 0 true (cA', w)).1 = cB' := by rw [← hcA, AgB]
  rw [hcB, ← hcB1] at AgC
  rw [extentFoldT_cross _ _ dt dt false true cA' uA w hgne] at AgC
  have hX : extentFoldT ((ptrs.map (fun p => (p, (deltaOf dt S p).getD 0))).map
      (fun pd => (pd.1, -pd.2))) dt 0 false (cA', uA) = (c, u.add
        (aggUsage dt (min (max accA.replicas 1) BCH_REPLICAS_MAX)
          (min (max accA.ec_redundancy 1) BCH_REPLICAS_MAX) accA)) := by
    rw [huA, extentFoldT_shift, RTF]
  rw [hX] at AgC
  dsimp only at AgC
  simp only [Prod.mk.injEq] at AgC
  obtain ⟨hcC1, huC1⟩ := AgC
  -- usage stability of the insert gc fold
  have hstab := extentFoldT_cross (ptrs.map (fun p => (p, (deltaOf dt S p).getD 0)))
    (ptrs.map (fun p => (p, (deltaOf dt S p).getD 0))) dt dt true false c w u hgne'
  rw [AgA] at hstab
  have huB1 : (extentFoldT (ptrs.map (fun p => (p, (deltaOf dt S p).getD 0)))
      dt 0 true (cA', w)).2 =
      (extentFoldT (ptrs.map (fun p => (p, (deltaOf dt S p).getD 0)))
      dt 0 true (c, w)).2 := by
    have := congrArg Prod.snd hstab
    dsimp only at this
    exact this
  -- the D fold
  have huB0 : (extentFoldT (ptrs.map (fun p => (p, (deltaOf dt S p).getD 0)))
      dt 0 true (cA', w)).2 = uB' := by
    rw [← hcA, AgB]
  have huB2 : uB' = (extentFoldT (ptrs.map (fun p => (p, (deltaOf dt S p).getD 0)))
      dt 0 true (c, w)).2 := by
    rw [← huB1, huB0]
  rw [hcC, ← hcC1] at AgD
  have hY : extentFoldT ((ptrs.map (fun p => (p, (deltaOf dt S p).getD 0))).map
      (fun pd => (pd.1, -pd.2))) dt 0 true
      ((extentFoldT (ptrs.map (fun p => (p, (deltaOf dt S p).getD 0))) dt 0
        true (c, w)).1, uB) = (c, w.add
        (aggUsage dt (min (max accB.replicas 1) BCH_REPLICAS_MAX)
          (min (max accB.ec_redundancy 1) BCH_REPLICAS_MAX) accB)) := by
    rw [huB, huB2, extentFoldT_shift]
    rw [show ((extentFoldT (ptrs.map (fun p => (p, (deltaOf dt S p).getD 0)))
        dt 0 true (c, w)).1,
        (extentFoldT (ptrs.map (fun p => (p, (deltaOf dt S p).getD 0)))
        dt 0 true (c, w)).2) =
        extentFoldT (ptrs.map (fun p => (p, (deltaOf dt S p).getD 0)))
        dt 0 true (c, w) from rfl]
    rw [RTT]
  rw [hY] at AgD
  simp only [Prod.mk.injEq] at AgD
  obtain ⟨hcD1, huD1⟩ := AgD
  -- accumulator negation for the two shards
  have hspF : SParamsEq c cB := by
    have h1 : SParamsEq c cA' := by
      have := extentFoldT_sparams (ptrs.map (fun p => (p, (deltaOf dt S p).getD 0)))
        dt 0 false (c, u)
      rw [AgA] at this
      exact this
    have h2 : SParamsEq cA' cB' := by
      have := extentFoldT_sparams (ptrs.map (fun p => (p, (deltaOf dt S p).getD 0)))
        dt 0 true (cA', w)
      rw [hcB1] at this
      exact this
    rw [hcB]
    exact SParamsEq.strans _ _ _ h1 h2
  have hspT : SParamsEq cA cC := by
    have h2 : SParamsEq cB cC' := by
      have hsp2 := extentFoldT_sparams
        (ptrs.map (fun p => (p, (deltaOf dt (-S) p).getD 0))) dt 0 false
        (cB, uA)
      rw [AgC₀] at hsp2
      exact hsp2
    have h1 : SParamsEq cA cB := by
      have hsp1 := extentFoldT_sparams
        (ptrs.map (fun p => (p, (deltaOf dt S p).getD 0))) dt 0 true (cA, w)
      rw [AgB] at hsp1
      rw [hcB]
      exact hsp1
    rw [hcC]
    exact SParamsEq.strans _ _ _ h1 h2
  have hab0 : AccNegRel ⟨0, 0, 0, 0, 0⟩ ⟨0, 0, 0, 0, 0⟩ := by
    unfold AccNegRel
    norm_num
  have hrelF : AccNegRel accA accC :=
    fold_acc_neg ptrs c cB S dt u uA 0 0 fl false ⟨0, 0, 0, 0, 0⟩
      ⟨0, 0, 0, 0, 0⟩ cA' cC' uA' uC' accA accC hspF hab0 hcomp hfA hfC
  have hrelT : AccNegRel accB accD :=
    fold_acc_neg ptrs cA cC S dt w uB 0 0 fl true ⟨0, 0, 0, 0, 0⟩
      ⟨0, 0, 0, 0, 0⟩ cB' cD' uB' uD' accB accD hspT hab0 hcomp hfB hfD
  refine ⟨?_, ?_, ?_⟩
  · rw [hcD, ← hcD1]
  · rw [huC, ← huC1, hrelF.2.2.2.1, hrelF.2.2.2.2]
    exact agg_cancel u dt _ _ accA accC hrelF
  · rw [huD, ← huD1, hrelT.2.2.2.1, hrelT.2.2.2.2]
    exact agg_cancel w dt _ _ accB accD hrelT



theorem mark_stripe_cross_roundtrip (c : BchFs) (idx : Nat) (v : BchStripeVal)
    (u w : BchFsUsage) (fl : MarkFlags) (cA cB cC cD : BchFs)
    (uA uB uC uD : BchFsUsage)
    (hA : bch2_mark_stripe c idx v true u 0 fl false = .ok (cA, uA))
    (hB : bch2_mark_stripe cA idx v true w 0 fl true = .ok (cB, uB))
    (hC : bch2_mark_stripe cB idx v false uA 0 fl false = .ok (cC, uC))
    (hD : bch2_mark_stripe cC idx v false uB 0 fl true = .ok (cD, uD)) :
    cD = { c with stripes := cD.stripes } ∧ uC = u ∧ uD = w := by
  -- ### live insert (A)
  unfold bch2_mark_stripe at hA
  rcases hm₀f : c.stripes false idx with _ | m₀f
  · rw [hm₀f] at hA
    exact CRes.noConfusion hA
  rw [hm₀f] at hA
  simp only [Bool.not_true, Bool.false_and, Bool.true_and, if_false,
    ite_false, if_true, ite_true] at hA
  by_cases haf : m₀f.alive
  · rw [if_pos haf] at hA
    exact CRes.noConfusion hA
  rw [if_neg haf] at hA
  by_cases hbnf : m₀f.blocks_nonempty ≠ 0
  · rw [if_pos hbnf] at hA
    exact CRes.noConfusion hA
  rw [if_neg hbnf] at hA
  by_cases hbsf : (List.range EC_STRIPE_MAX).any (fun i => m₀f.block_sectors i ≠ 0)
  · rw [if_pos hbsf] at hA
    exact CRes.noConfusion hA
  rw [if_neg hbsf] at hA
  rcases hinsA : bucket_set_stripe
      (c.setStripe false idx
        { m₀f with sectors := v.sectors, algorithm := v.algorithm,
                   nr_blocks := v.ptrs.length, nr_redundant := v.nr_redundant,
                   alive := true })
      v.ptrs true u 0 false with _ | rA
  · rw [hinsA] at hA
    exact CRes.noConfusion hA
  rw [hinsA] at hA
  have hrA : rA = (cA, uA) := CRes.ok.inj hA
  subst hrA
  have hoffA := bucket_set_stripe_offshard v.ptrs _ true u 0 false cA uA hinsA
  have hagA := bucket_set_stripe_agree v.ptrs _ true u false cA uA hinsA
  obtain ⟨hbitsA, hpw⟩ := bucket_set_stripe_insert_facts v.ptrs _ u false _ hinsA
  have hbitsF : ∀ p ∈ v.ptrs,
      ((c.devs p.dev).buckets false p.bucket).stripe = false := by
    intro p hp
    have := hbitsA p hp
    rw [setStripe_devs] at this
    exact this
  rw [bitFoldT_setStripe] at hagA
  injection hagA with hA1 hA2
  generalize hM₁f : ({ m₀f with sectors := v.sectors, algorithm := v.algorithm, nr_blocks := v.ptrs.length, nr_redundant := v.nr_redundant, alive := true } : Stripe) = M₁f at hA1
  -- ### gc insert (B)
  unfold bch2_mark_stripe at hB
  rcases hm₀t : cA.stripes true idx with _ | m₀t
  · rw [hm₀t] at hB
    exact CRes.noConfusion hB
  rw [hm₀t] at hB
  simp only [Bool.not_true, Bool.false_and, Bool.true_and, if_false,
    ite_false, if_true, ite_true] at hB
  by_cases hat : m₀t.alive
  · rw [if_pos hat] at hB
    exact CRes.noConfusion hB
  rw [if_neg hat] at hB
  by_cases hbnt : m₀t.blocks_nonempty ≠ 0
  · rw [if_pos hbnt] at hB
    exact CRes.noConfusion hB
  rw [if_neg hbnt] at hB
  by_cases hbst : (List.range EC_STRIPE_MAX).any (fun i => m₀t.block_sectors i ≠ 0)
  · rw [if_pos hbst] at hB
    exact CRes.noConfusion hB
  rw [if_neg hbst] at hB
  rcases hinsB : bucket_set_stripe
      (cA.setStripe true idx
        { m₀t with sectors := v.sectors, algorithm := v.algorithm,
                   nr_blocks := v.ptrs.length, nr_redundant := v.nr_redundant,
                   alive := true })
      v.ptrs true w 0 true with _ | rB
  · rw [hinsB] at hB
    exact CRes.noConfusion hB
  rw [hinsB] at hB
  have hrB : rB = (cB, uB) := CRes.ok.inj hB
  subst hrB
  have hagB := bucket_set_stripe_agree v.ptrs _ true w true cB uB hinsB
  obtain ⟨hbitsB, -⟩ := bucket_set_stripe_insert_facts v.ptrs _ w true _ hinsB
  have hbitsT : ∀ p ∈ v.ptrs,
      ((c.devs p.dev).buckets true p.bucket).stripe = false := by
    intro p hp
    have h1 := hbitsB p hp
    rw [setStripe_devs] at h1
    have h2 : (cA.devs p.dev).buckets true p.bucket =
        ((c.setStripe false idx
          { m₀f with sectors := v.sectors, algorithm := v.algorithm,
                     nr_blocks := v.ptrs.length,
                     nr_redundant := v.nr_redundant,
                     alive := true }).devs p.dev).buckets true p.bucket :=
      hoffA.1 p.dev p.bucket
    rw [setStripe_devs] at h2
    rw [h2] at h1
    exact h1
  rw [bitFoldT_setStripe] at hagB
  injection hagB with hB1 hB2
  generalize hM₁t : ({ m₀t with sectors := v.sectors, algorithm := v.algorithm, nr_blocks := v.ptrs.length, nr_redundant := v.nr_redundant, alive := true } : Stripe) = M₁t at hB1
  have halt : M₁t.alive = true := by rw [← hM₁t]
  have hbnMt : M₁t.blocks_nonempty = m₀t.blocks_nonempty := by rw [← hM₁t]
  have hbsMt : M₁t.block_sectors = m₀t.block_sectors := by rw [← hM₁t]
  have half : M₁f.alive = true := by rw [← hM₁f]
  have hbnMf : M₁f.blocks_nonempty = m₀f.blocks_nonempty := by rw [← hM₁f]
  have hbsMf : M₁f.block_sectors = m₀f.block_sectors := by rw [← hM₁f]
  -- ### live delete (C)
  have hmCf : cB.stripes false idx = some M₁f := by
    rw [← hB1, setStripe_read, if_neg (fun hq => Bool.noConfusion hq.1),
      bitFoldT_stripes]
    rw [← hA1, setStripe_read, if_pos ⟨rfl, rfl⟩]
  unfold bch2_mark_stripe at hC
  rw [hmCf] at hC
  simp only [half, Bool.not_false, Bool.not_true, Bool.true_and,
    Bool.false_and, Bool.and_false, Bool.false_eq_true, if_false, ite_false,
    if_true, ite_true] at hC
  have hbnf' : ¬(M₁f.blocks_nonempty ≠ 0) := by rw [hbnMf]; exact hbnf
  have hbsf' : ¬((List.range EC_STRIPE_MAX).any
      (fun i => M₁f.block_sectors i ≠ 0) = true) := by rw [hbsMf]; exact hbsf
  rw [if_neg hbnf', if_neg hbsf'] at hC
  rcases hdelC : bucket_set_stripe
      (cB.setStripe false idx { M₁f with alive := false })
      v.ptrs false uA 0 false with _ | rC
  · rw [hdelC] at hC
    exact CRes.noConfusion hC
  rw [hdelC] at hC
  have hrC : rC = (cC, uC) := CRes.ok.inj hC
  subst hrC
  have hagC := bucket_set_stripe_agree v.ptrs _ false uA false cC uC hdelC
  -- ### gc delete (D)
  have hmDt : cC.stripes true idx = some M₁t := by
    have hstC : cC.stripes = (cB.setStripe false idx
        { M₁f with alive := false }).stripes := by
      have h' := congrArg Prod.fst hagC
      dsimp only at h'
      rw [← h', bitFoldT_stripes]
    rw [hstC, setStripe_read, if_neg (fun hq => Bool.noConfusion hq.1)]
    rw [← hB1, setStripe_read, if_pos ⟨rfl, rfl⟩]
  unfold bch2_mark_stripe at hD
  rw [hmDt] at hD
  simp only [halt, Bool.not_false, Bool.not_true, Bool.true_and,
    Bool.false_and, Bool.and_false, Bool.false_eq_true, if_false, ite_false,
    if_true, ite_true] at hD
  have hbnt' : ¬(M₁t.blocks_nonempty ≠ 0) := by rw [hbnMt]; exact hbnt
  have hbst' : ¬((List.range EC_STRIPE_MAX).any
      (fun i => M₁t.block_sectors i ≠ 0) = true) := by rw [hbsMt]; exact hbst
  rw [if_neg hbnt', if_neg hbst'] at hD
  rcases hdelD : bucket_set_stripe
      (cC.setStripe true idx { M₁t with alive := false })
      v.ptrs false uB 0 true with _ | rD
  · rw [hdelD] at hD
    exact CRes.noConfusion hD
  rw [hdelD] at hD
  have hrD : rD = (cD, uD) := CRes.ok.inj hD
  subst hrD
  have hagD := bucket_set_stripe_agree v.ptrs _ false uB true cD uD hdelD
  -- ### algebra: collapse everything to folds at c
  have hgne : (false : Bool) ≠ true := by decide
  have hgne' : (true : Bool) ≠ false := by decide
  -- bitFoldT false false (cA, uA) = (c.setStripe false idx M₁f, u)
  have hRTF := bitFoldT_rt v.ptrs false c u hpw hbitsF
  have hcAeq : cA = (bitFoldT v.ptrs true false (c, u)).1.setStripe false idx
      M₁f := hA1.symm
  have huAeq : uA = (bitFoldT v.ptrs true false (c, u)).2 := hA2.symm
  have hfoldA : bitFoldT v.ptrs false false (cA, uA) =
      (c.setStripe false idx M₁f, u) := by
    rw [hcAeq, huAeq, bitFoldT_setStripe]
    rw [show ((bitFoldT v.ptrs true false (c, u)).1,
        (bitFoldT v.ptrs true false (c, u)).2) =
        bitFoldT v.ptrs true false (c, u) from rfl]
    rw [hRTF]
  -- uB equals the usage of the gc insert fold taken at c
  have s1 : (bitFoldT v.ptrs true true (cA, w)).2 =
      (bitFoldT v.ptrs true true ((bitFoldT v.ptrs true false (c, u)).1,
        w)).2 := by
    rw [hcAeq, bitFoldT_setStripe]
  have s3 := congrArg Prod.snd
    (bitFoldT_cross v.ptrs v.ptrs true true true false c w u hgne')
  dsimp only at s3
  have huBeq : uB = (bitFoldT v.ptrs true true (c, w)).2 :=
    hB2.symm.trans (s1.trans s3)
  -- ### collapse the live delete (C)
  have s4 : cB.setStripe false idx { M₁f with alive := false } =
      ((bitFoldT v.ptrs true true (cA, w)).1.setStripe false idx
        { M₁f with alive := false }).setStripe true idx M₁t := by
    rw [← hB1, setStripe_cross _ true false idx idx _ _ hgne']
  rw [s4, bitFoldT_setStripe] at hagC
  rw [show ((bitFoldT v.ptrs true true (cA, w)).1.setStripe false idx
      { M₁f with alive := false }) =
      ((bitFoldT v.ptrs true true (cA, w)).1.setStripe false idx
      { M₁f with alive := false }) from rfl] at hagC
  rw [bitFoldT_setStripe] at hagC
  rw [bitFoldT_cross v.ptrs v.ptrs false true false true cA uA w hgne] at hagC
  rw [hfoldA] at hagC
  dsimp only at hagC
  rw [bitFoldT_setStripe] at hagC
  rw [setStripe_absorb] at hagC
  injection hagC with hC1 hC2
  -- ### collapse the gc delete (D)
  have s8 : cC.setStripe true idx { M₁t with alive := false } =
      ((bitFoldT v.ptrs true true (c, w)).1.setStripe false idx
        { M₁f with alive := false }).setStripe true idx
        { M₁t with alive := false } := by
    rw [← hC1, setStripe_absorb]
  rw [s8, bitFoldT_setStripe] at hagD
  rw [show ((bitFoldT v.ptrs true true (c, w)).1.setStripe false idx
      { M₁f with alive := false }) =
      ((bitFoldT v.ptrs true true (c, w)).1.setStripe false idx
      { M₁f with alive := false }) from rfl] at hagD
  rw [bitFoldT_setStripe] at hagD
  rw [huBeq] at hagD
  rw [show ((bitFoldT v.ptrs true true (c, w)).1,
      (bitFoldT v.ptrs true true (c, w)).2) =
      bitFoldT v.ptrs true true (c, w) from rfl] at hagD
  rw [bitFoldT_rt v.ptrs true c w hpw hbitsT] at hagD
  dsimp only at hagD
  injection hagD with hD1 hD2
  refine ⟨?_, hC2.symm, hD2.symm⟩
  rw [← hD1]
  rfl



theorem mark_key_inner_cross_roundtrip (c : BchFs) (k : BkeyVal) (S : Int)
    (u w : BchFsUsage) (fl : MarkFlags) (cA cB cC cD : BchFs)
    (uA uB uC uD : BchFsUsage)
    (hkF : KeyRTOk c k false) (hkT : KeyRTOk c k true)
    (hA : __bch2_mark_key c k true S u 0 fl false = .ok (cA, uA))
    (hB : __bch2_mark_key cA k true S w 0 fl true = .ok (cB, uB))
    (hC : __bch2_mark_key cB k false (-S) uA 0 fl false = .ok (cC, uC))
    (hD : __bch2_mark_key cC k false (-S) uB 0 fl true = .ok (cD, uD)) :
    cD = { c with stripes := cD.stripes } ∧ uC = u ∧ uD = w := by
  cases k with
  | extent ptrs =>
    unfold __bch2_mark_key at hA hB hC hD
    dsimp only at hA hB hC hD
    obtain ⟨hcD, huC, huD⟩ := mark_extent_cross_roundtrip c ptrs S
      BchDataType.user u w fl cA cB cC cD uA uB uC uD hkF.1 hkF.2 hkT.2
      hA hB hC hD
    subst hcD
    exact ⟨rfl, huC, huD⟩
  | btree_ptr ptrs =>
    unfold __bch2_mark_key at hA hB hC hD
    dsimp only at hA hB hC hD
    rw [if_pos rfl] at hA hB
    rw [if_neg (show ¬((false : Bool) = true) by decide)] at hC hD
    obtain ⟨-, -, -, -, -, -, -, -, -, hbnsA, -⟩ :=
      mark_extent_offshard c ptrs (c.btree_node_size : Int) BchDataType.btree
        u 0 fl false cA uA (Or.inl hA)
    rw [hbnsA] at hB
    obtain ⟨-, -, -, -, -, -, -, -, -, hbnsB, -⟩ :=
      mark_extent_offshard cA ptrs (c.btree_node_size : Int) BchDataType.btree
        w 0 fl true cB uB (Or.inl hB)
    rw [hbnsB, hbnsA] at hC
    obtain ⟨-, -, -, -, -, -, -, -, -, hbnsC, -⟩ :=
      mark_extent_offshard cB ptrs (-(c.btree_node_size : Int))
        BchDataType.btree uA 0 fl false cC uC (Or.inl hC)
    rw [hbnsC, hbnsB, hbnsA] at hD
    obtain ⟨hcD, huC, huD⟩ := mark_extent_cross_roundtrip c ptrs
      (c.btree_node_size : Int) BchDataType.btree u w fl cA cB cC cD
      uA uB uC uD hkF.1 hkF.2 hkT.2 hA hB hC hD
    subst hcD
    exact ⟨rfl, huC, huD⟩
  | stripe idx v =>
    unfold __bch2_mark_key at hA hB hC hD
    dsimp only at hA hB hC hD
    exact mark_stripe_cross_roundtrip c idx v u w fl cA cB cC cD uA uB uC uD
      hA hB hC hD
  | alloc =>
    unfold __bch2_mark_key at hA hB hC hD
    simp only [CRes.ok.injEq, Prod.mk.injEq, if_true, ite_true, if_false,
      ite_false] at hA hB hC hD
    obtain ⟨hA1, hA2⟩ := hA
    obtain ⟨hB1, hB2⟩ := hB
    obtain ⟨hC1, hC2⟩ := hC
    obtain ⟨hD1, hD2⟩ := hD
    subst hA1 hB1 hC1 hD1
    refine ⟨rfl, ?_, ?_⟩
    · rw [← hC2, ← hA2]
      ext
      all_goals simp
    · rw [← hD2, ← hB2]
      ext
      all_goals simp
  | reservation nr =>
    unfold __bch2_mark_key at hA hB hC hD
    simp only [CRes.ok.injEq, Prod.mk.injEq] at hA hB hC hD
    obtain ⟨hA1, hA2⟩ := hA
    obtain ⟨hB1, hB2⟩ := hB
    obtain ⟨hC1, hC2⟩ := hC
    obtain ⟨hD1, hD2⟩ := hD
    subst hA1 hB1 hC1 hD1
    refine ⟨rfl, ?_, ?_⟩
    · rw [← hC2, ← hA2]
      unfold BchFsUsage.updReplicas
      ext
      all_goals simp only [Function.update_apply]
      all_goals try split_ifs
      all_goals try subst_vars
      all_goals first
        | rfl
        | ring1
        | omega
        | (simp_all [Function.update_apply]; try ring1)
    · rw [← hD2, ← hB2]
      unfold BchFsUsage.updReplicas
      ext
      all_goals simp only [Function.update_apply]
      all_goals try split_ifs
      all_goals try subst_vars
      all_goals first
        | rfl
        | ring1
        | omega
        | (simp_all [Function.update_apply]; try ring1)
  | other =>
    unfold __bch2_mark_key at hA hB hC hD
    simp only [CRes.ok.injEq, Prod.mk.injEq] at hA hB hC hD
    obtain ⟨hA1, hA2⟩ := hA
    obtain ⟨hB1, hB2⟩ := hB
    obtain ⟨hC1, hC2⟩ := hC
    obtain ⟨hD1, hD2⟩ := hD
    subst hA1 hB1 hC1 hD1
    subst hA2 hB2 hC2 hD2
    exact ⟨rfl, rfl, rfl⟩



theorem mark_key_inner_setUsage2 (c : BchFs) (g : Bool) (w : BchFsUsage)
    (g' : Bool) (w' : BchFsUsage) (k : BkeyVal) (ins : Bool) (s : Int)
    (u : BchFsUsage) (j : Nat) (fl : MarkFlags) (gc : Bool) :
    __bch2_mark_key ((c.setUsage g w).setUsage g' w') k ins s u j fl gc =
      match __bch2_mark_key c k ins s u j fl gc with
      | .ok (c', u') => .ok ((c'.setUsage g w).setUsage g' w', u')
      | .err (c', u') => .err ((c'.setUsage g w).setUsage g' w', u')
      | .trap => .trap := by
  rw [mark_key_inner_setUsage, mark_key_inner_setUsage]
  rcases h : __bch2_mark_key c k ins s u j fl gc with r | r | _
  · obtain ⟨c', u'⟩ := r
    rfl
  · obtain ⟨c', u'⟩ := r
    rfl
  · rfl

theorem mark_key_inner_setUsage3 (c : BchFs) (g : Bool) (w : BchFsUsage)
    (g' : Bool) (w' : BchFsUsage) (g'' : Bool) (w'' : BchFsUsage)
    (k : BkeyVal) (ins : Bool) (s : Int) (u : BchFsUsage) (j : Nat)
    (fl : MarkFlags) (gc : Bool) :
    __bch2_mark_key (((c.setUsage g w).setUsage g' w').setUsage g'' w'')
        k ins s u j fl gc =
      match __bch2_mark_key c k ins s u j fl gc with
      | .ok (c', u') =>
        .ok (((c'.setUsage g w).setUsage g' w').setUsage g'' w'', u')
      | .err (c', u') =>
        .err (((c'.setUsage g w).setUsage g' w').setUsage g'' w'', u')
      | .trap => .trap := by
  rw [mark_key_inner_setUsage, mark_key_inner_setUsage2]
  rcases h : __bch2_mark_key c k ins s u j fl gc with r | r | _
  · obtain ⟨c', u'⟩ := r
    rfl
  · obtain ⟨c', u'⟩ := r
    rfl
  · rfl

theorem setUsage_gc_cur (c : BchFs) (g : Bool) (w : BchFsUsage) :
    (c.setUsage g w).gc_cur = c.gc_cur := rfl

theorem markKeyLivePass_gc_cur (c : BchFs) (k : BkeyVal) (ins : Bool)
    (s : Int) (fsu fsu' : Option BchFsUsage) (j : Nat) (fl : MarkFlags)
    (d : BchFs)
    (h : markKeyLivePass c k ins s fsu j fl = .ok (d, fsu')) :
    d.gc_cur = c.gc_cur := by
  unfold markKeyLivePass at h
  rcases hin : __bch2_mark_key c k ins s (fsu.getD (c.usage false)) j fl false
      with r | r | _ <;> simp only [hin] at h
  · obtain ⟨c', u'⟩ := r
    have hoff := mark_key_inner_offshard c k ins s _ j fl false c' u'
      (Or.inl hin)
    rcases fsu with _ | u0 <;>
      simp only [CRes.ok.injEq, Prod.mk.injEq] at h
    · rw [← h.1, setUsage_gc_cur]
      exact hoff.gc_cur_eq
    · rw [← h.1]
      exact hoff.gc_cur_eq
  · exact CRes.noConfusion h
  · exact CRes.noConfusion h

theorem markKeyGcPass_gc_cur (c : BchFs) (k : BkeyVal) (ins : Bool)
    (s : Int) (fsu fsu' : Option BchFsUsage) (j : Nat) (fl : MarkFlags)
    (d : BchFs)
    (h : markKeyGcPass c k ins s fsu j fl = .ok (d, fsu')) :
    d.gc_cur = c.gc_cur := by
  unfold markKeyGcPass at h
  rcases hin : __bch2_mark_key c k ins s (c.usage true) j fl true
      with r | r | _ <;> simp only [hin] at h
  · obtain ⟨c', u'⟩ := r
    have hoff := mark_key_inner_offshard c k ins s _ j fl true c' u'
      (Or.inl hin)
    simp only [CRes.ok.injEq, Prod.mk.injEq] at h
    rw [← h.1, setUsage_gc_cur]
    exact hoff.gc_cur_eq
  · exact CRes.noConfusion h
  · exact CRes.noConfusion h



theorem markKeyBoth_roundtrip (c : BchFs) (k : BkeyVal) (S : Int)
    (fsu fsu₁ fsu₂ : Option BchFsUsage) (fl : MarkFlags) (d₁ d₂ : BchFs)
    (hkF : KeyRTOk c k false) (hkT : KeyRTOk c k true)
    (h₁ : (match markKeyLivePass c k true S fsu 0 fl with
           | .ok (e, g) => markKeyGcPass e k true S g 0 fl
           | .err s => .err s
           | .trap => .trap) = .ok (d₁, fsu₁))
    (h₂ : (match markKeyLivePass d₁ k false (-S) fsu₁ 0 fl with
           | .ok (e, g) => markKeyGcPass e k false (-S) g 0 fl
           | .err s => .err s
           | .trap => .trap) = .ok (d₂, fsu₂)) :
    d₂.devs = c.devs ∧ (∀ g, d₂.usage g = c.usage g) ∧ fsu₂ = fsu := by
  rcases hL1 : markKeyLivePass c k true S fsu 0 fl with s | s | _ <;>
    simp only [hL1] at h₁
  case err => exact CRes.noConfusion h₁
  case trap => exact CRes.noConfusion h₁
  obtain ⟨e₁, g₁⟩ := s
  dsimp only at h₁
  unfold markKeyLivePass at hL1
  rcases hA : __bch2_mark_key c k true S (fsu.getD (c.usage false)) 0 fl false
      with r | r | _ <;> simp only [hA] at hL1
  case err => exact CRes.noConfusion hL1
  case trap => exact CRes.noConfusion hL1
  obtain ⟨cA, uA⟩ := r
  have hAusage := mark_key_inner_usage c k true S _ 0 fl false cA uA hA
  rcases fsu with _ | u0
  · -- fsu = none: live pass writes straight into the live shard
    simp only [Option.getD, CRes.ok.injEq, Prod.mk.injEq] at hL1
    obtain ⟨he₁, hg₁⟩ := hL1
    subst he₁ hg₁
    unfold markKeyGcPass at h₁
    rw [show (cA.setUsage false uA).usage true = cA.usage true from rfl,
        hAusage, mark_key_inner_setUsage] at h₁
    rcases hB : __bch2_mark_key cA k true S (c.usage true) 0 fl true
        with r | r | _ <;> simp only [hB] at h₁
    case err => exact CRes.noConfusion h₁
    case trap => exact CRes.noConfusion h₁
    obtain ⟨cB, uB⟩ := r
    simp only [CRes.ok.injEq, Prod.mk.injEq] at h₁
    obtain ⟨hd₁, hfsu₁⟩ := h₁
    subst hfsu₁
    -- second call, live pass
    rcases hL2 : markKeyLivePass d₁ k false (-S) none 0 fl with s | s | _ <;>
      simp only [hL2] at h₂
    case err => exact CRes.noConfusion h₂
    case trap => exact CRes.noConfusion h₂
    obtain ⟨e₂, g₂⟩ := s
    dsimp only at h₂
    unfold markKeyLivePass at hL2
    have hd₁u : d₁.usage false = uA := by
      rw [← hd₁]
      rfl
    rw [show (none : Option BchFsUsage).getD (d₁.usage false) = d₁.usage false
        from rfl, hd₁u] at hL2
    rw [← hd₁] at hL2
    rw [mark_key_inner_setUsage2] at hL2
    rcases hC : __bch2_mark_key cB k false (-S) uA 0 fl false
        with r | r | _ <;> simp only [hC] at hL2
    case err => exact CRes.noConfusion hL2
    case trap => exact CRes.noConfusion hL2
    obtain ⟨cC, uC⟩ := r
    simp only [CRes.ok.injEq, Prod.mk.injEq] at hL2
    obtain ⟨he₂, hg₂⟩ := hL2
    subst hg₂
    -- second call, gc pass
    unfold markKeyGcPass at h₂
    have he₂u : e₂.usage true = uB := by
      rw [← he₂]
      rfl
    rw [he₂u, ← he₂] at h₂
    rw [mark_key_inner_setUsage3] at h₂
    rcases hD : __bch2_mark_key cC k false (-S) uB 0 fl true
        with r | r | _ <;> simp only [hD] at h₂
    case err => exact CRes.noConfusion h₂
    case trap => exact CRes.noConfusion h₂
    obtain ⟨cD, uD⟩ := r
    simp only [CRes.ok.injEq, Prod.mk.injEq] at h₂
    obtain ⟨hd₂, hfsu₂⟩ := h₂
    subst hfsu₂
    obtain ⟨hcD, huC, huD⟩ := mark_key_inner_cross_roundtrip c k S
      (c.usage false) (c.usage true) fl cA cB cC cD uA uB uC uD hkF hkT
      hA hB hC hD
    refine ⟨?_, ?_, rfl⟩
    · rw [← hd₂, hcD]
      rfl
    · intro g
      rw [← hd₂]
      rw [show ((((cD.setUsage false uA).setUsage true uB).setUsage false
          uC).setUsage true uD).usage g =
          if g = true then uD else if g = false then uC else
          if g = true then uB else if g = false then uA else cD.usage g
          from rfl]
      by_cases hg : g = true
      · rw [if_pos hg, huD, hg]
      · rw [if_neg hg]
        have hg' : g = false := by
          cases g
          · rfl
          · exact absurd rfl hg
        rw [if_pos hg', huC, hg']
  · -- fsu = some u0: the caller's usage struct is threaded
    simp only [Option.getD, CRes.ok.injEq, Prod.mk.injEq] at hL1
    obtain ⟨he₁, hg₁⟩ := hL1
    subst he₁ hg₁
    unfold markKeyGcPass at h₁
    rw [hAusage] at h₁
    rcases hB : __bch2_mark_key cA k true S (c.usage true) 0 fl true
        with r | r | _ <;> simp only [hB] at h₁
    case err => exact CRes.noConfusion h₁
    case trap => exact CRes.noConfusion h₁
    obtain ⟨cB, uB⟩ := r
    simp only [CRes.ok.injEq, Prod.mk.injEq] at h₁
    obtain ⟨hd₁, hfsu₁⟩ := h₁
    subst hfsu₁
    rcases hL2 : markKeyLivePass d₁ k false (-S) (some uA) 0 fl with s | s | _ <;>
      simp only [hL2] at h₂
    case err => exact CRes.noConfusion h₂
    case trap => exact CRes.noConfusion h₂
    obtain ⟨e₂, g₂⟩ := s
    dsimp only at h₂
    unfold markKeyLivePass at hL2
    rw [show (some uA).getD (d₁.usage false) = uA from rfl] at hL2
    rw [← hd₁, mark_key_inner_setUsage] at hL2
    rcases hC : __bch2_mark_key cB k false (-S) uA 0 fl false
        with r | r | _ <;> simp only [hC] at hL2
    case err => exact CRes.noConfusion hL2
    case trap => exact CRes.noConfusion hL2
    obtain ⟨cC, uC⟩ := r
    simp only [CRes.ok.injEq, Prod.mk.injEq] at hL2
    obtain ⟨he₂, hg₂⟩ := hL2
    subst hg₂
    unfold markKeyGcPass at h₂
    have he₂u : e₂.usage true = uB := by
      rw [← he₂]
      rfl
    rw [he₂u, ← he₂] at h₂
    rw [mark_key_inner_setUsage] at h₂
    rcases hD : __bch2_mark_key cC k false (-S) uB 0 fl true
        with r | r | _ <;> simp only [hD] at h₂
    case err => exact CRes.noConfusion h₂
    case trap => exact CRes.noConfusion h₂
    obtain ⟨cD, uD⟩ := r
    simp only [CRes.ok.injEq, Prod.mk.injEq] at h₂
    obtain ⟨hd₂, hfsu₂⟩ := h₂
    subst hfsu₂
    obtain ⟨hcD, huC, huD⟩ := mark_key_inner_cross_roundtrip c k S
      u0 (c.usage true) fl cA cB cC cD uA uB uC uD hkF hkT hA hB hC hD
    refine ⟨?_, ?_, by rw [huC]⟩
    · rw [← hd₂, hcD]
      rfl
    · intro g
      rw [← hd₂]
      rw [show (((cD.setUsage true uB).setUsage true uD)).usage g =
          if g = true then uD else if g = true then uB else cD.usage g
          from rfl]
      by_cases hg : g = true
      · rw [if_pos hg, huD, hg]
      · rw [if_neg hg, if_neg hg]
        rw [hcD]


theorem markKeyBoth_gc_cur (c : BchFs) (k : BkeyVal) (ins : Bool) (s : Int)
    (fsu fsu' : Option BchFsUsage) (j : Nat) (fl : MarkFlags) (d : BchFs)
    (h : (match markKeyLivePass c k ins s fsu j fl with
          | .ok (e, g) => markKeyGcPass e k ins s g j fl
          | .err s => .err s
          | .trap => .trap) = .ok (d, fsu')) :
    d.gc_cur = c.gc_cur := by
  rcases hL : markKeyLivePass c k ins s fsu j fl with r | r | _ <;>
    simp only [hL] at h
  case err => exact CRes.noConfusion h
  case trap => exact CRes.noConfusion h
  obtain ⟨e, g⟩ := r
  dsimp only at h
  rw [markKeyGcPass_gc_cur e k ins s g fsu' j fl d h]
  exact markKeyLivePass_gc_cur c k ins s fsu g j fl e hL

/-- C2 amended: with a zero journal sequence, uncompressed pointers whose
bucket marks are compatible on both shards (`KeyRTOk`: sector counts below
their field ceilings and `data_type` consistent with the counts), and both
calls returning 0, `mark_key(k, insert, S)` followed by
`mark_key(k, ¬insert, −S)` returns every bucket mark (both shards), every
device-usage counter, both fs-usage shards and the caller's usage struct to
their state before the first call — whichever combination of the live and
gc passes the flags and `gc_visited(pos)` select.  (The stripe record
created by a stripe key is retired but not erased, and a non-zero journal
sequence breaks the round trip: see the counterexample.) -/
theorem mark_key_roundtrip (c : BchFs) (k : BkeyVal) (S : Int) (pos : Nat)
    (fsu fsu₁ fsu₂ : Option BchFsUsage) (fl : MarkFlags) (d₁ d₂ : BchFs)
    (hkF : KeyRTOk c k false) (hkT : KeyRTOk c k true)
    (h₁ : bch2_mark_key c k true S pos fsu 0 fl = .ok (d₁, fsu₁))
    (h₂ : bch2_mark_key d₁ k false (-S) pos fsu₁ 0 fl = .ok (d₂, fsu₂)) :
    d₂.devs = c.devs ∧ (∀ g, d₂.usage g = c.usage g) ∧ fsu₂ = fsu := by
  unfold bch2_mark_key at h₁ h₂
  by_cases hgc : fl.gc = true
  · rw [mark_key_routing_gc c k true S pos fsu 0 fl hgc] at h₁
    rw [mark_key_routing_gc d₁ k false (-S) pos fsu₁ 0 fl hgc] at h₂
    exact markKeyGcPass_roundtrip c k S fsu fsu₁ fsu₂ fl d₁ d₂ hkT h₁ h₂
  · have hgc' : fl.gc = false := by
      cases hq : fl.gc
      · rfl
      · exact absurd hq hgc
    by_cases hv : gc_visited c pos = true
    · rw [mark_key_routing_both c k true S pos fsu 0 fl hgc' hv] at h₁
      have hcur := markKeyBoth_gc_cur c k true S fsu fsu₁ 0 fl d₁ h₁
      have hv' : gc_visited d₁ pos = true := by
        unfold gc_visited at hv ⊢
        rw [hcur]
        exact hv
      rw [mark_key_routing_both d₁ k false (-S) pos fsu₁ 0 fl hgc' hv'] at h₂
      exact markKeyBoth_roundtrip c k S fsu fsu₁ fsu₂ fl d₁ d₂ hkF hkT h₁ h₂
    · have hv0 : gc_visited c pos = false := by
        cases hq : gc_visited c pos
        · rfl
        · exact absurd hq hv
      rw [mark_key_routing_live c k true S pos fsu 0 fl hgc' hv0] at h₁
      have hcur := markKeyLivePass_gc_cur c k true S fsu fsu₁ 0 fl d₁ h₁
      have hv' : gc_visited d₁ pos = false := by
        unfold gc_visited at hv0 ⊢
        rw [hcur]
        exact hv0
      rw [mark_key_routing_live d₁ k false (-S) pos fsu₁ 0 fl hgc' hv'] at h₂
      exact markKeyLivePass_roundtrip c k S fsu fsu₁ fsu₂ fl d₁ d₂ hkF h₁ h₂

/-- C2 counterexample: with a non-zero journal sequence (7), marking an
extent and then unmarking it empties the bucket again, and the second call
stamps `journal_seq_valid`/`journal_seq` into the emptied bucket's mark —
the bucket mark is NOT returned to its prior state, refuting the claim as
stated for every journal sequence. -/
theorem mark_key_journal_roundtrip_cx :
    (bch2_mark_key fsFix (BkeyVal.extent [ptrFix]) true 100 0
      (some BchFsUsage.zero) 7 ⟨false, false⟩).isOk = true ∧
    (bch2_mark_key c2X1.1 (BkeyVal.extent [ptrFix]) false (-100) 0 c2X1.2 7
      ⟨false, false⟩).isOk = true ∧
    ((c2X2.1.devs 0).buckets false 0).journal_seq_valid = true ∧
    ((c2X2.1.devs 0).buckets false 0).journal_seq = 7 ∧
    ((fsFix.devs 0).buckets false 0).journal_seq_valid = false := by
  refine ⟨by decide, by decide, by decide, by decide, by decide⟩

theorem mark_key_roundtrip_witness :
    KeyRTOk fsFix (BkeyVal.extent [ptrFix]) false ∧
    KeyRTOk fsFix (BkeyVal.extent [ptrFix]) true ∧
    bch2_mark_key fsFix (BkeyVal.extent [ptrFix]) true 100 0
      (some BchFsUsage.zero) 0 ⟨false, false⟩ = .ok (c2W1.1, c2W1.2) ∧
    bch2_mark_key c2W1.1 (BkeyVal.extent [ptrFix]) false (-100) 0 c2W1.2 0
      ⟨false, false⟩ = .ok (c2W2.1, c2W2.2) ∧
    (c2W2.1.devs = fsFix.devs ∧ (∀ g, c2W2.1.usage g = fsFix.usage g) ∧
     c2W2.2 = some BchFsUsage.zero) := by
  have hkF : KeyRTOk fsFix (BkeyVal.extent [ptrFix]) false := by
    refine ⟨fun p hp => ?_, fun p hp => ?_⟩
    · rw [List.mem_singleton] at hp
      subst hp
      rfl
    · rw [List.mem_singleton] at hp
      subst hp
      exact ⟨by decide, by decide, fun _ => rfl, fun h => absurd ⟨rfl, rfl⟩ h⟩
  have hkT : KeyRTOk fsFix (BkeyVal.extent [ptrFix]) true := by
    refine ⟨fun p hp => ?_, fun p hp => ?_⟩
    · rw [List.mem_singleton] at hp
      subst hp
      rfl
    · rw [List.mem_singleton] at hp
      subst hp
      exact ⟨by decide, by decide, fun _ => rfl, fun h => absurd ⟨rfl, rfl⟩ h⟩
  exact ⟨hkF, hkT, by rfl, by rfl,
    mark_key_roundtrip fsFix (BkeyVal.extent [ptrFix]) 100 0
      (some BchFsUsage.zero) c2W1.2 c2W2.2 ⟨false, false⟩ c2W1.1 c2W2.1
      hkF hkT (by rfl) (by rfl)⟩


end Buckets
